import Mathlib

/-!
# METROBANK API training bootcamp backend: a verification development

A shallow embedding of `src/backend/server.js` (the Express/lowdb backend) and
theorems about its route handlers.

Modelling conventions

* The lowdb document `db.data` is the record `Document`; a handler is a pure
  function from the document (and the request, the clock, the random source)
  to a reply that carries the HTTP status, the returned record and the document
  as it stands after the handler.
* JSON values that handlers compare, stringify or test for truthiness are
  values of `JVal` (`undefined`, `null`, booleans, integral numbers, strings,
  arrays and objects).  `String(n)` is the decimal numeral, which is what
  JavaScript prints below `10 ^ 21`.
* An array or an object is compared by reference under `===`, `includes` and
  `==`.  The document is read from its file and the request body is parsed
  anew for every request, so a value of the request is never the same object
  as a value held by the document: such a comparison is false.
* JavaScript numbers are IEEE-754 binary64.  The only non-integral arithmetic in
  the modelled handlers is `(openedCount / totalItems) * 100`; it is modelled
  exactly (round to nearest, ties to even, 53 significant bits), in the range
  without overflow or subnormals, which contains every quotient of two array
  lengths.
* Library functions whose full definition is the Unicode or Node.js standard
  (`toLowerCase`, `trim`, string to number conversion, `path.join`) are fields
  of a `Runtime`; `asciiRuntime` implements them on ASCII text.
-/

namespace Metrobank

/-! ## JSON values -/

/-- A JSON value as seen by a handler (`undefined` for an absent field). -/
inductive JVal where
  | undefined : JVal
  | null : JVal
  | bool (b : Bool) : JVal
  | num (n : Int) : JVal
  | str (s : String) : JVal
  | arr (items : List JVal) : JVal
  | obj (fields : List (String × JVal)) : JVal
  deriving Repr, Inhabited

mutual
/-- Equality of JSON values (as values, not as references) is decidable. -/
def JVal.decEq : (a b : JVal) → Decidable (a = b)
  | .undefined, .undefined => isTrue rfl
  | .null, .null => isTrue rfl
  | .bool a, .bool b =>
    if h : a = b then isTrue (congrArg JVal.bool h) else isFalse (fun e => h (JVal.bool.inj e))
  | .num a, .num b =>
    if h : a = b then isTrue (congrArg JVal.num h) else isFalse (fun e => h (JVal.num.inj e))
  | .str a, .str b =>
    if h : a = b then isTrue (congrArg JVal.str h) else isFalse (fun e => h (JVal.str.inj e))
  | .arr a, .arr b =>
    match JVal.decEqList a b with
    | isTrue h => isTrue (congrArg JVal.arr h)
    | isFalse h => isFalse (fun e => h (JVal.arr.inj e))
  | .obj a, .obj b =>
    match JVal.decEqFields a b with
    | isTrue h => isTrue (congrArg JVal.obj h)
    | isFalse h => isFalse (fun e => h (JVal.obj.inj e))
  | .undefined, .null => isFalse (fun e => JVal.noConfusion e)
  | .undefined, .bool _ => isFalse (fun e => JVal.noConfusion e)
  | .undefined, .num _ => isFalse (fun e => JVal.noConfusion e)
  | .undefined, .str _ => isFalse (fun e => JVal.noConfusion e)
  | .undefined, .arr _ => isFalse (fun e => JVal.noConfusion e)
  | .undefined, .obj _ => isFalse (fun e => JVal.noConfusion e)
  | .null, .undefined => isFalse (fun e => JVal.noConfusion e)
  | .null, .bool _ => isFalse (fun e => JVal.noConfusion e)
  | .null, .num _ => isFalse (fun e => JVal.noConfusion e)
  | .null, .str _ => isFalse (fun e => JVal.noConfusion e)
  | .null, .arr _ => isFalse (fun e => JVal.noConfusion e)
  | .null, .obj _ => isFalse (fun e => JVal.noConfusion e)
  | .bool _, .undefined => isFalse (fun e => JVal.noConfusion e)
  | .bool _, .null => isFalse (fun e => JVal.noConfusion e)
  | .bool _, .num _ => isFalse (fun e => JVal.noConfusion e)
  | .bool _, .str _ => isFalse (fun e => JVal.noConfusion e)
  | .bool _, .arr _ => isFalse (fun e => JVal.noConfusion e)
  | .bool _, .obj _ => isFalse (fun e => JVal.noConfusion e)
  | .num _, .undefined => isFalse (fun e => JVal.noConfusion e)
  | .num _, .null => isFalse (fun e => JVal.noConfusion e)
  | .num _, .bool _ => isFalse (fun e => JVal.noConfusion e)
  | .num _, .str _ => isFalse (fun e => JVal.noConfusion e)
  | .num _, .arr _ => isFalse (fun e => JVal.noConfusion e)
  | .num _, .obj _ => isFalse (fun e => JVal.noConfusion e)
  | .str _, .undefined => isFalse (fun e => JVal.noConfusion e)
  | .str _, .null => isFalse (fun e => JVal.noConfusion e)
  | .str _, .bool _ => isFalse (fun e => JVal.noConfusion e)
  | .str _, .num _ => isFalse (fun e => JVal.noConfusion e)
  | .str _, .arr _ => isFalse (fun e => JVal.noConfusion e)
  | .str _, .obj _ => isFalse (fun e => JVal.noConfusion e)
  | .arr _, .undefined => isFalse (fun e => JVal.noConfusion e)
  | .arr _, .null => isFalse (fun e => JVal.noConfusion e)
  | .arr _, .bool _ => isFalse (fun e => JVal.noConfusion e)
  | .arr _, .num _ => isFalse (fun e => JVal.noConfusion e)
  | .arr _, .str _ => isFalse (fun e => JVal.noConfusion e)
  | .arr _, .obj _ => isFalse (fun e => JVal.noConfusion e)
  | .obj _, .undefined => isFalse (fun e => JVal.noConfusion e)
  | .obj _, .null => isFalse (fun e => JVal.noConfusion e)
  | .obj _, .bool _ => isFalse (fun e => JVal.noConfusion e)
  | .obj _, .num _ => isFalse (fun e => JVal.noConfusion e)
  | .obj _, .str _ => isFalse (fun e => JVal.noConfusion e)
  | .obj _, .arr _ => isFalse (fun e => JVal.noConfusion e)
/-- Equality of lists of JSON values is decidable. -/
def JVal.decEqList : (a b : List JVal) → Decidable (a = b)
  | [], [] => isTrue rfl
  | [], _ :: _ => isFalse (fun e => List.noConfusion e)
  | _ :: _, [] => isFalse (fun e => List.noConfusion e)
  | a :: as, b :: bs =>
    match JVal.decEq a b, JVal.decEqList as bs with
    | isTrue h1, isTrue h2 => isTrue (h1 ▸ h2 ▸ rfl)
    | isFalse h1, _ => isFalse (fun e => h1 (List.cons.inj e).1)
    | _, isFalse h2 => isFalse (fun e => h2 (List.cons.inj e).2)
/-- Equality of lists of fields is decidable. -/
def JVal.decEqFields : (a b : List (String × JVal)) → Decidable (a = b)
  | [], [] => isTrue rfl
  | [], _ :: _ => isFalse (fun e => List.noConfusion e)
  | _ :: _, [] => isFalse (fun e => List.noConfusion e)
  | (k, a) :: as, (l, b) :: bs =>
    if hk : k = l then
      match JVal.decEq a b, JVal.decEqFields as bs with
      | isTrue h1, isTrue h2 => isTrue (hk ▸ h1 ▸ h2 ▸ rfl)
      | isFalse h1, _ => isFalse (fun e => h1 (Prod.mk.inj (List.cons.inj e).1).2)
      | _, isFalse h2 => isFalse (fun e => h2 (List.cons.inj e).2)
    else isFalse (fun e => hk (Prod.mk.inj (List.cons.inj e).1).1)
end

instance : DecidableEq JVal := JVal.decEq

/-- JavaScript truthiness (`!!v`); every array and every object is truthy. -/
def truthy : JVal → Bool
  | .undefined => false
  | .null => false
  | .bool b => b
  | .num n => n != 0
  | .str s => s != ""
  | .arr _ => true
  | .obj _ => true

mutual
/-- JavaScript `String(v)`; an array prints as its items joined by commas. -/
def jsString : JVal → String
  | .undefined => "undefined"
  | .null => "null"
  | .bool true => "true"
  | .bool false => "false"
  | .num n => toString n
  | .str s => s
  | .arr items => jsJoin items
  | .obj _ => "[object Object]"
/-- The method `Array.prototype.join` with a comma. -/
def jsJoin : List JVal → String
  | [] => ""
  | [v] => jsItem v
  | v :: w :: rest => jsItem v ++ "," ++ jsJoin (w :: rest)
/-- The text of one item of a join: empty for `null` and `undefined`, and
`String(v)` otherwise. -/
def jsItem : JVal → String
  | .undefined => ""
  | .null => ""
  | .bool true => "true"
  | .bool false => "false"
  | .num n => toString n
  | .str s => s
  | .arr items => jsJoin items
  | .obj _ => "[object Object]"
end

/-- Is the value an array or an object, which JavaScript compares by reference. -/
def JVal.isObject : JVal → Bool
  | .arr _ => true
  | .obj _ => true
  | _ => false

/-- JavaScript `stored === v` between a value held by the document and a value
of the request: equal primitives; an array or an object of the document is
never the object the request carries. -/
def strictEq (stored v : JVal) : Bool := !stored.isObject && stored == v

/-- JavaScript `list.includes(v)` on a list held by the document. -/
def includes (list : List JVal) (v : JVal) : Bool := list.any (fun x => strictEq x v)

/-- The library functions the handlers call, whose definitions live in the
language and platform standards. -/
structure Runtime where
  /-- Is `String.prototype.toLowerCase`. -/
  toLowerCase : String → String
  /-- Is `String.prototype.trim`. -/
  trim : String → String
  /-- Is the string to number conversion, `none` when the result is not an integer. -/
  toNumber : String → Option Int
  /-- Is `path.join` on two segments. -/
  pathJoin : String → String → String

/-- The value of a list of decimal digits. -/
def digitsValue (ds : List Char) : Nat :=
  ds.foldl (fun n c => 10 * n + (c.toNat - 48)) 0

/-- Decimal numerals with an optional minus sign, the fragment of the string to
number conversion used in the examples. -/
def decimalToNumber (s : String) : Option Int :=
  match s.toList with
  | '-' :: ds => if ds ≠ [] ∧ ds.all Char.isDigit then some (- (digitsValue ds : Int)) else none
  | ds => if ds ≠ [] ∧ ds.all Char.isDigit then some (digitsValue ds : Int) else none

/-- Lower-case the ASCII letters of a string. -/
def asciiLower (s : String) : String :=
  String.mk (s.toList.map Char.toLower)

/-- The ASCII white space that `trim` strips: space, tab, line feed, carriage return. -/
def isAsciiSpace (c : Char) : Bool :=
  c = ' ' || c = '\t' || c = '\n' || c = '\r'

/-- Strip leading and trailing ASCII white space. -/
def asciiTrim (s : String) : String :=
  String.mk ((s.toList.dropWhile isAsciiSpace).reverse.dropWhile isAsciiSpace).reverse

/-- The runtime restricted to ASCII text. -/
def asciiRuntime : Runtime where
  toLowerCase := asciiLower
  trim := asciiTrim
  toNumber := decimalToNumber
  pathJoin := fun a b => a ++ "/" ++ b

/-- JavaScript loose equality `v == id` where `id` is a string (a route parameter). -/
def looseEqStr (rt : Runtime) (v : JVal) (id : String) : Bool :=
  match v with
  | .str s => s == id
  | .num n => rt.toNumber id == some n
  | .bool b => rt.toNumber id == some (if b then 1 else 0)
  | .null => false
  | .undefined => false
  | .arr items => jsString (.arr items) == id
  | .obj fields => jsString (.obj fields) == id

/-! ## binary64 arithmetic used by the completion rate -/

/-- Round the fraction `n / d` to the nearest integer, ties to even. -/
def roundTiesEven (n d : Nat) : Nat :=
  let q := n / d
  let r := n % d
  if 2 * r < d then q
  else if d < 2 * r then q + 1
  else if q % 2 = 0 then q else q + 1

/-- Halve `n` until it is below two, counting the steps (at most `fuel`). -/
def bitLog2Go : Nat → Nat → Nat
  | 0, _ => 0
  | fuel + 1, n => if n < 2 then 0 else bitLog2Go fuel (n / 2) + 1

/-- Floor of the base-2 logarithm of a positive natural number (`0` at `0`),
by repeated halving. -/
def bitLog2 (n : Nat) : Nat := bitLog2Go n n

/-- The exponent offset of `fl`: with `a = flOffset n d`, the quotient
`n * 2 ^ a / (d * 2 ^ bitLog2 n)` lies in `[2 ^ 52, 2 ^ 53)`. -/
def flOffset (n d : Nat) : Nat :=
  52 + bitLog2 d + (if d * 2 ^ bitLog2 n ≤ n * 2 ^ bitLog2 d then 0 else 1)

/-- The binary64 number nearest to `n / d` (ties to even), as a fraction
`(numerator, denominator)`: the quotient is scaled into `[2 ^ 52, 2 ^ 53)`,
rounded to an integer significand and scaled back. -/
def fl (n d : Nat) : Nat × Nat :=
  if n = 0 then (0, 1)
  else if bitLog2 n ≤ flOffset n d then
    (roundTiesEven (n * 2 ^ (flOffset n d - bitLog2 n)) d, 2 ^ (flOffset n d - bitLog2 n))
  else
    (roundTiesEven n (d * 2 ^ (bitLog2 n - flOffset n d)) * 2 ^ (bitLog2 n - flOffset n d), 1)

/-- JavaScript `a / b` on two array lengths. -/
def jsDiv (a b : Nat) : Nat × Nat := fl a b

/-- JavaScript `x * 100` on a binary64 value `x`. -/
def jsMul100 (x : Nat × Nat) : Nat × Nat := fl (x.1 * 100) x.2

/-- JavaScript `Math.round` on a non-negative binary64 value: the nearest
integer, a tie going up. -/
def mathRound (x : Nat × Nat) : Nat := (2 * x.1 + x.2) / (2 * x.2)

/-- The expression
`totalItems > 0 ? Math.round((openedCount / totalItems) * 100) : 0`. -/
def completionRateOf (openedCount totalItems : Nat) : Nat :=
  if totalItems > 0 then mathRound (jsMul100 (jsDiv openedCount totalItems)) else 0

/-- The rate as the specification words it: `100 * O / T` rounded half up on
the exact rational, and `0` when `T = 0`. -/
def specCompletionRate (opened total : Nat) : Nat :=
  if total > 0 then (2 * (100 * opened) + total) / (2 * total) else 0

/-! ## The document -/

/-- A question of an assessment. -/
structure Question where
  id : Nat
  questionNumber : Int
  questionType : JVal
  question : JVal
  options : List JVal
  answer : JVal
  expectedAnswer : JVal
  points : Int
  deriving DecidableEq, Repr

/-- The content bundle of a lesson. -/
structure LessonContent where
  handout : Option String
  videos : List String
  powerpoints : List String
  deriving DecidableEq, Repr

/-- A record of `db.data.lessons`. -/
structure Lesson where
  id : JVal
  title : String
  description : String
  courseId : JVal
  content : LessonContent
  uploadedBy : JVal
  uploadedAt : String
  deriving DecidableEq, Repr

/-- A record of `db.data.assessments`. -/
structure Assessment where
  id : JVal
  title : String
  type : JVal
  difficulty : JVal
  courseId : JVal
  lessonId : JVal
  duration : JVal
  deadline : JVal
  questions : List Question
  createdAt : String
  deriving DecidableEq, Repr

/-- A record of `db.data.courses`.  `POST /api/courses` writes the first seven
fields; `courseId` and `courseTitle` are the fields that
`PUT /api/assigned/:userId` reads, `undefined` on a record that lacks them. -/
structure Course where
  id : JVal
  title : JVal
  description : JVal
  image : Option String
  createdAt : String
  uploadedBy : JVal
  status : String
  courseId : JVal := .undefined
  courseTitle : JVal := .undefined
  deriving DecidableEq, Repr

/-- A record of `db.data.users`. -/
structure User where
  id : Nat
  userId : String
  fullName : String
  userType : JVal
  email : String
  password : String
  createdAt : String
  status : String
  dateArchived : String
  deriving DecidableEq, Repr

/-- A record of `db.data.assigned`. -/
structure Assignment where
  id : Nat
  userId : JVal
  fullName : JVal
  userType : String
  email : JVal
  courseId : JVal
  courseTitle : JVal
  status : JVal
  progress : JVal
  assignedDate : String
  deriving DecidableEq, Repr

/-- A record of `db.data.progress`. -/
structure Progress where
  id : Nat
  userId : JVal
  courseId : JVal
  openedLessons : List JVal
  openedAssessments : List JVal
  completionRate : Nat
  lastUpdated : String
  deriving DecidableEq, Repr

/-- The lowdb document `db.data`.  The `assigned` collection is created by the
first assignment only, so it may be absent. -/
structure Document where
  users : List User
  courses : List Course
  lessons : List Lesson
  assessments : List Assessment
  submissions : List JVal
  progress : List Progress
  assigned : Option (List Assignment)
  deriving DecidableEq, Repr

/-- The clock readings of one request: `Date.now()` and
`new Date().toISOString()`. -/
structure Clock where
  now : Nat
  iso : String
  deriving DecidableEq, Repr

/-! ## Progress tracking -/

/-- The callback of `db.data.progress.find`:
`p.userId === userId && String(p.courseId) === String(courseId)`. -/
def progressMatches (userId courseId : JVal) (p : Progress) : Bool :=
  strictEq p.userId userId && jsString p.courseId == jsString courseId

/-- Lessons of a course: `db.data.lessons.filter(l => String(l.courseId) === String(courseId)).length`. -/
def totalLessons (d : Document) (courseId : JVal) : Nat :=
  (d.lessons.filter (fun l => jsString l.courseId == jsString courseId)).length

/-- Assessments of a course, counted like the lessons. -/
def totalAssessments (d : Document) (courseId : JVal) : Nat :=
  (d.assessments.filter (fun a => jsString a.courseId == jsString courseId)).length

/-- The record literal pushed when `find` returns nothing. -/
def newProgress (clk : Clock) (userId courseId : JVal) : Progress :=
  { id := clk.now, userId := userId, courseId := courseId, openedLessons := [],
    openedAssessments := [], completionRate := 0, lastUpdated := clk.iso }

/-- Apply `f` to the first element that satisfies `p`: the effect, on the
collection, of mutating the object that `find` returned. -/
def updateFirst {α : Type} (p : α → Bool) (f : α → α) : List α → List α
  | [] => []
  | x :: xs => if p x then f x :: xs else x :: updateFirst p f xs

/-- The statement `if (id && !list.includes(id)) list.push(id)`. -/
def pushIfNew (id : JVal) (list : List JVal) : List JVal :=
  if truthy id && !includes list id then list ++ [id] else list

/-- What a progress handler answers: the status, the `progress` of the body
(when the status is 200) and the document afterwards. -/
structure ProgressReply where
  status : Nat
  progress : Option Progress
  doc : Document
  deriving DecidableEq, Repr

/-- The body of `POST /api/progress/update`. -/
structure ProgressUpdate where
  userId : JVal
  courseId : JVal
  lessonId : JVal
  assessmentId : JVal
  deriving DecidableEq, Repr

/-- The mutation `POST /api/progress/update` applies to the record it found or
created: track the opened item, recompute the rate, stamp the time. -/
def recordOpened (d : Document) (clk : Clock) (req : ProgressUpdate) (p : Progress) : Progress :=
  let openedLessons := pushIfNew req.lessonId p.openedLessons
  let openedAssessments := pushIfNew req.assessmentId p.openedAssessments
  let totalItems := totalLessons d req.courseId + totalAssessments d req.courseId
  let openedCount := openedLessons.length + openedAssessments.length
  { p with
    openedLessons := openedLessons
    openedAssessments := openedAssessments
    completionRate := completionRateOf openedCount totalItems
    lastUpdated := clk.iso }

/-- Handler of `POST /api/progress/update`. -/
def postProgressUpdate (d : Document) (clk : Clock) (req : ProgressUpdate) : ProgressReply :=
  if !truthy req.userId || !truthy req.courseId then
    { status := 400, progress := none, doc := d }
  else
    match d.progress.find? (progressMatches req.userId req.courseId) with
    | some p =>
      let p1 := recordOpened d clk req p
      let progress1 := updateFirst (progressMatches req.userId req.courseId) (fun _ => p1) d.progress
      { status := 200, progress := some p1, doc := { d with progress := progress1 } }
    | none =>
      let p1 := recordOpened d clk req (newProgress clk req.userId req.courseId)
      { status := 200, progress := some p1, doc := { d with progress := d.progress ++ [p1] } }

/-- The recomputation of `GET /api/progress/:userId/:courseId` on the record it
found or created. -/
def refreshRate (d : Document) (clk : Clock) (courseId : String) (p : Progress) : Progress :=
  let totalItems := totalLessons d (.str courseId) + totalAssessments d (.str courseId)
  let openedCount := p.openedLessons.length + p.openedAssessments.length
  { p with completionRate := completionRateOf openedCount totalItems, lastUpdated := clk.iso }

/-- Handler of `GET /api/progress/:userId/:courseId`; route parameters are strings. -/
def getProgress (d : Document) (clk : Clock) (userId courseId : String) : ProgressReply :=
  match d.progress.find? (progressMatches (.str userId) (.str courseId)) with
  | some p =>
    let p1 := refreshRate d clk courseId p
    let progress1 := updateFirst (progressMatches (.str userId) (.str courseId)) (fun _ => p1) d.progress
    { status := 200, progress := some p1, doc := { d with progress := progress1 } }
  | none =>
    let p1 := refreshRate d clk courseId (newProgress clk (.str userId) (.str courseId))
    { status := 200, progress := some p1, doc := { d with progress := d.progress ++ [p1] } }

/-- The pair that identifies a progress record: the user id as stored and the
string form of the course id. -/
def progressKey (p : Progress) : JVal × String := (p.userId, jsString p.courseId)

/-- A progress record with its time stamp blanked. -/
def stripTime (p : Progress) : Progress := { p with lastUpdated := "" }

/-! ## Example documents -/

/-- A lesson of the given course. -/
def sampleLesson (id : Int) (courseId : JVal) : Lesson :=
  { id := .num id, title := "Lesson", description := "", courseId := courseId,
    content := { handout := none, videos := [], powerpoints := [] },
    uploadedBy := .str "S1234", uploadedAt := "2025-01-01T00:00:00.000Z" }

/-- A document with the given lessons and progress records and nothing else. -/
def sampleDoc (lessons : List Lesson) (progress : List Progress) : Document :=
  { users := [], courses := [], lessons := lessons, assessments := [], submissions := [],
    progress := progress, assigned := none }

/-- A clock reading. -/
def sampleClock : Clock := { now := 1735689600000, iso := "2025-01-01T00:00:00.000Z" }

/-- A later clock reading. -/
def laterClock : Clock := { now := 1735689660000, iso := "2025-01-01T00:01:00.000Z" }

/-- Course 5 with forty lessons; trainee T1001 has opened lessons 1 to 22. -/
def fortyLessonDoc : Document :=
  sampleDoc ((List.range 40).map (fun i => sampleLesson (i + 1) (.num 5)))
    [{ id := 1, userId := .str "T1001", courseId := .num 5,
       openedLessons := (List.range 22).map (fun i => JVal.num (i + 1)),
       openedAssessments := [], completionRate := 55, lastUpdated := "2024-12-31T00:00:00.000Z" }]

/-- Trainee T1001 opens lesson 23 of course 5. -/
def openLesson23 : ProgressUpdate :=
  { userId := .str "T1001", courseId := .num 5, lessonId := .num 23, assessmentId := .undefined }

/-- Course 5 with a single lesson, already opened by trainee T1001. -/
def oneLessonDoc : Document :=
  sampleDoc [sampleLesson 1 (.num 5)]
    [{ id := 1, userId := .str "T1001", courseId := .num 5, openedLessons := [.num 1],
       openedAssessments := [], completionRate := 100, lastUpdated := "2024-12-31T00:00:00.000Z" }]

/-- Trainee T1001 reports lesson 2, which is not a lesson of course 5. -/
def openLesson2 : ProgressUpdate :=
  { userId := .str "T1001", courseId := .num 5, lessonId := .num 2, assessmentId := .undefined }

/-- Course 5 with two lessons, no assessment and no progress record. -/
def twoLessonDoc : Document :=
  sampleDoc [sampleLesson 41 (.num 5), sampleLesson 42 (.num 5)] []

/-- The request of the scenario: `{userId:"T1001", courseId:5, lessonId:42}`. -/
def openLesson42 : ProgressUpdate :=
  { userId := .str "T1001", courseId := .num 5, lessonId := .num 42, assessmentId := .undefined }

/-- The request of the scenario with the lesson id sent as the array `[42]`. -/
def openLessonArray : ProgressUpdate :=
  { userId := .str "T1001", courseId := .num 5, lessonId := .arr [.num 42],
    assessmentId := .undefined }

/-- Course 5 with two lessons; the record of trainee T1001 holds one opened
lesson, whose id is the array `[42]`. -/
def arrayOpenedDoc : Document :=
  sampleDoc [sampleLesson 41 (.num 5), sampleLesson 42 (.num 5)]
    [{ id := 1, userId := .str "T1001", courseId := .num 5, openedLessons := [.arr [.num 42]],
       openedAssessments := [], completionRate := 50, lastUpdated := "2024-12-31T00:00:00.000Z" }]

/-- The request of the scenario with the user id sent as the array `["T1001"]`. -/
def openByArrayUser : ProgressUpdate :=
  { userId := .arr [.str "T1001"], courseId := .num 5, lessonId := .num 42,
    assessmentId := .undefined }

/-- Course 5 with two lessons and one progress record, whose user id is the
array `["T1001"]`. -/
def arrayUserDoc : Document :=
  sampleDoc [sampleLesson 41 (.num 5), sampleLesson 42 (.num 5)]
    [{ id := 1, userId := .arr [.str "T1001"], courseId := .num 5, openedLessons := [.num 42],
       openedAssessments := [], completionRate := 50, lastUpdated := "2024-12-31T00:00:00.000Z" }]

/-! ## Course deletion -/

/-- What `DELETE /api/courses/:id` answers: the status, the image file it
unlinked (if any) and the document afterwards. -/
structure DeleteCourseReply where
  status : Nat
  unlinked : Option String
  doc : Document
  deriving DecidableEq, Repr

/-- Handler of `DELETE /api/courses/:id`.  `cwd` is `process.cwd()` and
`fileExists` is `fs.existsSync`; the unlink of an existing file succeeds. -/
def deleteCourse (rt : Runtime) (cwd : String) (fileExists : String → Bool) (d : Document)
    (id : String) : DeleteCourseReply :=
  match d.courses.find? (fun c => looseEqStr rt c.id id) with
  | none => { status := 404, unlinked := none, doc := d }
  | some course =>
    let lessons := d.lessons.filter (fun l => !looseEqStr rt l.courseId id)
    let assessments := d.assessments.filter (fun a => !looseEqStr rt a.courseId id)
    let unlinked :=
      match course.image with
      | some image =>
        if image != "" && fileExists (rt.pathJoin cwd image) then some (rt.pathJoin cwd image)
        else none
      | none => none
    let courses := d.courses.filter (fun c => !looseEqStr rt c.id id)
    { status := 200, unlinked := unlinked,
      doc := { d with lessons := lessons, assessments := assessments, courses := courses } }

/-- A course with the given id and no image. -/
def sampleCourse (id : JVal) : Course :=
  { id := id, title := .str "Intro", description := .str "desc", image := none,
    createdAt := "2025-01-01T00:00:00.000Z", uploadedBy := .str "S1234", status := "Active" }

/-- Courses 5 and 6; two lessons of course 5 around one lesson of course 6. -/
def twoCourseDoc : Document :=
  { users := [], courses := [sampleCourse (.num 5), sampleCourse (.num 6)],
    lessons := [sampleLesson 1 (.num 5), sampleLesson 2 (.num 6), sampleLesson 3 (.num 5)],
    assessments := [], submissions := [], progress := [], assigned := none }

/-! ## User registration -/

/-- The body of `POST /api/users/add`. -/
structure NewUserBody where
  fullName : JVal
  userType : JVal
  email : JVal
  password : JVal
  deriving DecidableEq, Repr

/-- The `user` of a 201 response: the stored record without its password. -/
structure SafeUser where
  id : Nat
  userId : String
  fullName : String
  userType : JVal
  email : String
  createdAt : String
  status : String
  dateArchived : String
  deriving DecidableEq, Repr

/-- The destructuring `const { password: _, ...safeUser } = newUser`. -/
def User.toSafe (u : User) : SafeUser :=
  { id := u.id, userId := u.userId, fullName := u.fullName, userType := u.userType,
    email := u.email, createdAt := u.createdAt, status := u.status,
    dateArchived := u.dateArchived }

/-- What `POST /api/users/add` answers. -/
structure UsersAddReply where
  status : Nat
  user : Option SafeUser
  doc : Document
  deriving DecidableEq, Repr

/-- The role prefix of a generated user id. -/
def userIdPrefix (userType : JVal) : String :=
  if userType = .str "SME" then "S"
  else if userType = .str "Admin" then "A"
  else if userType = .str "Trainee" then "T"
  else ""

/-- The candidate built from the `i`-th draw, where `draw i` is the value of
`Math.floor(1000 + Math.random() * 9000)` at that draw. -/
def candidateUserId (pfx : String) (draw : Nat → Nat) (i : Nat) : String :=
  pfx ++ toString (draw i)

/-- The loop `do { userId = ... } while (users.some(u => u.userId === userId))`,
run for at most `fuel` iterations from draw `i`; `none` when it has not ended. -/
def genUserId (users : List User) (pfx : String) (draw : Nat → Nat) : Nat → Nat → Option String
  | 0, _ => none
  | fuel + 1, i =>
    if users.any (fun u => u.userId == candidateUserId pfx draw i) then
      genUserId users pfx draw fuel (i + 1)
    else some (candidateUserId pfx draw i)

/-- The record literal `newUser`. -/
def newUser (rt : Runtime) (clk : Clock) (hash : String → String) (userId fullName : String)
    (userType : JVal) (email password : String) : User :=
  { id := clk.now, userId := userId, fullName := rt.trim fullName, userType := userType,
    email := rt.toLowerCase (rt.trim email), password := hash password, createdAt := clk.iso,
    status := "Active", dateArchived := "" }

/-- Handler of `POST /api/users/add`.  `hash` is `bcrypt.hash(·, 10)` for this
request; a call of a string method on a value that is not a string, and a
rejected hash, end in the handler's `catch` (status 500).  The result is `none`
when the id loop has not ended within `fuel` iterations. -/
def postUsersAdd (rt : Runtime) (clk : Clock) (draw : Nat → Nat) (hash : String → String)
    (fuel : Nat) (d : Document) (body : NewUserBody) : Option UsersAddReply :=
  if !truthy body.fullName || !truthy body.userType || !truthy body.email
      || !truthy body.password then
    some { status := 400, user := none, doc := d }
  else
    match body.email with
    | .str email =>
      match d.users.find? (fun u => rt.toLowerCase u.email == rt.toLowerCase email) with
      | some _ => some { status := 409, user := none, doc := d }
      | none =>
        match genUserId d.users (userIdPrefix body.userType) draw fuel 0 with
        | none => none
        | some userId =>
          match body.password, body.fullName with
          | .str password, .str fullName =>
            let u := newUser rt clk hash userId fullName body.userType email password
            some { status := 201, user := some u.toSafe, doc := { d with users := d.users ++ [u] } }
          | _, _ => some { status := 500, user := none, doc := d }
    | _ =>
      match d.users with
      | [] =>
        match genUserId d.users (userIdPrefix body.userType) draw fuel 0 with
        | none => none
        | some _ => some { status := 500, user := none, doc := d }
      | _ :: _ => some { status := 500, user := none, doc := d }

/-- Emails are pairwise distinct ignoring letter case. -/
def emailsDistinct (rt : Runtime) (users : List User) : Prop :=
  (users.map (fun u => rt.toLowerCase u.email)).Nodup

/-- A stored user with the given id and email. -/
def sampleUser (userId email : String) : User :=
  { id := 1700000000000, userId := userId, fullName := "Ana Cruz", userType := .str "Trainee",
    email := email, password := "$2a$10$stored", createdAt := "2024-12-01T00:00:00.000Z",
    status := "Active", dateArchived := "" }

/-- A document whose only content is the given users. -/
def usersDoc (users : List User) : Document :=
  { users := users, courses := [], lessons := [], assessments := [], submissions := [],
    progress := [], assigned := none }

/-- A registration body with the given email. -/
def sampleBody (email : String) : NewUserBody :=
  { fullName := .str "Ben Diaz", userType := .str "Trainee", email := .str email,
    password := .str "secret" }

/-- A stand-in for the password hash in the examples. -/
def sampleHash (password : String) : String := "$2a$10$" ++ password

/-- A random source whose draws are 1234, 1235, 1236, ... -/
def countingDraw (i : Nat) : Nat := 1234 + i

/-! ## Archiving and restoring users -/

/-- What an archive or restore route answers: the status, the `user` of the
body (on success) and the document afterwards. -/
structure UserReply where
  status : Nat
  user : Option User
  doc : Document
  deriving DecidableEq, Repr

/-- The assignments `user.status = "Archived"; user.dateArchived = now`. -/
def archived (clk : Clock) (u : User) : User :=
  { u with status := "Archived", dateArchived := clk.iso }

/-- The assignments `user.status = "Active"; user.dateArchived = ""`. -/
def restored (u : User) : User :=
  { u with status := "Active", dateArchived := "" }

/-- Handler of `PATCH /api/users/:id/archive`. -/
def patchArchive (d : Document) (clk : Clock) (userId : String) : UserReply :=
  match d.users.find? (fun u => u.userId == userId) with
  | none => { status := 404, user := none, doc := d }
  | some user =>
    if user.status == "Archived" then { status := 400, user := none, doc := d }
    else
      let users := updateFirst (fun u => u.userId == userId) (archived clk) d.users
      { status := 200, user := some (archived clk user), doc := { d with users := users } }

/-- Handler of `PATCH /api/archived-users/restore/:id`. -/
def patchRestore (d : Document) (userId : String) : UserReply :=
  match d.users.find? (fun u => u.userId == userId) with
  | none => { status := 404, user := none, doc := d }
  | some user =>
    if user.status != "Archived" then { status := 400, user := none, doc := d }
    else
      let users := updateFirst (fun u => u.userId == userId) restored d.users
      { status := 200, user := some (restored user), doc := { d with users := users } }

/-- The callback of the `forEach` in `PATCH /api/archived-users/restore-all`. -/
def restoreIfArchived (u : User) : User :=
  if u.status == "Archived" then restored u else u

/-- Handler of `PATCH /api/archived-users/restore-all`. -/
def patchRestoreAll (d : Document) : UserReply :=
  { status := 200, user := none, doc := { d with users := d.users.map restoreIfArchived } }

/-- A stored user that was archived on the given date. -/
def archivedUser (userId email date : String) : User :=
  { sampleUser userId email with status := "Archived", dateArchived := date }

/-- An active trainee, an archived one and another active one. -/
def threeUsersDoc : Document :=
  usersDoc [sampleUser "T1001" "ana@b.c", archivedUser "T1002" "ben@b.c" "2024-12-24T00:00:00.000Z",
    sampleUser "T1003" "cy@b.c"]

/-! ## Course assignments -/

/-- The body of `POST /api/assigned`. -/
structure AssignBody where
  userId : JVal
  fullName : JVal
  email : JVal
  courseTitle : JVal
  status : JVal
  progress : JVal
  deriving DecidableEq, Repr

/-- What an assignment route answers: the status, the assignment of the body
(on success) and the document afterwards. -/
structure AssignReply where
  status : Nat
  assignment : Option Assignment
  doc : Document
  deriving DecidableEq, Repr

/-- JavaScript `v || fallback`. -/
def orElse (v fallback : JVal) : JVal := if truthy v then v else fallback

/-- The callback of `db.data.assigned.some`:
`a.userId === userId && a.courseTitle === courseTitle`. -/
def samePair (userId courseTitle : JVal) (a : Assignment) : Bool :=
  strictEq a.userId userId && strictEq a.courseTitle courseTitle

/-- The record literal `newAssign`; it has no `courseId` field. -/
def newAssign (clk : Clock) (body : AssignBody) : Assignment :=
  { id := clk.now, userId := body.userId, fullName := body.fullName, userType := "Trainee",
    email := body.email, courseId := .undefined, courseTitle := body.courseTitle,
    status := orElse body.status (.str "Not Started"),
    progress := orElse body.progress (.str "0%"), assignedDate := clk.iso }

/-- Handler of `POST /api/assigned`; `db.data.assigned ||= []` makes an absent
collection empty. -/
def postAssigned (d : Document) (clk : Clock) (body : AssignBody) : AssignReply :=
  if !truthy body.userId || !truthy body.courseTitle then
    { status := 400, assignment := none, doc := d }
  else
    let assigned := d.assigned.getD []
    if assigned.any (samePair body.userId body.courseTitle) then
      { status := 409, assignment := none, doc := { d with assigned := some assigned } }
    else
      { status := 201, assignment := some (newAssign clk body),
        doc := { d with assigned := some (assigned ++ [newAssign clk body]) } }

/-- The body of `PUT /api/assigned/:userId`. -/
structure ReassignBody where
  courseId : JVal
  status : JVal
  progress : JVal
  deriving DecidableEq, Repr

/-- The four assignments of `PUT /api/assigned/:userId` to the record it found. -/
def reassigned (course : Course) (body : ReassignBody) (t : Assignment) : Assignment :=
  { t with courseId := body.courseId, courseTitle := course.courseTitle,
           status := body.status, progress := body.progress }

/-- Handler of `PUT /api/assigned/:userId`.  It has no `try`: on a document
without an `assigned` collection `db.data.assigned.find` throws and the handler
answers nothing, which is the result `none`. -/
def putAssigned (d : Document) (userId : String) (body : ReassignBody) : Option AssignReply :=
  match d.assigned with
  | none => none
  | some assigned =>
    match assigned.find? (fun t => strictEq t.userId (.str userId)) with
    | none => some { status := 404, assignment := none, doc := d }
    | some trainee =>
      match d.courses.find? (fun c => strictEq c.courseId body.courseId) with
      | none => some { status := 404, assignment := none, doc := d }
      | some course =>
        let assigned1 :=
          updateFirst (fun t => strictEq t.userId (.str userId)) (reassigned course body) assigned
        some { status := 200, assignment := some (reassigned course body trainee),
               doc := { d with assigned := some assigned1 } }

/-- The (user id, course title) pairs of a collection of assignments. -/
def assignmentPairs (assigned : List Assignment) : List (JVal × JVal) :=
  assigned.map (fun a => (a.userId, a.courseTitle))

/-- An assignment of the given trainee to the given course title. -/
def sampleAssignment (userId courseTitle : String) : Assignment :=
  { id := 1700000000000, userId := .str userId, fullName := .str "Ana Cruz", userType := "Trainee",
    email := .str "ana@b.c", courseId := .undefined, courseTitle := .str courseTitle,
    status := .str "Not Started", progress := .str "0%",
    assignedDate := "2024-12-01T00:00:00.000Z" }

/-- A course record that carries the fields the reassignment route reads. -/
def titledCourse (courseId : Int) (courseTitle : String) : Course :=
  { sampleCourse (.num courseId) with
    title := .str courseTitle, courseId := .num courseId, courseTitle := .str courseTitle }

/-- Trainee T1001 is assigned to "Intro" and to "Advanced"; course 2 is "Advanced". -/
def twoAssignmentsDoc : Document :=
  { users := [], courses := [titledCourse 1 "Intro", titledCourse 2 "Advanced"], lessons := [],
    assessments := [], submissions := [], progress := [],
    assigned := some [sampleAssignment "T1001" "Intro", sampleAssignment "T1001" "Advanced"] }

/-- A request to assign the given trainee to the given course title. -/
def sampleAssignBody (userId courseTitle : String) : AssignBody :=
  { userId := .str userId, fullName := .str "Ana Cruz", email := .str "ana@b.c",
    courseTitle := .str courseTitle, status := .undefined, progress := .undefined }

/-! ## Code execution gateway -/

/-- A change that `POST /api/compile` makes outside the process, in the order
made. -/
inductive FsEffect where
  | mkdir (path : String) : FsEffect
  | writeFile (path : String) (content : String) : FsEffect
  | exec (cmd : String) : FsEffect
  deriving DecidableEq, Repr

/-- What the callback of `exec` receives: the message of `error` (when the
command failed), `stdout` and `stderr`. -/
structure ExecResult where
  error : Option String
  stdout : String
  stderr : String
  deriving DecidableEq, Repr

/-- What `POST /api/compile` answers, with the effects it had. -/
structure CompileReply where
  status : Nat
  error : Option String
  output : Option String
  success : Option Bool
  effects : List FsEffect
  deriving DecidableEq, Repr

/-- JavaScript `a || b` on strings. -/
def strOr (a b : String) : String := if a != "" then a else b

/-- The `switch (language)`: the file the code is written to and the command,
for a language of the closed set; `none` is the `default` branch. -/
def compileTarget (rt : Runtime) (tempDir : String) (language : JVal) : Option (String × String) :=
  if language = .str "python" then
    some (rt.pathJoin tempDir "main.py", "python \"" ++ rt.pathJoin tempDir "main.py" ++ "\"")
  else if language = .str "javascript" then
    some (rt.pathJoin tempDir "main.js", "node \"" ++ rt.pathJoin tempDir "main.js" ++ "\"")
  else if language = .str "java" then
    some (rt.pathJoin tempDir "Main.java",
      "javac \"" ++ rt.pathJoin tempDir "Main.java" ++ "\" && java -cp \"" ++ tempDir ++ "\" Main")
  else if language = .str "cpp" then
    some (rt.pathJoin tempDir "main.cpp",
      "g++ \"" ++ rt.pathJoin tempDir "main.cpp" ++ "\" -o \"" ++ tempDir ++ "/a.out\" && \""
        ++ tempDir ++ "/a.out\"")
  else none

/-- Handler of `POST /api/compile`.  `dirname` is `__dirname`, `dirExists` is
`fs.existsSync(tempDir)` and `run` is the outcome of `exec`; `mkdirSync`
succeeds, and `writeFileSync` throws on data that is not a string. -/
def postCompile (rt : Runtime) (dirname : String) (dirExists : Bool) (run : String → ExecResult)
    (language code : JVal) : CompileReply :=
  if !truthy language || !truthy code then
    { status := 400, error := some "Language and code are required.", output := none,
      success := none, effects := [] }
  else
    let tempDir := rt.pathJoin dirname "temp_code"
    let made := if dirExists then [] else [FsEffect.mkdir tempDir]
    match compileTarget rt tempDir language with
    | none =>
      { status := 400, error := some "Unsupported language.", output := none, success := none,
        effects := made }
    | some (filePath, cmd) =>
      match code with
      | .str text =>
        let effects := made ++ [FsEffect.writeFile filePath text, FsEffect.exec cmd]
        match (run cmd).error with
        | some message =>
          { status := 200, error := none, output := some (strOr (run cmd).stderr message),
            success := some false, effects := effects }
        | none =>
          { status := 200, error := none,
            output := some (strOr (run cmd).stdout "Program finished with exit code 0"),
            success := some true, effects := effects }
      | _ =>
        { status := 500, error := some "Failed to compile or execute code.", output := none,
          success := none, effects := made }

/-- The paths written by a list of effects. -/
def writtenPaths (effects : List FsEffect) : List String :=
  effects.filterMap (fun e => match e with
    | .writeFile path _ => some path
    | _ => none)

/-- The commands executed by a list of effects. -/
def executedCommands (effects : List FsEffect) : List String :=
  effects.filterMap (fun e => match e with
    | .exec cmd => some cmd
    | _ => none)

/-- The directories created by a list of effects. -/
def createdDirs (effects : List FsEffect) : List String :=
  effects.filterMap (fun e => match e with
    | .mkdir path => some path
    | _ => none)

/-- The languages of the `switch`. -/
def supportedLanguages : List JVal :=
  [.str "python", .str "javascript", .str "java", .str "cpp"]

/-- An `exec` whose command prints `2` and succeeds. -/
def printsTwo (_cmd : String) : ExecResult := { error := none, stdout := "2\n", stderr := "" }

/-- The directory `path.join(__dirname, "temp_code")`. -/
def tempCodeDir (rt : Runtime) (dirname : String) : String := rt.pathJoin dirname "temp_code"

/-- The effects of a request in a supported language: the directory is made
when missing, the code is written to `file`, `cmd` is executed. -/
def compileEffects (rt : Runtime) (dirname : String) (dirExists : Bool) (file text cmd : String) :
    List FsEffect :=
  (if dirExists then [] else [FsEffect.mkdir (tempCodeDir rt dirname)])
    ++ [FsEffect.writeFile file text, FsEffect.exec cmd]

/-! ## Assessments and questions -/

/-- JavaScript loose equality `a == b` between a value of the document and a
value of the request; an array or an object is compared with a primitive
through its string form, and with an array or an object by reference. -/
def looseEq (rt : Runtime) : JVal → JVal → Bool
  | .undefined, .undefined => true
  | .undefined, .null => true
  | .null, .undefined => true
  | .null, .null => true
  | .num a, .num b => a == b
  | .str a, .str b => a == b
  | .bool a, .bool b => a == b
  | .num a, .str b => rt.toNumber b == some a
  | .str a, .num b => rt.toNumber a == some b
  | .bool a, .num b => (if a then 1 else 0) == b
  | .num a, .bool b => a == (if b then 1 else 0)
  | .bool a, .str b => rt.toNumber b == some (if a then 1 else 0)
  | .str a, .bool b => rt.toNumber a == some (if b then 1 else 0)
  | .arr a, .str b => jsString (.arr a) == b
  | .obj a, .str b => jsString (.obj a) == b
  | .str a, .arr b => a == jsString (.arr b)
  | .str a, .obj b => a == jsString (.obj b)
  | .arr a, .num b => rt.toNumber (jsString (.arr a)) == some b
  | .obj a, .num b => rt.toNumber (jsString (.obj a)) == some b
  | .num a, .arr b => rt.toNumber (jsString (.arr b)) == some a
  | .num a, .obj b => rt.toNumber (jsString (.obj b)) == some a
  | .arr a, .bool b => rt.toNumber (jsString (.arr a)) == some (if b then 1 else 0)
  | .obj a, .bool b => rt.toNumber (jsString (.obj a)) == some (if b then 1 else 0)
  | .bool a, .arr b => rt.toNumber (jsString (.arr b)) == some (if a then 1 else 0)
  | .bool a, .obj b => rt.toNumber (jsString (.obj b)) == some (if a then 1 else 0)
  | _, _ => false

/-- JavaScript `Number(v)`, `none` for `NaN`; an array or an object is
converted through its string form. -/
def jsNumber (rt : Runtime) : JVal → Option Int
  | .undefined => none
  | .null => some 0
  | .bool b => some (if b then 1 else 0)
  | .num n => some n
  | .str s => rt.toNumber s
  | .arr items => rt.toNumber (jsString (.arr items))
  | .obj fields => rt.toNumber (jsString (.obj fields))

/-- The value of `Number(v)` as the document and the response hold it: JSON
writes `NaN` as `null`. -/
def numberOrNull (rt : Runtime) (v : JVal) : JVal :=
  match jsNumber rt v with
  | some n => .num n
  | none => .null

/-- The parsers applied to the fields of a question form. -/
structure Parsers where
  /-- Is `JSON.parse` on the text of the option list, `none` when it throws. -/
  jsonParse : String → Option (List JVal)
  /-- Is the message of the error that `JSON.parse` throws on a text. -/
  syntaxError : String → String
  /-- Is `parseInt(v, 10)`, `none` for `NaN`. -/
  parseInt10 : JVal → Option Int

/-- The class `\s` of a JavaScript regular expression. -/
def isJsSpace (c : Char) : Bool :=
  c.toNat = 9 || c.toNat = 10 || c.toNat = 11 || c.toNat = 12 || c.toNat = 13 || c.toNat = 32
    || c.toNat = 160 || c.toNat = 5760 || (8192 ≤ c.toNat && c.toNat ≤ 8202)
    || c.toNat = 8232 || c.toNat = 8233 || c.toNat = 8239 || c.toNat = 8287
    || c.toNat = 12288 || c.toNat = 65279

/-- The class `\w` of a JavaScript regular expression: ASCII letters, digits
and the underscore. -/
def isJsWord (c : Char) : Bool := c.isAlphanum || c = '_'

/-- The replacement `.replace(/[^\w\s-]/g, "_")`, character by character. -/
def maskOther (c : Char) : Char :=
  if isJsWord c || isJsSpace c || c = '-' then c else '_'

/-- The replacement `.replace(/\s+/g, "_")`: every maximal run of white space
becomes one underscore (`inRun` tells that the previous character was white
space). -/
def collapseSpaces : Bool → List Char → List Char
  | _, [] => []
  | inRun, c :: cs =>
    if isJsSpace c then
      if inRun then collapseSpaces true cs else '_' :: collapseSpaces true cs
    else c :: collapseSpaces false cs

/-- The sanitised title
`s.replace(/[^\w\s-]/g, "_").replace(/\s+/g, "_").trim()`. -/
def safeTitle (rt : Runtime) (s : String) : String :=
  rt.trim (String.mk (collapseSpaces false (s.toList.map maskOther)))

/-- The replacement `.replace(/[:.]/g, "-")` on an ISO time stamp. -/
def dashStamp (iso : String) : String :=
  String.mk (iso.toList.map (fun c => if c = ':' || c = '.' then '-' else c))

/-- The body of `POST /api/assessments`; `questions` is `some` when the field is
an array. -/
structure AssessmentBody where
  title : JVal
  type : JVal
  difficulty : JVal
  courseId : JVal
  lessonId : JVal
  duration : JVal
  deadline : JVal
  questions : Option (List Question)
  deriving DecidableEq, Repr

/-- What `POST /api/assessments` answers: the status, the assessment and the
file of the body, the snapshot file written (path and content) and the document
afterwards. -/
structure AssessmentReply where
  status : Nat
  assessment : Option Assessment
  file : Option String
  snapshot : Option (String × Assessment)
  doc : Document
  deriving DecidableEq, Repr

/-- The record literal `newAssessment`. -/
def newAssessment (rt : Runtime) (clk : Clock) (title : String) (body : AssessmentBody) :
    Assessment :=
  { id := .num clk.now, title := rt.trim title, type := body.type, difficulty := body.difficulty,
    courseId := numberOrNull rt body.courseId, lessonId := numberOrNull rt body.lessonId,
    duration := orElse body.duration .null, deadline := orElse body.deadline .null,
    questions := body.questions.getD [], createdAt := clk.iso }

/-- The text that is sanitised into a file name:
the title, or `assessment-<id>` when the title is empty. -/
def snapshotBase (a : Assessment) : String :=
  strOr a.title ("assessment-" ++ jsString a.id)

/-- Handler of `POST /api/assessments`.  `stamp` is the later clock reading
used in the file name and `assessmentsDir` the snapshot directory; calling
`trim` on a title that is not a string ends in the `catch` (status 500). -/
def postAssessments (rt : Runtime) (clk : Clock) (stamp : String) (assessmentsDir : String)
    (d : Document) (body : AssessmentBody) : AssessmentReply :=
  if !truthy body.title || !truthy body.type || !truthy body.difficulty
      || !truthy body.courseId || !truthy body.lessonId then
    { status := 400, assessment := none, file := none, snapshot := none, doc := d }
  else
    match body.title with
    | .str title =>
      let a := newAssessment rt clk title body
      let filename := safeTitle rt (snapshotBase a) ++ "_" ++ dashStamp stamp ++ ".json"
      { status := 200, assessment := some a, file := some ("/uploads/assessments/" ++ filename),
        snapshot := some (rt.pathJoin assessmentsDir filename, a),
        doc := { d with assessments := d.assessments ++ [a] } }
    | _ => { status := 500, assessment := none, file := none, snapshot := none, doc := d }

/-- The body of `POST /api/questions`. -/
structure QuestionBody where
  assessmentId : JVal
  questionNumber : JVal
  questionType : JVal
  question : JVal
  options : JVal
  answer : JVal
  expectedAnswer : JVal
  points : JVal
  deriving DecidableEq, Repr

/-- What `POST /api/questions` answers: the status, the error text, the question
and the assessment of the body, the snapshot file written and the document
afterwards. -/
structure QuestionReply where
  status : Nat
  error : Option String
  question : Option Question
  assessment : Option Assessment
  snapshot : Option (String × Assessment)
  doc : Document
  deriving DecidableEq, Repr

/-- The expression `Number(questionNumber) || assessment.questions.length + 1`. -/
def questionNumberOf (rt : Runtime) (questionNumber : JVal) (a : Assessment) : Int :=
  match jsNumber rt questionNumber with
  | some k => if k ≠ 0 then k else (a.questions.length : Int) + 1
  | none => (a.questions.length : Int) + 1

/-- The text handed to `JSON.parse`: `options || "[]"`. -/
def optionsText (options : JVal) : String :=
  if truthy options then jsString options else "[]"

/-- The record literal `newQuestion`, given the parsed option list. -/
def newQuestion (rt : Runtime) (ps : Parsers) (clk : Clock) (body : QuestionBody)
    (a : Assessment) (options : List JVal) : Question :=
  { id := clk.now, questionNumber := questionNumberOf rt body.questionNumber a,
    questionType := body.questionType, question := body.question, options := options,
    answer := if body.questionType = .str "mcq" then body.answer else .null,
    expectedAnswer :=
      if body.questionType = .str "textbox" ∨ body.questionType = .str "code" then
        body.expectedAnswer
      else .null,
    points := (ps.parseInt10 body.points).getD 0 }

/-- The statement `assessment.questions.push(newQuestion)`. -/
def withQuestion (q : Question) (a : Assessment) : Assessment :=
  { a with questions := a.questions ++ [q] }

/-- Handler of `POST /api/questions` in `server.js`. -/
def postQuestions (rt : Runtime) (ps : Parsers) (clk : Clock) (assessmentsDir : String)
    (d : Document) (body : QuestionBody) : QuestionReply :=
  match d.assessments.find? (fun a => looseEq rt a.id body.assessmentId) with
  | none =>
    { status := 404, error := some "Assessment not found.", question := none,
      assessment := none, snapshot := none, doc := d }
  | some a =>
    let parsed :=
      if body.questionType = .str "mcq" then ps.jsonParse (optionsText body.options) else some []
    match parsed with
    | none =>
      { status := 500, error := some (ps.syntaxError (optionsText body.options)),
        question := none, assessment := none, snapshot := none, doc := d }
    | some options =>
      let q := newQuestion rt ps clk body a options
      let assessments :=
        updateFirst (fun a => looseEq rt a.id body.assessmentId) (withQuestion q) d.assessments
      { status := 200, error := none, question := some q, assessment := some (withQuestion q a),
        snapshot := some (rt.pathJoin assessmentsDir (safeTitle rt (snapshotBase a) ++ ".json"),
          withQuestion q a),
        doc := { d with assessments := assessments } }

/-- Parsers for the examples: the option list `["a","b"]` and decimal points. -/
def sampleParsers : Parsers where
  jsonParse := fun s =>
    if s = "[]" then some []
    else if s = "[\"a\",\"b\"]" then some [.str "a", .str "b"]
    else none
  syntaxError := fun _ => "Unexpected token"
  parseInt10 := fun v => decimalToNumber (jsString v)

/-- A stored question with the given number. -/
def sampleQuestion (questionNumber : Int) : Question :=
  { id := 1700000000001, questionNumber := questionNumber, questionType := .str "textbox",
    question := .str "What is a ledger?", options := [], answer := .null,
    expectedAnswer := .str "A book of accounts", points := 5 }

/-- A stored assessment with the given id and questions. -/
def sampleAssessment (id : Int) (questions : List Question) : Assessment :=
  { id := .num id, title := "Quiz 1", type := .str "quiz", difficulty := .str "easy",
    courseId := .num 5, lessonId := .num 42, duration := .null, deadline := .null,
    questions := questions, createdAt := "2024-12-01T00:00:00.000Z" }

/-- A document whose only content is the given assessments. -/
def assessmentsDoc (assessments : List Assessment) : Document :=
  { users := [], courses := [], lessons := [], assessments := assessments, submissions := [],
    progress := [], assigned := none }

/-- A creation request with the given question array. -/
def sampleAssessmentBody (questions : Option (List Question)) : AssessmentBody :=
  { title := .str "Quiz 1", type := .str "quiz", difficulty := .str "easy", courseId := .str "5",
    lessonId := .str "42", duration := .undefined, deadline := .undefined, questions := questions }

/-- A free-text question for the given assessment, without a question number. -/
def sampleQuestionBody (assessmentId : String) : QuestionBody :=
  { assessmentId := .str assessmentId, questionNumber := .undefined,
    questionType := .str "textbox", question := .str "What is a journal?", options := .undefined,
    answer := .undefined, expectedAnswer := .str "A book of entries", points := .str "5" }

/-! ## Snapshot file names -/

/-- The characters a sanitised title may contain: ASCII letters, digits,
underscore and hyphen. -/
def isSafeChar (c : Char) : Bool := c.isAlphanum || c = '_' || c = '-'

/-- The file name that `POST /api/assessments` writes for an assessment. -/
def createdFileName (rt : Runtime) (a : Assessment) (stamp : String) : String :=
  safeTitle rt (snapshotBase a) ++ "_" ++ dashStamp stamp ++ ".json"

/-- The file name that `POST /api/questions` writes for an assessment. -/
def appendedFileName (rt : Runtime) (a : Assessment) : String :=
  safeTitle rt (snapshotBase a) ++ ".json"

/-- What JavaScript `trim` does to a string without white space: nothing. -/
def TrimKeepsSpaceless (rt : Runtime) : Prop :=
  ∀ s : String, (∀ c ∈ s.toList, isJsSpace c = false) → rt.trim s = s

/-- A question for the assessment that `sampleClock` numbered, sent after it
was created. -/
def followUpQuestion : QuestionBody := sampleQuestionBody "1735689600000"

/-- A file name that `path.join` places directly inside the directory it is
joined to: no separator in it, and neither `.` nor `..`. -/
def isPlainFileName (name : String) : Prop :=
  '/' ∉ name.toList ∧ '\\' ∉ name.toList ∧ name ≠ "." ∧ name ≠ ".."

/-- The reply to the creation of "Quiz 1" on an empty document. -/
def quizCreated : AssessmentReply :=
  postAssessments asciiRuntime sampleClock "2025-01-01T00:00:01.123Z" "/srv/uploads/assessments"
    (assessmentsDoc []) (sampleAssessmentBody none)

/-- The reply to a question appended to that assessment a minute later. -/
def quizExtended : QuestionReply :=
  postQuestions asciiRuntime sampleParsers laterClock "/srv/uploads/assessments" quizCreated.doc
    followUpQuestion

/-! ## Lesson upload -/

/-- A file of `req.files`: the name it was uploaded under and where multer put it. -/
structure UploadedFile where
  originalname : String
  path : String
  deriving DecidableEq, Repr

/-- What `POST /api/lessons` takes from its surroundings: `path.extname`,
`parseInt` with one argument (`none` for `NaN`) and the value of `Date.now()`
while the file at a given position is handled. -/
structure UploadEnv where
  extname : String → String
  parseInt : JVal → Option Int
  fileNow : Nat → Nat

/-- The kind the upload router gives a file. -/
inductive FileKind where
  | handout : FileKind
  | powerpoint : FileKind
  | video : FileKind
  | other : FileKind
  deriving DecidableEq, Repr

/-- The extensions of documents. -/
def handoutExts : List String := [".pdf", ".doc", ".docx"]

/-- The extensions of slide decks. -/
def powerpointExts : List String := [".ppt", ".pptx"]

/-- The extensions of videos. -/
def videoExts : List String := [".mp4", ".mov", ".avi", ".mkv"]

/-- The `if / else if / else if / else` chain on the lower-cased extension. -/
def classifyExt (ext : String) : FileKind :=
  if handoutExts.contains ext then .handout
  else if powerpointExts.contains ext then .powerpoint
  else if videoExts.contains ext then .video
  else .other

/-- The kind of an uploaded file: `path.extname(file.originalname).toLowerCase()`
run through the chain. -/
def kindOf (rt : Runtime) (env : UploadEnv) (file : UploadedFile) : FileKind :=
  classifyExt (rt.toLowerCase (env.extname file.originalname))

/-- The new name `${Date.now()}-${file.originalname}` of the file at position `i`. -/
def newFilename (env : UploadEnv) (i : Nat) (file : UploadedFile) : String :=
  toString (env.fileNow i) ++ "-" ++ file.originalname

/-- The three arrays filled by the `forEach`, and the renames it made. -/
structure Sorted where
  handouts : List String
  powerpoints : List String
  videos : List String
  renames : List (String × String)
  deriving DecidableEq, Repr

/-- The callback of `req.files.forEach` on the file at position `i`. -/
def sortFile (rt : Runtime) (env : UploadEnv) (uploadsDir : String) (acc : Sorted) (i : Nat)
    (file : UploadedFile) : Sorted :=
  match kindOf rt env file with
  | .handout =>
    { acc with
      handouts := acc.handouts ++ ["/uploads/lessons/handouts/" ++ newFilename env i file]
      renames := acc.renames ++ [(file.path,
        rt.pathJoin (rt.pathJoin (rt.pathJoin uploadsDir "lessons") "handouts")
          (newFilename env i file))] }
  | .powerpoint =>
    { acc with
      powerpoints := acc.powerpoints ++ ["/uploads/lessons/powerpoints/" ++ newFilename env i file]
      renames := acc.renames ++ [(file.path,
        rt.pathJoin (rt.pathJoin (rt.pathJoin uploadsDir "lessons") "powerpoints")
          (newFilename env i file))] }
  | .video =>
    { acc with
      videos := acc.videos ++ ["/uploads/lessons/videos/" ++ newFilename env i file]
      renames := acc.renames ++ [(file.path,
        rt.pathJoin (rt.pathJoin (rt.pathJoin uploadsDir "lessons") "videos")
          (newFilename env i file))] }
  | .other => acc

/-- The loop `req.files.forEach(...)`, from position `i` on. -/
def sortFiles (rt : Runtime) (env : UploadEnv) (uploadsDir : String) :
    Nat → Sorted → List UploadedFile → Sorted
  | _, acc, [] => acc
  | i, acc, file :: files =>
    sortFiles rt env uploadsDir (i + 1) (sortFile rt env uploadsDir acc i file) files

/-- The expression `handouts[0] || null`. -/
def firstOrNull : List String → Option String
  | [] => none
  | h :: _ => if h != "" then some h else none

/-- The expression `text?.trim() || fallback`; `none` when `trim` is called on a
value that has no such method. -/
def trimmedOr (rt : Runtime) (text : JVal) (fallback : String) : Option String :=
  match text with
  | .undefined => some fallback
  | .null => some fallback
  | .str s => some (strOr (rt.trim s) fallback)
  | _ => none

/-- The fields of the form of `POST /api/lessons`. -/
structure LessonBody where
  lessonTitle : JVal
  lessonCourse : JVal
  lessonDesc : JVal
  uploadedBy : JVal
  deriving DecidableEq, Repr

/-- What `POST /api/lessons` answers: the status, the message, the lesson of
the body, the renames made and the document afterwards. -/
structure LessonReply where
  status : Nat
  message : String
  lesson : Option Lesson
  renames : List (String × String)
  doc : Document
  deriving DecidableEq, Repr

/-- Handler of `POST /api/lessons`.  `uploadsDir` is the uploads root; the three
sub-directories are made first when missing and the renames succeed. -/
def postLessons (rt : Runtime) (env : UploadEnv) (clk : Clock) (uploadsDir : String)
    (d : Document) (body : LessonBody) (files : List UploadedFile) : LessonReply :=
  if files.isEmpty then
    { status := 400, message := "No files uploaded.", lesson := none, renames := [], doc := d }
  else
    match env.parseInt body.lessonCourse with
    | none =>
      { status := 400, message := "Invalid or missing course ID.", lesson := none, renames := [],
        doc := d }
    | some courseId =>
      let sorted := sortFiles rt env uploadsDir 0
        { handouts := [], powerpoints := [], videos := [], renames := [] } files
      match trimmedOr rt body.lessonTitle "Untitled Lesson", trimmedOr rt body.lessonDesc "" with
      | some title, some description =>
        let lesson : Lesson :=
          { id := .num clk.now, title := title, description := description,
            courseId := .num courseId,
            content := { handout := firstOrNull sorted.handouts, videos := sorted.videos,
                         powerpoints := sorted.powerpoints },
            uploadedBy := orElse body.uploadedBy (.str "S1234"), uploadedAt := clk.iso }
        { status := 200, message := "Lesson added successfully", lesson := some lesson,
          renames := sorted.renames, doc := { d with lessons := d.lessons ++ [lesson] } }
      | _, _ =>
        { status := 500, message := "Server error adding lesson.", lesson := none,
          renames := sorted.renames, doc := d }

/-- The uploaded files of a given kind, with their positions, in upload order. -/
def filesOfKind (rt : Runtime) (env : UploadEnv) (k : FileKind) (files : List UploadedFile) :
    List (Nat × UploadedFile) :=
  files.enum.filter (fun p => kindOf rt env p.2 = k)

/-- The path stored for the file at a position, under the folder of its kind. -/
def storedPath (env : UploadEnv) (folder : String) (p : Nat × UploadedFile) : String :=
  "/uploads/lessons/" ++ folder ++ "/" ++ newFilename env p.1 p.2

/-- The extension of a name on ASCII text: from its last dot on, empty when the
name has no dot or only a leading one. -/
def asciiExtname (name : String) : String :=
  let rev := name.toList.reverse
  let tail := rev.takeWhile (fun c => c != '.')
  if tail.length = rev.length ∨ tail.length + 1 = rev.length then ""
  else String.mk ('.' :: tail.reverse)

/-- An upload environment for the examples: every file is handled at the same
millisecond. -/
def sampleUploadEnv : UploadEnv where
  extname := asciiExtname
  parseInt := fun v => decimalToNumber (jsString v)
  fileNow := fun _ => 1735689600000

/-- A batch of five uploads: two documents, a video, an archive and a slide deck. -/
def sampleUploads : List UploadedFile :=
  [{ originalname := "notes.PDF", path := "/tmp/u1" }, { originalname := "intro.mp4", path := "/tmp/u2" },
   { originalname := "extra.docx", path := "/tmp/u3" }, { originalname := "data.zip", path := "/tmp/u4" },
   { originalname := "deck.pptx", path := "/tmp/u5" }]

/-- The form that accompanies the sample uploads. -/
def sampleLessonBody : LessonBody :=
  { lessonTitle := .str " Ledgers ", lessonCourse := .str "5", lessonDesc := .undefined,
    uploadedBy := .undefined }

/-- The lesson stored for the sample uploads. -/
def uploadedLesson : Lesson :=
  { id := .num 1735689600000, title := "Ledgers", description := "", courseId := .num 5,
    content := { handout := some "/uploads/lessons/handouts/1735689600000-notes.PDF",
                 videos := ["/uploads/lessons/videos/1735689600000-intro.mp4"],
                 powerpoints := ["/uploads/lessons/powerpoints/1735689600000-deck.pptx"] },
    uploadedBy := .str "S1234", uploadedAt := "2025-01-01T00:00:00.000Z" }

/-! ## Generic records and the generic create route -/

/-- A JSON object: its fields in order. -/
abbrev Record := List (String × JVal)

/-- The property access `r[key]`, `undefined` when the object has no such field. -/
def Record.get (r : Record) (key : String) : JVal := (r.lookup key).getD .undefined

/-- The assignment `r[key] = v`: an existing field keeps its place. -/
def Record.set : Record → String → JVal → Record
  | [], key, v => [(key, v)]
  | (k, w) :: rest, key, v =>
    if k = key then (k, v) :: rest else (k, w) :: Record.set rest key v

/-- The object spread `{ ...base, ...over }`. -/
def spread (base over : Record) : Record :=
  over.foldl (fun acc kv => acc.set kv.1 kv.2) base

/-- The object `db.data` as the generic routes see it: collections by name. -/
abbrev GenericDoc := List (String × List Record)

/-- The collection `db.data[name]` with one more record at its end. -/
def pushTo (data : GenericDoc) (name : String) (item : Record) : GenericDoc :=
  data.map (fun entry => if entry.1 = name then (entry.1, entry.2 ++ [item]) else entry)

/-- The record literal `{ id: Date.now(), ...req.body }`. -/
def crudItem (clk : Clock) (body : Record) : Record :=
  spread [("id", .num clk.now)] body

/-- The POST route of `createCrudRoutes(name)`: the record answered and the
document afterwards.  The route has no `try`; on a document without the
collection `push` throws, which is the result `none`. -/
def crudCreate (data : GenericDoc) (clk : Clock) (name : String) (body : Record) :
    Option (Record × GenericDoc) :=
  match data.lookup name with
  | none => none
  | some _ => some (crudItem clk body, pushTo data name (crudItem clk body))

/-- A generic document with one note and no tag. -/
def notesDoc : GenericDoc :=
  [("notes", [[("id", .num 1700000000000), ("text", .str "first")]]), ("tags", [])]

/-! ## Start-up and the course routes -/

/-- The object `db.data` with each collection present or absent. -/
structure RawDocument where
  users : Option (List User)
  courses : Option (List Course)
  lessons : Option (List Lesson)
  assessments : Option (List Assessment)
  submissions : Option (List JVal)
  progress : Option (List Progress)
  assigned : Option (List Assignment)
  deriving DecidableEq, Repr

/-- The constant `defaultData`. -/
def defaultData : RawDocument :=
  { lessons := some [], assessments := some [], submissions := some [], users := some [],
    courses := some [], progress := none, assigned := none }

/-- The assignment `collection ||= []`. -/
def orEmpty {α : Type} (collection : Option (List α)) : Option (List α) :=
  match collection with
  | some records => some records
  | none => some []

/-- The start-up code up to the first route: `db.read()` keeps `defaultData`
when there is no persisted document (`persisted = none`), then five collections
and, further down, `progress` are defaulted with `||= []`. -/
def startup (persisted : Option RawDocument) : RawDocument :=
  let data := persisted.getD defaultData
  { lessons := orEmpty data.lessons, assessments := orEmpty data.assessments,
    submissions := orEmpty data.submissions, users := orEmpty data.users,
    courses := orEmpty data.courses, progress := orEmpty data.progress,
    assigned := data.assigned }

/-- The document as the handlers read it once start-up has run. -/
def RawDocument.toDocument (r : RawDocument) : Document :=
  { users := r.users.getD [], courses := r.courses.getD [], lessons := r.lessons.getD [],
    assessments := r.assessments.getD [], submissions := r.submissions.getD [],
    progress := r.progress.getD [], assigned := r.assigned }

/-- The document of a server started without a persisted document. -/
def defaultDocument : Document := (startup none).toDocument

/-- The fields that `POST /api/courses` takes from the request body. -/
structure CourseBody where
  courseTitle : JVal
  courseDesc : JVal
  userID : JVal
  deriving DecidableEq, Repr

/-- The destructuring `const { courseTitle, courseDesc, userID } = req.body`. -/
def CourseBody.ofRecord (body : Record) : CourseBody :=
  { courseTitle := body.get "courseTitle", courseDesc := body.get "courseDesc",
    userID := body.get "userID" }

/-- What `POST /api/courses` answers. -/
structure CourseReply where
  status : Nat
  course : Option Course
  doc : Document
  deriving DecidableEq, Repr

/-- The record literal `newCourse`; `filename` is `req.file.filename` when an
image was uploaded. -/
def newCourse (clk : Clock) (filename : Option String) (body : CourseBody) : Course :=
  { id := .num clk.now, title := body.courseTitle, description := body.courseDesc,
    image := filename.map (fun f => "/uploads/courses/" ++ f), createdAt := clk.iso,
    uploadedBy := orElse body.userID (.str "S1234"), status := "Active" }

/-- Handler of `POST /api/courses`. -/
def postCourses (d : Document) (clk : Clock) (filename : Option String) (body : Record) :
    CourseReply :=
  if !truthy (CourseBody.ofRecord body).courseTitle || !truthy (CourseBody.ofRecord body).courseDesc
  then { status := 400, course := none, doc := d }
  else
    { status := 200, course := some (newCourse clk filename (CourseBody.ofRecord body)),
      doc := { d with courses := d.courses ++ [newCourse clk filename (CourseBody.ofRecord body)] } }

/-- What `GET /api/courses/:id` answers: the course with its lessons and
assessments. -/
structure CourseDetails where
  status : Nat
  course : Option Course
  lessons : List Lesson
  assessments : List Assessment
  deriving DecidableEq, Repr

/-- Handler of `GET /api/courses/:id`. -/
def getCourseById (d : Document) (id : String) : CourseDetails :=
  match d.courses.find? (fun c => jsString c.id == id) with
  | none => { status := 404, course := none, lessons := [], assessments := [] }
  | some course =>
    { status := 200, course := some course,
      lessons := d.lessons.filter (fun l => jsString l.courseId == id),
      assessments := d.assessments.filter (fun a => jsString a.courseId == id) }

/-- The body of the scenario as written: `{title:"Intro", description:"desc"}`. -/
def scenarioCourseBody : Record := [("title", .str "Intro"), ("description", .str "desc")]

/-- The body with the field names the handler reads. -/
def introCourseBody : Record := [("courseTitle", .str "Intro"), ("courseDesc", .str "desc")]

/-! ## The response of a registration, archived-user deletion and look-ups -/

/-- The stored user record as a JSON object. -/
def User.toJson (u : User) : Record :=
  [("id", .num u.id), ("userId", .str u.userId), ("fullName", .str u.fullName),
   ("userType", u.userType), ("email", .str u.email), ("password", .str u.password),
   ("createdAt", .str u.createdAt), ("status", .str u.status),
   ("dateArchived", .str u.dateArchived)]

/-- The `user` of a 201 response as a JSON object. -/
def SafeUser.toJson (s : SafeUser) : Record :=
  [("id", .num s.id), ("userId", .str s.userId), ("fullName", .str s.fullName),
   ("userType", s.userType), ("email", .str s.email), ("createdAt", .str s.createdAt),
   ("status", .str s.status), ("dateArchived", .str s.dateArchived)]

/-- A segment of a route path: a literal or a named parameter. -/
inductive Seg where
  | lit (text : String) : Seg
  | param (name : String) : Seg
  deriving DecidableEq, Repr

/-- Match the segments of a request path against a route path; a parameter
takes any non-empty segment.  The result is the list of parameters. -/
def matchRoute : List Seg → List String → Option (List (String × String))
  | [], [] => some []
  | .lit text :: pattern, segment :: path =>
    if text = segment then matchRoute pattern path else none
  | .param name :: pattern, segment :: path =>
    if segment ≠ "" then (matchRoute pattern path).map (fun ps => (name, segment) :: ps) else none
  | _, _ => none

/-- The DELETE handlers of `server.js`. -/
inductive DeleteHandler where
  | course : DeleteHandler
  | archivedUser : DeleteHandler
  | archivedAll : DeleteHandler
  deriving DecidableEq, Repr

/-- The DELETE routes in the order `server.js` registers them:
`/api/courses/:id`, `/api/archived-users/:id`, `/api/archived-users/delete-all`. -/
def deleteRoutes : List (List Seg × DeleteHandler) :=
  [([.lit "api", .lit "courses", .param "id"], .course),
   ([.lit "api", .lit "archived-users", .param "id"], .archivedUser),
   ([.lit "api", .lit "archived-users", .lit "delete-all"], .archivedAll)]

/-- The first registered route that matches the path, with its parameters. -/
def dispatch {H : Type} (routes : List (List Seg × H)) (path : List String) :
    Option (H × List (String × String)) :=
  match routes with
  | [] => none
  | (pattern, handler) :: rest =>
    match matchRoute pattern path with
    | some params => some (handler, params)
    | none => dispatch rest path

/-- What a DELETE route answers. -/
structure DeleteReply where
  status : Nat
  message : String
  doc : Document
  deriving DecidableEq, Repr

/-- Remove the first element that satisfies `p`: `findIndex` followed by
`splice(index, 1)`. -/
def removeFirst {α : Type} (p : α → Bool) : List α → List α
  | [] => []
  | x :: xs => if p x then xs else x :: removeFirst p xs

/-- Handler of `DELETE /api/archived-users/:id`. -/
def deleteArchivedUser (d : Document) (userId : String) : DeleteReply :=
  if d.users.any (fun u => u.userId == userId && u.status == "Archived") then
    { status := 200, message := "🗑️ Archived user " ++ userId ++ " deleted permanently.",
      doc := { d with
        users := removeFirst (fun u => u.userId == userId && u.status == "Archived") d.users } }
  else { status := 404, message := "Archived user not found.", doc := d }

/-- Handler of `DELETE /api/archived-users/delete-all`. -/
def deleteAllArchived (d : Document) : DeleteReply :=
  { status := 200, message := "🗑️ All archived users deleted permanently.",
    doc := { d with users := d.users.filter (fun u => u.status != "Archived") } }

/-- A DELETE request as the application handles it: the first matching route
decides the handler; a path no route matches is answered 404 by the framework. -/
def handleDelete (rt : Runtime) (cwd : String) (fileExists : String → Bool) (d : Document)
    (path : List String) : DeleteReply :=
  match dispatch deleteRoutes path with
  | some (.course, params) =>
    let r := deleteCourse rt cwd fileExists d ((params.lookup "id").getD "")
    { status := r.status,
      message := if r.status = 200 then "Course, lessons, assessments, and image deleted"
                 else "Course not found",
      doc := r.doc }
  | some (.archivedUser, params) => deleteArchivedUser d ((params.lookup "id").getD "")
  | some (.archivedAll, _) => deleteAllArchived d
  | none => { status := 404, message := "Cannot DELETE", doc := d }

/-- The callback of the `find` in `GET /api/users/:id`:
`u.userId === userId && !u.dateArchived`. -/
def visibleAs (userId : String) (u : User) : Bool :=
  u.userId == userId && !(u.dateArchived != "")

/-- Handler of `GET /api/users/:id`: the user answered, `none` for 404. -/
def getUserById (d : Document) (userId : String) : Option User :=
  d.users.find? (visibleAs userId)

/-- The handler registered for `GET /api/archived-users`: the users it selects.
The route is registered after `/api/:collection` (see `getRoutes`). -/
def getArchivedUsers (d : Document) : List User :=
  d.users.filter (fun u => u.status == "Archived")

/-- The archive state of a user is consistent: the status is "Archived" exactly
when the archive date is not empty. -/
def archiveConsistent (u : User) : Prop :=
  u.status = "Archived" ↔ u.dateArchived ≠ ""

/-- The path `/api/archived-users/delete-all`. -/
def deleteAllPath : List String := ["api", "archived-users", "delete-all"]

/-! ## The GET routes and the generic read route -/

/-- The GET handlers of `server.js`. -/
inductive GetHandler where
  | progress : GetHandler
  | traineeCourses : GetHandler
  | collection : GetHandler
  | courses : GetHandler
  | courseById : GetHandler
  | coursesOfUser : GetHandler
  | lessons : GetHandler
  | lessonById : GetHandler
  | userById : GetHandler
  | archivedUsers : GetHandler
  | assigned : GetHandler
  | lessonPage : GetHandler
  deriving DecidableEq, Repr

/-- The GET routes in the order `server.js` registers them. -/
def getRoutes : List (List Seg × GetHandler) :=
  [([.lit "api", .lit "progress", .param "userId", .param "courseId"], .progress),
   ([.lit "api", .lit "trainee", .param "userId", .lit "courses"], .traineeCourses),
   ([.lit "api", .param "collection"], .collection),
   ([.lit "api", .lit "courses"], .courses),
   ([.lit "api", .lit "courses", .param "id"], .courseById),
   ([.lit "api", .lit "courses", .param "userId"], .coursesOfUser),
   ([.lit "api", .lit "lessons"], .lessons),
   ([.lit "api", .lit "lessons", .param "id"], .lessonById),
   ([.lit "api", .lit "users", .param "id"], .userById),
   ([.lit "api", .lit "archived-users"], .archivedUsers),
   ([.lit "api", .lit "assigned"], .assigned),
   ([.lit "lesson", .param "lessonId"], .lessonPage)]

/-- A string or `null`. -/
def stringOrNull : Option String → JVal
  | some text => .str text
  | none => .null

/-- A question as a JSON object. -/
def Question.toJson (q : Question) : Record :=
  [("id", .num q.id), ("questionNumber", .num q.questionNumber),
   ("questionType", q.questionType), ("question", q.question), ("options", .arr q.options),
   ("answer", q.answer), ("expectedAnswer", q.expectedAnswer), ("points", .num q.points)]

/-- A lesson as a JSON object. -/
def Lesson.toJson (l : Lesson) : Record :=
  [("id", l.id), ("title", .str l.title), ("description", .str l.description),
   ("courseId", l.courseId),
   ("content", .obj [("handout", stringOrNull l.content.handout),
                     ("videos", .arr (l.content.videos.map JVal.str)),
                     ("powerpoints", .arr (l.content.powerpoints.map JVal.str))]),
   ("uploadedBy", l.uploadedBy), ("uploadedAt", .str l.uploadedAt)]

/-- An assessment as a JSON object. -/
def Assessment.toJson (a : Assessment) : Record :=
  [("id", a.id), ("title", .str a.title), ("type", a.type), ("difficulty", a.difficulty),
   ("courseId", a.courseId), ("lessonId", a.lessonId), ("duration", a.duration),
   ("deadline", a.deadline),
   ("questions", .arr (a.questions.map (fun q => JVal.obj q.toJson))),
   ("createdAt", .str a.createdAt)]

/-- A course as a JSON object; a field that is `undefined` is absent. -/
def Course.toJson (c : Course) : Record :=
  [("id", c.id), ("title", c.title), ("description", c.description),
   ("image", stringOrNull c.image), ("createdAt", .str c.createdAt),
   ("uploadedBy", c.uploadedBy), ("status", .str c.status), ("courseId", c.courseId),
   ("courseTitle", c.courseTitle)]

/-- An assignment as a JSON object; a field that is `undefined` is absent. -/
def Assignment.toJson (a : Assignment) : Record :=
  [("id", .num a.id), ("userId", a.userId), ("fullName", a.fullName),
   ("userType", .str a.userType), ("email", a.email), ("courseId", a.courseId),
   ("courseTitle", a.courseTitle), ("status", a.status), ("progress", a.progress),
   ("assignedDate", .str a.assignedDate)]

/-- A progress record as a JSON object. -/
def Progress.toJson (p : Progress) : Record :=
  [("id", .num p.id), ("userId", p.userId), ("courseId", p.courseId),
   ("openedLessons", .arr p.openedLessons), ("openedAssessments", .arr p.openedAssessments),
   ("completionRate", .num p.completionRate), ("lastUpdated", .str p.lastUpdated)]

/-- The object `db.data`: one field per collection, `assigned` only when the
collection exists. -/
def Document.toJson (d : Document) : Record :=
  [("lessons", .arr (d.lessons.map (fun l => JVal.obj l.toJson))),
   ("assessments", .arr (d.assessments.map (fun a => JVal.obj a.toJson))),
   ("submissions", .arr d.submissions),
   ("users", .arr (d.users.map (fun u => JVal.obj u.toJson))),
   ("courses", .arr (d.courses.map (fun c => JVal.obj c.toJson))),
   ("progress", .arr (d.progress.map (fun p => JVal.obj p.toJson)))]
  ++ (match d.assigned with
      | some assigned => [("assigned", .arr (assigned.map (fun a => JVal.obj a.toJson)))]
      | none => [])

/-- The names every object inherits from `Object.prototype`. -/
def inheritedNames : List String :=
  ["constructor", "__proto__", "hasOwnProperty", "isPrototypeOf", "propertyIsEnumerable",
   "toLocaleString", "toString", "valueOf", "__defineGetter__", "__defineSetter__",
   "__lookupGetter__", "__lookupSetter__"]

/-- Handler of `GET /api/:collection`: the body `db.data[collection] || []`;
`none` for an inherited name, whose value is not JSON data. -/
def getCollection (d : Document) (collection : String) : Option JVal :=
  if collection ∈ inheritedNames then none
  else some (orElse (d.toJson.get collection) (.arr []))

/-- The body the handler registered for `GET /api/archived-users` would answer. -/
def archivedUsersBody (d : Document) : JVal :=
  .arr ((getArchivedUsers d).map (fun u => JVal.obj u.toJson))

/-- The path `/api/archived-users`. -/
def archivedUsersPath : List String := ["api", "archived-users"]

/-! ## Lemmas on the binary64 model -/

theorem roundTiesEven_le {n d K : Nat} (hd : 0 < d) (h : n ≤ K * d) :
    roundTiesEven n d ≤ K := by
  have hq : n / d ≤ K := by
    calc n / d ≤ K * d / d := Nat.div_le_div_right h
      _ = K := Nat.mul_div_cancel K hd
  have hdm : d * (n / d) + n % d = n := Nat.div_add_mod n d
  have hstep : 0 < n % d → n / d + 1 ≤ K := by
    intro hr
    by_contra hc
    have hK : K = n / d := by omega
    rw [hK, Nat.mul_comm] at h
    omega
  unfold roundTiesEven
  simp only []
  split
  · exact hq
  · split
    · exact hstep (by omega)
    · split
      · exact hq
      · exact hstep (by omega)

theorem bitLog2Go_spec (fuel : Nat) : ∀ n : Nat, n ≠ 0 → n ≤ fuel →
    2 ^ bitLog2Go fuel n ≤ n ∧ n < 2 ^ (bitLog2Go fuel n + 1) := by
  induction fuel with
  | zero => intro n h0 hle; omega
  | succ f ih =>
    intro n h0 hle
    unfold bitLog2Go
    by_cases h2 : n < 2
    · have h1 : n = 1 := by omega
      subst h1
      rw [if_pos (by decide)]
      decide
    · rw [if_neg h2]
      have ih1 := ih (n / 2) (by omega) (by omega)
      have e1 : 2 ^ (bitLog2Go f (n / 2) + 1) = 2 * 2 ^ bitLog2Go f (n / 2) := by
        rw [Nat.pow_succ, Nat.mul_comm]
      have e2 : 2 ^ (bitLog2Go f (n / 2) + 1 + 1) = 2 * 2 ^ (bitLog2Go f (n / 2) + 1) := by
        rw [Nat.pow_succ, Nat.mul_comm]
      rw [e2]
      rw [e1] at ih1 ⊢
      omega

theorem two_pow_bitLog2_le {n : Nat} (h : n ≠ 0) : 2 ^ bitLog2 n ≤ n :=
  (bitLog2Go_spec n n h (Nat.le_refl n)).1

theorem lt_two_pow_bitLog2 {n : Nat} (h : n ≠ 0) : n < 2 ^ (bitLog2 n + 1) :=
  (bitLog2Go_spec n n h (Nat.le_refl n)).2

theorem fl_den_pos (n d : Nat) : 0 < (fl n d).2 := by
  unfold fl
  by_cases hn : n = 0
  · simp [hn]
  · by_cases hs : bitLog2 n ≤ flOffset n d
    · simp only [if_neg hn, if_pos hs]
      exact Nat.pos_pow_of_pos _ (by decide)
    · simp [if_neg hn, if_neg hs]

theorem flOffset_le (n d : Nat) : flOffset n d ≤ 53 + bitLog2 d := by
  unfold flOffset
  split <;> omega

/-- Rounding to binary64 never crosses an integer `K ≤ 2 ^ 52` from below. -/
theorem fl_le {n d K : Nat} (hd : 0 < d) (hK : K ≤ 2 ^ 52) (h : n ≤ K * d) :
    (fl n d).1 ≤ K * (fl n d).2 := by
  unfold fl
  by_cases hn : n = 0
  · simp [hn]
  · by_cases hs : bitLog2 n ≤ flOffset n d
    · simp only [if_neg hn, if_pos hs]
      apply roundTiesEven_le hd
      calc n * 2 ^ (flOffset n d - bitLog2 n)
          ≤ K * d * 2 ^ (flOffset n d - bitLog2 n) := Nat.mul_le_mul_right _ h
        _ = K * 2 ^ (flOffset n d - bitLog2 n) * d := by ring
    · exfalso
      have h1 := two_pow_bitLog2_le hn
      have h2 := lt_two_pow_bitLog2 (Nat.pos_iff_ne_zero.mp hd)
      have h0 : 52 + bitLog2 d ≤ flOffset n d := by unfold flOffset; omega
      have h3 : 53 + bitLog2 d ≤ bitLog2 n := by omega
      have h4 : 2 ^ (53 + bitLog2 d) ≤ 2 ^ bitLog2 n := Nat.pow_le_pow_right (by decide) h3
      have h5 : 2 ^ (53 + bitLog2 d) = 2 ^ 52 * 2 ^ (bitLog2 d + 1) := by
        rw [← Nat.pow_add]; congr 1; omega
      have h6 : K * d < 2 ^ 52 * 2 ^ (bitLog2 d + 1) :=
        calc K * d ≤ 2 ^ 52 * d := Nat.mul_le_mul_right _ hK
          _ < 2 ^ 52 * 2 ^ (bitLog2 d + 1) := Nat.mul_lt_mul_of_pos_left h2 (by decide)
      omega

theorem roundTiesEven_ge {n d K : Nat} (hd : 0 < d) (h : K * d ≤ n) :
    K ≤ roundTiesEven n d := by
  have hq : K ≤ n / d := (Nat.le_div_iff_mul_le hd).mpr h
  unfold roundTiesEven
  simp only []
  split
  · exact hq
  · split
    · omega
    · split <;> omega

/-- The integer returned by `roundTiesEven` is within half a unit of `n / d`. -/
theorem roundTiesEven_nearest {n d : Nat} (hd : 0 < d) :
    2 * (roundTiesEven n d * d - n) ≤ d ∧ 2 * (n - roundTiesEven n d * d) ≤ d := by
  have hdm : d * (n / d) + n % d = n := Nat.div_add_mod n d
  have hlt : n % d < d := Nat.mod_lt n hd
  have e1 : (n / d + 1) * d = d * (n / d) + d := by ring
  have e2 : n / d * d = d * (n / d) := Nat.mul_comm _ _
  unfold roundTiesEven
  simp only []
  split
  · rw [e2]; omega
  · split
    · rw [e1]; omega
    · split
      · rw [e2]; omega
      · rw [e1]; omega

/-- The offset chosen by `fl` scales the quotient into `[2 ^ 52, 2 ^ 53)`. -/
theorem flOffset_spec {n d : Nat} (hn : n ≠ 0) (hd : d ≠ 0) :
    2 ^ 52 * (d * 2 ^ bitLog2 n) ≤ n * 2 ^ flOffset n d
    ∧ n * 2 ^ flOffset n d < 2 ^ 53 * (d * 2 ^ bitLog2 n) := by
  have h1 := two_pow_bitLog2_le hn
  have h2 := lt_two_pow_bitLog2 hn
  have h3 := two_pow_bitLog2_le hd
  have h4 := lt_two_pow_bitLog2 hd
  rw [Nat.pow_succ] at h2 h4
  have hA : d * 2 ^ bitLog2 n < 2 * (n * 2 ^ bitLog2 d) := by nlinarith
  have hB : n * 2 ^ bitLog2 d < 2 * (d * 2 ^ bitLog2 n) := by nlinarith
  unfold flOffset
  split
  · rename_i hc
    have e : n * 2 ^ (52 + bitLog2 d + 0) = 2 ^ 52 * (n * 2 ^ bitLog2 d) := by
      rw [Nat.add_zero, Nat.pow_add]; ring
    rw [e]
    constructor
    · exact Nat.mul_le_mul_left _ hc
    · have : (2:Nat) ^ 53 = 2 ^ 52 * 2 := by norm_num
      rw [this, Nat.mul_assoc]
      exact Nat.mul_lt_mul_of_pos_left hB (by positivity)
  · rename_i hc
    have e : n * 2 ^ (52 + bitLog2 d + 1) = 2 ^ 53 * (n * 2 ^ bitLog2 d) := by
      rw [Nat.pow_add, Nat.pow_add]; ring
    rw [e]
    constructor
    · have : (2:Nat) ^ 53 = 2 ^ 52 * 2 := by norm_num
      rw [this, Nat.mul_assoc]
      exact Nat.mul_le_mul_left _ (by omega)
    · exact Nat.mul_lt_mul_of_pos_left (by omega) (by positivity)

/-- Below `2 ^ 53` the value `fl n d` has a significand in `[2 ^ 52, 2 ^ 53]`
over a power of two and is within half a unit in the last place of `n / d`. -/
theorem fl_correctly_rounded {n d : Nat} (hn : n ≠ 0) (hd : d ≠ 0)
    (hs : bitLog2 n ≤ flOffset n d) :
    (fl n d).2 = 2 ^ (flOffset n d - bitLog2 n)
    ∧ 2 ^ 52 ≤ (fl n d).1 ∧ (fl n d).1 ≤ 2 ^ 53
    ∧ 2 * ((fl n d).1 * d - n * (fl n d).2) ≤ d
    ∧ 2 * (n * (fl n d).2 - (fl n d).1 * d) ≤ d := by
  have hd0 : 0 < d := Nat.pos_of_ne_zero hd
  obtain ⟨hlo, hhi⟩ := flOffset_spec hn hd
  have hp : 0 < 2 ^ bitLog2 n := by positivity
  have ea : n * 2 ^ flOffset n d = n * 2 ^ (flOffset n d - bitLog2 n) * 2 ^ bitLog2 n := by
    rw [Nat.mul_assoc, ← Nat.pow_add, Nat.sub_add_cancel hs]
  rw [ea] at hlo hhi
  have hlo1 : 2 ^ 52 * d ≤ n * 2 ^ (flOffset n d - bitLog2 n) := by
    have : 2 ^ 52 * d * 2 ^ bitLog2 n ≤ n * 2 ^ (flOffset n d - bitLog2 n) * 2 ^ bitLog2 n := by
      rw [Nat.mul_assoc]; exact hlo
    exact Nat.le_of_mul_le_mul_right this hp
  have hhi1 : n * 2 ^ (flOffset n d - bitLog2 n) ≤ 2 ^ 53 * d := by
    have : n * 2 ^ (flOffset n d - bitLog2 n) * 2 ^ bitLog2 n < 2 ^ 53 * d * 2 ^ bitLog2 n := by
      rw [Nat.mul_assoc (2 ^ 53)]; exact hhi
    exact Nat.le_of_lt (Nat.lt_of_mul_lt_mul_right this)
  unfold fl
  simp only [if_neg hn, if_pos hs]
  exact ⟨trivial, roundTiesEven_ge hd0 hlo1, roundTiesEven_le hd0 hhi1,
    (roundTiesEven_nearest hd0).1, (roundTiesEven_nearest hd0).2⟩

theorem mathRound_le {x : Nat × Nat} {K : Nat} (hx : 0 < x.2) (h : x.1 ≤ K * x.2) :
    mathRound x ≤ K := by
  unfold mathRound
  apply Nat.le_of_lt_succ
  rw [Nat.div_lt_iff_lt_mul (by omega)]
  have e : (K + 1) * (2 * x.2) = 2 * (K * x.2) + 2 * x.2 := by ring
  show 2 * x.1 + x.2 < (K + 1) * (2 * x.2)
  rw [e]
  omega

/-- The computed rate never exceeds 100 while the opened count is within the total. -/
theorem completionRateOf_le_hundred {o t : Nat} (h : o ≤ t) : completionRateOf o t ≤ 100 := by
  unfold completionRateOf
  split
  · rename_i ht
    have h1 : (fl o t).1 ≤ 1 * (fl o t).2 := fl_le ht (by decide) (by omega)
    have hp := fl_den_pos o t
    apply mathRound_le (fl_den_pos _ _)
    show (fl ((fl o t).1 * 100) (fl o t).2).1 ≤ 100 * (fl ((fl o t).1 * 100) (fl o t).2).2
    apply fl_le hp (by decide)
    calc (fl o t).1 * 100 ≤ 1 * (fl o t).2 * 100 := Nat.mul_le_mul_right _ h1
      _ = 100 * (fl o t).2 := by ring
  · omega

theorem completionRateOf_zero (t : Nat) : completionRateOf 0 t = 0 := by
  unfold completionRateOf
  split
  · simp [jsDiv, jsMul100, fl, mathRound]
  · rfl

/-! ## Lemmas on the collection helpers -/

theorem updateFirst_length {α : Type} (p : α → Bool) (f : α → α) (l : List α) :
    (updateFirst p f l).length = l.length := by
  induction l with
  | nil => rfl
  | cons x xs ih =>
    unfold updateFirst
    split <;> simp [ih]

theorem updateFirst_map_eq {α β : Type} (p : α → Bool) (f : α → α) (g : α → β)
    (h : ∀ a, p a = true → g (f a) = g a) (l : List α) :
    (updateFirst p f l).map g = l.map g := by
  induction l with
  | nil => rfl
  | cons x xs ih =>
    unfold updateFirst
    by_cases hx : p x = true
    · simp [hx, h x hx]
    · simp [hx, ih]

theorem mem_updateFirst {α : Type} (p : α → Bool) (f : α → α) (l : List α) (q : α)
    (h : q ∈ updateFirst p f l) : q ∈ l ∨ ∃ a, a ∈ l ∧ p a = true ∧ List.find? p l = some a ∧ q = f a := by
  induction l with
  | nil => simp [updateFirst] at h
  | cons x xs ih =>
    unfold updateFirst at h
    by_cases hx : p x = true
    · rw [if_pos hx, List.mem_cons] at h
      rcases h with h | h
      · exact Or.inr ⟨x, by simp, hx, by simp [List.find?, hx], h⟩
      · exact Or.inl (by simp [h])
    · rw [if_neg hx, List.mem_cons] at h
      rcases h with h | h
      · exact Or.inl (by simp [h])
      · rcases ih h with h1 | ⟨a, ha, hpa, hfa, hq⟩
        · exact Or.inl (by simp [h1])
        · refine Or.inr ⟨a, by simp [ha], hpa, ?_, hq⟩
          simp [List.find?, hx, hfa]

theorem find?_updateFirst_const {α : Type} (p : α → Bool) (q : α) (hq : p q = true)
    (l : List α) (a : α) (h : List.find? p l = some a) :
    List.find? p (updateFirst p (fun _ => q) l) = some q := by
  induction l with
  | nil => simp at h
  | cons x xs ih =>
    unfold updateFirst
    by_cases hx : p x = true
    · simp [hx, List.find?, hq]
    · rw [if_neg hx]
      simp only [List.find?, hx] at h ⊢
      exact ih h

theorem find?_append_new {α : Type} (p : α → Bool) (q : α) (hq : p q = true)
    (l : List α) (h : List.find? p l = none) :
    List.find? p (l ++ [q]) = some q := by
  induction l with
  | nil => simp [List.find?, hq]
  | cons x xs ih =>
    by_cases hx : p x = true
    · simp [List.find?, hx] at h
    · simp only [List.find?, hx] at h
      simp only [List.cons_append, List.find?, hx]
      exact ih h

theorem strictEq_iff (a b : JVal) : strictEq a b = true ↔ a.isObject = false ∧ a = b := by
  simp [strictEq]

/-- Against a primitive of the request, `===` is equality of values. -/
theorem strictEq_of_primitive (a b : JVal) (hb : b.isObject = false) :
    strictEq a b = true ↔ a = b := by
  rw [strictEq_iff]
  constructor
  · exact fun h => h.2
  · intro h
    subst h
    exact ⟨hb, rfl⟩

/-- Against an array or an object of the request, `===` is false. -/
theorem strictEq_object (a b : JVal) (hb : b.isObject = true) : strictEq a b = false := by
  cases h : strictEq a b with
  | false => rfl
  | true =>
    obtain ⟨h1, h2⟩ := (strictEq_iff a b).mp h
    subst h2
    rw [hb] at h1
    exact Bool.noConfusion h1

theorem includes_of_primitive (l : List JVal) (id : JVal) (hid : id.isObject = false) :
    includes l id = true ↔ id ∈ l := by
  simp only [includes, List.any_eq_true]
  constructor
  · rintro ⟨x, hx, hs⟩
    rw [strictEq_of_primitive x id hid] at hs
    subst hs
    exact hx
  · intro h
    exact ⟨id, h, (strictEq_of_primitive id id hid).mpr rfl⟩

theorem includes_object (l : List JVal) (id : JVal) (hid : id.isObject = true) :
    includes l id = false := by
  simp only [includes, List.any_eq_false]
  intro x _
  rw [strictEq_object x id hid]
  exact Bool.noConfusion

theorem truthy_of_object (v : JVal) (h : v.isObject = true) : truthy v = true := by
  cases v <;> first | rfl | exact Bool.noConfusion h

/-- An array or an object of the request is pushed whatever the list holds. -/
theorem pushIfNew_object (id : JVal) (l : List JVal) (hid : id.isObject = true) :
    pushIfNew id l = l ++ [id] := by
  simp [pushIfNew, includes_object l id hid, truthy_of_object id hid]

theorem pushIfNew_nodup (id : JVal) (l : List JVal) (hid : id.isObject = false) (h : l.Nodup) :
    (pushIfNew id l).Nodup := by
  unfold pushIfNew
  split
  · rename_i hc
    simp only [Bool.and_eq_true, Bool.not_eq_true'] at hc
    rw [List.nodup_append]
    refine ⟨h, List.nodup_singleton id, ?_⟩
    intro a ha hb
    simp only [List.mem_singleton] at hb
    subst hb
    have hin := (includes_of_primitive l a hid).mpr ha
    rw [hc.2] at hin
    exact Bool.noConfusion hin
  · exact h

theorem pushIfNew_of_mem (id : JVal) (l : List JVal) (hid : id.isObject = false) (h : id ∈ l) :
    pushIfNew id l = l := by
  unfold pushIfNew
  rw [(includes_of_primitive l id hid).mpr h]
  simp

theorem pushIfNew_idem (id : JVal) (l : List JVal) (hid : id.isObject = false) :
    pushIfNew id (pushIfNew id l) = pushIfNew id l := by
  by_cases hc : (truthy id && !includes l id) = true
  · have e : pushIfNew id l = l ++ [id] := by unfold pushIfNew; rw [if_pos hc]
    rw [e]
    exact pushIfNew_of_mem id _ hid (by simp)
  · have e : pushIfNew id l = l := by unfold pushIfNew; rw [if_neg hc]
    rw [e, e]

/-! ## The progress handlers, case by case -/

theorem progressMatches_self (u c : JVal) (p : Progress) (hprim : u.isObject = false)
    (hu : p.userId = u) (hc : p.courseId = c) : progressMatches u c p = true := by
  simp [progressMatches, hu, hc, (strictEq_of_primitive u u hprim).mpr rfl]

theorem postProgressUpdate_found (d : Document) (clk : Clock) (req : ProgressUpdate)
    (hu : truthy req.userId = true) (hc : truthy req.courseId = true) (p0 : Progress)
    (hf : d.progress.find? (progressMatches req.userId req.courseId) = some p0) :
    postProgressUpdate d clk req =
      { status := 200, progress := some (recordOpened d clk req p0),
        doc := { d with
          progress := updateFirst (progressMatches req.userId req.courseId)
                        (fun _ => recordOpened d clk req p0) d.progress } } := by
  simp [postProgressUpdate, hu, hc, hf]

theorem postProgressUpdate_new (d : Document) (clk : Clock) (req : ProgressUpdate)
    (hu : truthy req.userId = true) (hc : truthy req.courseId = true)
    (hf : d.progress.find? (progressMatches req.userId req.courseId) = none) :
    postProgressUpdate d clk req =
      { status := 200,
        progress := some (recordOpened d clk req (newProgress clk req.userId req.courseId)),
        doc := { d with
          progress := d.progress ++
                        [recordOpened d clk req (newProgress clk req.userId req.courseId)] } } := by
  simp [postProgressUpdate, hu, hc, hf]

theorem postProgressUpdate_rejected (d : Document) (clk : Clock) (req : ProgressUpdate)
    (h : ¬ (truthy req.userId = true ∧ truthy req.courseId = true)) :
    postProgressUpdate d clk req = { status := 400, progress := none, doc := d } := by
  unfold postProgressUpdate
  rw [if_pos]
  cases hu : truthy req.userId <;> cases hc : truthy req.courseId <;> simp_all

theorem getProgress_found (d : Document) (clk : Clock) (userId courseId : String) (p0 : Progress)
    (hf : d.progress.find? (progressMatches (.str userId) (.str courseId)) = some p0) :
    getProgress d clk userId courseId =
      { status := 200, progress := some (refreshRate d clk courseId p0),
        doc := { d with
          progress := updateFirst (progressMatches (.str userId) (.str courseId))
                        (fun _ => refreshRate d clk courseId p0) d.progress } } := by
  simp [getProgress, hf]

theorem getProgress_new (d : Document) (clk : Clock) (userId courseId : String)
    (hf : d.progress.find? (progressMatches (.str userId) (.str courseId)) = none) :
    getProgress d clk userId courseId =
      { status := 200,
        progress := some (refreshRate d clk courseId (newProgress clk (.str userId) (.str courseId))),
        doc := { d with
          progress := d.progress ++
                        [refreshRate d clk courseId (newProgress clk (.str userId) (.str courseId))] } } := by
  simp [getProgress, hf]

/-- The rate stored by an accepted update is the binary64 evaluation of
`Math.round((openedCount / totalItems) * 100)` on the counts after the update. -/
theorem postProgressUpdate_rate (d : Document) (clk : Clock) (req : ProgressUpdate) (p : Progress)
    (h : (postProgressUpdate d clk req).progress = some p) :
    p.completionRate = completionRateOf (p.openedLessons.length + p.openedAssessments.length)
      (totalLessons d req.courseId + totalAssessments d req.courseId) := by
  by_cases ha : truthy req.userId = true ∧ truthy req.courseId = true
  · cases hf : d.progress.find? (progressMatches req.userId req.courseId) with
    | none =>
      rw [postProgressUpdate_new d clk req ha.1 ha.2 hf] at h
      simp only [Option.some.injEq] at h
      subst h
      rfl
    | some p0 =>
      rw [postProgressUpdate_found d clk req ha.1 ha.2 p0 hf] at h
      simp only [Option.some.injEq] at h
      subst h
      rfl
  · rw [postProgressUpdate_rejected d clk req ha] at h
    simp at h

/-- The rate returned by the read route, likewise. -/
theorem getProgress_rate (d : Document) (clk : Clock) (userId courseId : String) (p : Progress)
    (h : (getProgress d clk userId courseId).progress = some p) :
    p.completionRate = completionRateOf (p.openedLessons.length + p.openedAssessments.length)
      (totalLessons d (.str courseId) + totalAssessments d (.str courseId)) := by
  cases hf : d.progress.find? (progressMatches (.str userId) (.str courseId)) with
  | none =>
    rw [getProgress_new d clk userId courseId hf] at h
    simp only [Option.some.injEq] at h
    subst h
    rfl
  | some p0 =>
    rw [getProgress_found d clk userId courseId p0 hf] at h
    simp only [Option.some.injEq] at h
    subst h
    rfl

theorem updateFirst_const_map_eq {α β : Type} (p : α → Bool) (g : α → β) (q a : α)
    (hg : g q = g a) (l : List α) (hf : List.find? p l = some a) :
    (updateFirst p (fun _ => q) l).map g = l.map g := by
  induction l with
  | nil => simp at hf
  | cons x xs ih =>
    unfold updateFirst
    by_cases hx : p x = true
    · rw [if_pos hx]
      simp only [List.find?, hx, Option.some.injEq] at hf
      subst hf
      simp [hg]
    · rw [if_neg hx]
      simp only [List.find?, hx] at hf
      simp [ih hf]

theorem progressMatches_iff_key (u c : JVal) (p : Progress) (hprim : u.isObject = false) :
    progressMatches u c p = true ↔ progressKey p = (u, jsString c) := by
  simp [progressMatches, progressKey, Prod.ext_iff, strictEq_of_primitive p.userId u hprim]

/-- A record that the `find` callback accepts carries the pair looked for. -/
theorem progressKey_of_matches (u c : JVal) (p : Progress)
    (h : progressMatches u c p = true) : progressKey p = (u, jsString c) := by
  simp only [progressMatches, Bool.and_eq_true, beq_iff_eq] at h
  obtain ⟨h1, h2⟩ := h
  simp [progressKey, ((strictEq_iff p.userId u).mp h1).2, h2]

/-- No stored record matches a user id that is an array or an object. -/
theorem progressMatches_object (u c : JVal) (p : Progress) (hobj : u.isObject = true) :
    progressMatches u c p = false := by
  simp [progressMatches, strictEq_object p.userId u hobj]

theorem progressKey_recordOpened (d : Document) (clk : Clock) (req : ProgressUpdate)
    (p : Progress) : progressKey (recordOpened d clk req p) = progressKey p := rfl

theorem progressKey_refreshRate (d : Document) (clk : Clock) (c : String)
    (p : Progress) : progressKey (refreshRate d clk c p) = progressKey p := rfl

theorem progressMatches_of_key_eq (u c : JVal) (p q : Progress)
    (h : progressKey q = progressKey p) (hp : progressMatches u c p = true) :
    progressMatches u c q = true := by
  simp only [progressKey, Prod.mk.injEq] at h
  simp only [progressMatches] at hp ⊢
  rw [h.1, h.2]
  exact hp

/-- Applying the update a second time to the record it produced, on a document
with the same lessons and assessments, changes the time stamp only. -/
theorem recordOpened_twice (d d1 : Document) (clk1 clk2 : Clock) (req : ProgressUpdate)
    (p : Progress) (hlesson : req.lessonId.isObject = false)
    (hassessment : req.assessmentId.isObject = false)
    (hl : d1.lessons = d.lessons) (ha : d1.assessments = d.assessments) :
    recordOpened d1 clk2 req (recordOpened d clk1 req p) =
      { recordOpened d clk1 req p with lastUpdated := clk2.iso } := by
  simp [recordOpened, pushIfNew_idem _ _ hlesson, pushIfNew_idem _ _ hassessment, totalLessons,
    totalAssessments, hl, ha]

/-- A second accepted update that finds the record the first one produced
returns it with a new time stamp only and leaves the collection as it was up
to time stamps. -/
theorem postProgressUpdate_again (d d1 : Document) (clk1 clk2 : Clock) (req : ProgressUpdate)
    (hu : truthy req.userId = true) (hc : truthy req.courseId = true) (p : Progress)
    (hlesson : req.lessonId.isObject = false) (hassessment : req.assessmentId.isObject = false)
    (hl : d1.lessons = d.lessons) (ha : d1.assessments = d.assessments)
    (hf1 : d1.progress.find? (progressMatches req.userId req.courseId)
      = some (recordOpened d clk1 req p)) :
    ∃ p2, (postProgressUpdate d1 clk2 req).progress = some p2
      ∧ p2.openedLessons = (recordOpened d clk1 req p).openedLessons
      ∧ p2.openedAssessments = (recordOpened d clk1 req p).openedAssessments
      ∧ p2.completionRate = (recordOpened d clk1 req p).completionRate
      ∧ (postProgressUpdate d1 clk2 req).doc.progress.map stripTime = d1.progress.map stripTime := by
  rw [postProgressUpdate_found d1 clk2 req hu hc _ hf1]
  refine ⟨_, rfl, ?_⟩
  rw [recordOpened_twice d d1 clk1 clk2 req p hlesson hassessment hl ha]
  refine ⟨rfl, rfl, rfl, ?_⟩
  exact updateFirst_const_map_eq _ stripTime
    { recordOpened d clk1 req p with lastUpdated := clk2.iso } (recordOpened d clk1 req p)
    rfl _ hf1

/-! ## Theorems on progress tracking -/

/-- C1, the code at the failing input: with 40 lessons in course 5 and 23 opened
entries after the update, the exact value 57.5 rounds half up to 58, but the
handler stores 57, because `(23 / 40) * 100` evaluates in binary64 to a number
just below 57.5. -/
theorem C1_half_rounds_down_in_binary64 :
    (postProgressUpdate fortyLessonDoc sampleClock openLesson23).progress.map
        (fun p => (p.openedLessons.length + p.openedAssessments.length, p.completionRate))
      = some (23, 57)
    ∧ totalLessons fortyLessonDoc openLesson23.courseId
        + totalAssessments fortyLessonDoc openLesson23.courseId = 40
    ∧ specCompletionRate 23 40 = 58 := by
  decide

/-- C2, counterexample: with one lesson in course 5 and lesson 1 already opened,
reporting lesson 2 stores a completion rate of 200, which is above 100. -/
theorem C2_rate_above_hundred :
    ∃ p, (postProgressUpdate oneLessonDoc sampleClock openLesson2).progress = some p
      ∧ p.completionRate = 200 ∧ ¬ p.completionRate ≤ 100 := by
  refine ⟨_, rfl, ?_, ?_⟩ <;> decide

/-- C2, amended: the completion rate returned by the read route and by an
accepted update is a natural number, and it is at most 100 whenever the number
of opened entries of the returned record does not exceed the number of lessons
and assessments of the course. -/
theorem C2_rate_bounded_when_opened_within_total (d : Document) (clk : Clock) :
    (∀ (req : ProgressUpdate) (p : Progress),
        (postProgressUpdate d clk req).progress = some p →
        p.openedLessons.length + p.openedAssessments.length
          ≤ totalLessons d req.courseId + totalAssessments d req.courseId →
        p.completionRate ≤ 100)
    ∧ (∀ (userId courseId : String) (p : Progress),
        (getProgress d clk userId courseId).progress = some p →
        p.openedLessons.length + p.openedAssessments.length
          ≤ totalLessons d (.str courseId) + totalAssessments d (.str courseId) →
        p.completionRate ≤ 100) := by
  constructor
  · intro req p h hle
    rw [postProgressUpdate_rate d clk req p h]
    exact completionRateOf_le_hundred hle
  · intro userId courseId p h hle
    rw [getProgress_rate d clk userId courseId p h]
    exact completionRateOf_le_hundred hle

/-- C3, counterexample: with two lessons and no assessment in course 5, the
accepted request `{userId:"T1001", courseId:5, lessonId:[42]}` gives the opened
lessons `[[42]]` and the rate 50; the identical request applied again is
accepted too and gives `[[42],[42]]` and the rate 100, because `includes`
compares the array by reference. -/
theorem C3_array_lesson_id_counted_twice :
    (postProgressUpdate twoLessonDoc sampleClock openLessonArray).status = 200
    ∧ (postProgressUpdate twoLessonDoc sampleClock openLessonArray).progress.map
        (fun p => (p.openedLessons, p.completionRate)) = some ([.arr [.num 42]], 50)
    ∧ (postProgressUpdate (postProgressUpdate twoLessonDoc sampleClock openLessonArray).doc
        laterClock openLessonArray).status = 200
    ∧ (postProgressUpdate (postProgressUpdate twoLessonDoc sampleClock openLessonArray).doc
        laterClock openLessonArray).progress.map
        (fun p => (p.openedLessons, p.completionRate))
      = some ([.arr [.num 42], .arr [.num 42]], 100) := by
  decide

/-- C3, amended: an accepted update whose user id, lesson id and assessment id
are primitives (strings, numbers, booleans, null or absent), applied a second
time with the lessons and assessments unchanged in between, returns a record
with the same opened lists and the same completion rate, and every record of
the collection is as it was up to its time stamp.  In the scenario (two lessons
and no assessment in course 5, request `{userId:"T1001", courseId:5,
lessonId:42}`) the rate is 50 after the first call and 50 after the second. -/
theorem C3_recordOpened_idempotent :
    (∀ (d : Document) (clk1 clk2 : Clock) (req : ProgressUpdate),
      truthy req.userId = true → truthy req.courseId = true →
      req.userId.isObject = false → req.lessonId.isObject = false →
      req.assessmentId.isObject = false →
      ∃ p1 p2,
        (postProgressUpdate d clk1 req).progress = some p1
        ∧ (postProgressUpdate (postProgressUpdate d clk1 req).doc clk2 req).progress = some p2
        ∧ p2.openedLessons = p1.openedLessons
        ∧ p2.openedAssessments = p1.openedAssessments
        ∧ p2.completionRate = p1.completionRate
        ∧ (postProgressUpdate (postProgressUpdate d clk1 req).doc clk2 req).doc.progress.map stripTime
            = (postProgressUpdate d clk1 req).doc.progress.map stripTime)
    ∧ (postProgressUpdate twoLessonDoc sampleClock openLesson42).progress.map
          (fun p => p.completionRate) = some 50
    ∧ (postProgressUpdate (postProgressUpdate twoLessonDoc sampleClock openLesson42).doc
          laterClock openLesson42).progress.map (fun p => p.completionRate) = some 50 := by
  refine ⟨?_, by decide, by decide⟩
  intro d clk1 clk2 req hu hc huser hlesson hassessment
  cases hf : d.progress.find? (progressMatches req.userId req.courseId) with
  | none =>
    have hm : progressMatches req.userId req.courseId
        (recordOpened d clk1 req (newProgress clk1 req.userId req.courseId)) = true :=
      progressMatches_self _ _ _ huser rfl rfl
    have hf1 := find?_append_new _ _ hm d.progress hf
    have e1 := postProgressUpdate_new d clk1 req hu hc hf
    obtain ⟨p2, h2, h3, h4, h5, h6⟩ := postProgressUpdate_again d (postProgressUpdate d clk1 req).doc
      clk1 clk2 req hu hc (newProgress clk1 req.userId req.courseId) hlesson hassessment
      (by rw [e1]) (by rw [e1]) (by rw [e1]; exact hf1)
    exact ⟨_, p2, by rw [e1], h2, h3, h4, h5, h6⟩
  | some p0 =>
    have hp0 : progressMatches req.userId req.courseId p0 = true := by
      have := List.find?_some hf
      simpa using this
    have hm : progressMatches req.userId req.courseId (recordOpened d clk1 req p0) = true :=
      progressMatches_of_key_eq _ _ p0 _ (progressKey_recordOpened d clk1 req p0) hp0
    have hf1 := find?_updateFirst_const _ _ hm d.progress p0 hf
    have e1 := postProgressUpdate_found d clk1 req hu hc p0 hf
    obtain ⟨p2, h2, h3, h4, h5, h6⟩ := postProgressUpdate_again d (postProgressUpdate d clk1 req).doc
      clk1 clk2 req hu hc p0 hlesson hassessment (by rw [e1]) (by rw [e1]) (by rw [e1]; exact hf1)
    exact ⟨_, p2, by rw [e1], h2, h3, h4, h5, h6⟩

/-- C3, witness: the scenario document and request. -/
theorem C3_recordOpened_idempotent_witness :
    ∃ p1 p2,
      (postProgressUpdate twoLessonDoc sampleClock openLesson42).progress = some p1
      ∧ (postProgressUpdate (postProgressUpdate twoLessonDoc sampleClock openLesson42).doc
            laterClock openLesson42).progress = some p2
      ∧ p2.openedLessons = p1.openedLessons
      ∧ p2.openedAssessments = p1.openedAssessments
      ∧ p2.completionRate = p1.completionRate
      ∧ (postProgressUpdate (postProgressUpdate twoLessonDoc sampleClock openLesson42).doc
            laterClock openLesson42).doc.progress.map stripTime
          = (postProgressUpdate twoLessonDoc sampleClock openLesson42).doc.progress.map stripTime :=
  C3_recordOpened_idempotent.1 twoLessonDoc sampleClock laterClock openLesson42
    (by decide) (by decide) (by decide) (by decide) (by decide)

/-- C4, counterexample: the record of trainee T1001 holds the opened lessons
`[[42]]`, a list without duplicates in which the id `[42]` is present; the
request with `lessonId:[42]` is accepted and leaves `[[42],[42]]`, a list with a
duplicate entry that is not the list as it was. -/
theorem C4_array_id_pushed_again :
    (∀ p ∈ arrayOpenedDoc.progress, p.openedLessons.Nodup ∧ p.openedAssessments.Nodup)
    ∧ (∀ p ∈ arrayOpenedDoc.progress, openLessonArray.lessonId ∈ p.openedLessons)
    ∧ (postProgressUpdate arrayOpenedDoc sampleClock openLessonArray).status = 200
    ∧ (postProgressUpdate arrayOpenedDoc sampleClock openLessonArray).doc.progress.map
        (fun p => p.openedLessons) = [[.arr [.num 42], .arr [.num 42]]]
    ∧ ¬ (∀ p ∈ (postProgressUpdate arrayOpenedDoc sampleClock openLessonArray).doc.progress,
          p.openedLessons.Nodup ∧ p.openedAssessments.Nodup) := by
  decide

/-- C4, amended: for a request whose lesson id and assessment id are primitives
(strings, numbers, booleans, null or absent), if the opened lists of every
progress record are free of duplicates before `POST /api/progress/update`, they
are free of duplicates afterwards; and when the supplied lesson id (assessment
id) is already in the list of the record the request addresses, the returned
record has that list unchanged. -/
theorem C4_opened_lists_stay_sets (d : Document) (clk : Clock) (req : ProgressUpdate)
    (hlesson : req.lessonId.isObject = false) (hassessment : req.assessmentId.isObject = false)
    (h : ∀ p ∈ d.progress, p.openedLessons.Nodup ∧ p.openedAssessments.Nodup) :
    (∀ p ∈ (postProgressUpdate d clk req).doc.progress,
        p.openedLessons.Nodup ∧ p.openedAssessments.Nodup)
    ∧ (∀ p0 p, d.progress.find? (progressMatches req.userId req.courseId) = some p0 →
        (postProgressUpdate d clk req).progress = some p →
        (req.lessonId ∈ p0.openedLessons → p.openedLessons = p0.openedLessons)
        ∧ (req.assessmentId ∈ p0.openedAssessments → p.openedAssessments = p0.openedAssessments)) := by
  by_cases hacc : truthy req.userId = true ∧ truthy req.courseId = true
  · cases hf : d.progress.find? (progressMatches req.userId req.courseId) with
    | none =>
      rw [postProgressUpdate_new d clk req hacc.1 hacc.2 hf]
      refine ⟨?_, fun p0 p h0 => by simp at h0⟩
      intro p hp
      simp only [List.mem_append, List.mem_singleton] at hp
      rcases hp with hp | hp
      · exact h p hp
      · subst hp
        exact ⟨pushIfNew_nodup _ _ hlesson List.nodup_nil,
          pushIfNew_nodup _ _ hassessment List.nodup_nil⟩
    | some q =>
      have hq : q ∈ d.progress := List.mem_of_find?_eq_some hf
      rw [postProgressUpdate_found d clk req hacc.1 hacc.2 q hf]
      refine ⟨?_, ?_⟩
      · intro p hp
        rcases mem_updateFirst _ _ _ p hp with hp | ⟨a, _, _, _, hpa⟩
        · exact h p hp
        · subst hpa
          exact ⟨pushIfNew_nodup _ _ hlesson (h q hq).1, pushIfNew_nodup _ _ hassessment (h q hq).2⟩
      · intro p0 p h0 hp
        simp only [Option.some.injEq] at h0 hp
        subst h0
        subst hp
        exact ⟨fun hm => pushIfNew_of_mem _ _ hlesson hm,
          fun hm => pushIfNew_of_mem _ _ hassessment hm⟩
  · rw [postProgressUpdate_rejected d clk req hacc]
    exact ⟨h, fun p0 p _ hp => by simp at hp⟩

/-- C4, witness: lesson 1 reported again on the one-lesson document. -/
theorem C4_opened_lists_stay_sets_witness :
    (∀ p ∈ oneLessonDoc.progress, p.openedLessons.Nodup ∧ p.openedAssessments.Nodup)
    ∧ (∀ p ∈ (postProgressUpdate oneLessonDoc sampleClock
          { openLesson2 with lessonId := .num 1 }).doc.progress,
        p.openedLessons.Nodup ∧ p.openedAssessments.Nodup) :=
  ⟨by decide,
   (C4_opened_lists_stay_sets oneLessonDoc sampleClock { openLesson2 with lessonId := .num 1 }
      (by decide) (by decide) (by decide)).1⟩

/-- C5, counterexample: the collection holds one record, for the pair
(`["T1001"]`, "5"); the update with `userId:["T1001"]` and `courseId:5` is
accepted and appends a second record for the same pair, because `===` compares
the array by reference and `find` matches no record. -/
theorem C5_array_user_id_appends_again :
    (arrayUserDoc.progress.map progressKey).Nodup
    ∧ (∃ p ∈ arrayUserDoc.progress,
        progressKey p = (openByArrayUser.userId, jsString openByArrayUser.courseId))
    ∧ (postProgressUpdate arrayUserDoc sampleClock openByArrayUser).status = 200
    ∧ (postProgressUpdate arrayUserDoc sampleClock openByArrayUser).doc.progress.map progressKey
        = [(.arr [.str "T1001"], "5"), (.arr [.str "T1001"], "5")]
    ∧ ¬ ((postProgressUpdate arrayUserDoc sampleClock openByArrayUser).doc.progress.map
          progressKey).Nodup := by
  decide

/-- C5, amended: if the progress collection holds at most one record per pair
(user id, string form of the course id) before the read route, or before the
update route on a request whose user id is a primitive (a string, a number or a
boolean), it does so afterwards; the collection either keeps its records' pairs
in place, or no record matched the request and exactly one record, carrying the
request's pair, was appended. -/
theorem C5_one_record_per_pair (d : Document) (clk : Clock)
    (h : (d.progress.map progressKey).Nodup) :
    (∀ req : ProgressUpdate, req.userId.isObject = false →
        ((postProgressUpdate d clk req).doc.progress.map progressKey).Nodup
        ∧ ((postProgressUpdate d clk req).doc.progress.map progressKey = d.progress.map progressKey
           ∨ ((∀ p ∈ d.progress, progressKey p ≠ (req.userId, jsString req.courseId))
              ∧ ∃ p, (postProgressUpdate d clk req).doc.progress = d.progress ++ [p]
                  ∧ progressKey p = (req.userId, jsString req.courseId))))
    ∧ (∀ userId courseId : String,
        ((getProgress d clk userId courseId).doc.progress.map progressKey).Nodup
        ∧ ((getProgress d clk userId courseId).doc.progress.map progressKey = d.progress.map progressKey
           ∨ ((∀ p ∈ d.progress, progressKey p ≠ (.str userId, courseId))
              ∧ ∃ p, (getProgress d clk userId courseId).doc.progress = d.progress ++ [p]
                  ∧ progressKey p = (.str userId, courseId)))) := by
  have key_new : ∀ (u c : JVal) (p : Progress), u.isObject = false →
      progressKey p = (u, jsString c) →
      d.progress.find? (progressMatches u c) = none →
      (∀ q ∈ d.progress, progressKey q ≠ (u, jsString c))
      ∧ ((d.progress ++ [p]).map progressKey).Nodup := by
    intro u c p hprim hk hf
    have hnone : ∀ q ∈ d.progress, progressKey q ≠ (u, jsString c) := by
      intro q hq hkey
      have := List.find?_eq_none.mp hf q hq
      rw [(progressMatches_iff_key u c q hprim).mpr hkey] at this
      exact this rfl
    refine ⟨hnone, ?_⟩
    rw [List.map_append, List.nodup_append]
    refine ⟨h, by simp, ?_⟩
    intro k hk1 hk2
    simp only [List.map_cons, List.map_nil, List.mem_singleton] at hk2
    obtain ⟨q, hq, hqk⟩ := List.mem_map.mp hk1
    exact hnone q hq (by rw [hqk, hk2, hk])
  have key_same : ∀ (u c : JVal) (p1 : Progress), progressKey p1 = (u, jsString c) →
      (updateFirst (progressMatches u c) (fun _ => p1) d.progress).map progressKey
        = d.progress.map progressKey := by
    intro u c p1 hk
    apply updateFirst_map_eq
    intro a ha
    rw [hk, progressKey_of_matches u c a ha]
  constructor
  · intro req hprim
    by_cases hacc : truthy req.userId = true ∧ truthy req.courseId = true
    · cases hf : d.progress.find? (progressMatches req.userId req.courseId) with
      | none =>
        rw [postProgressUpdate_new d clk req hacc.1 hacc.2 hf]
        obtain ⟨h1, h2⟩ := key_new req.userId req.courseId
          (recordOpened d clk req (newProgress clk req.userId req.courseId)) hprim rfl hf
        exact ⟨h2, Or.inr ⟨h1, _, rfl, rfl⟩⟩
      | some q =>
        have hq : progressMatches req.userId req.courseId q = true := by
          have := List.find?_some hf
          simpa using this
        rw [postProgressUpdate_found d clk req hacc.1 hacc.2 q hf]
        have e := key_same req.userId req.courseId (recordOpened d clk req q)
          ((progressKey_recordOpened d clk req q).trans (progressKey_of_matches _ _ q hq))
        exact ⟨by rw [e]; exact h, Or.inl e⟩
    · rw [postProgressUpdate_rejected d clk req hacc]
      exact ⟨h, Or.inl rfl⟩
  · intro userId courseId
    cases hf : d.progress.find? (progressMatches (.str userId) (.str courseId)) with
    | none =>
      rw [getProgress_new d clk userId courseId hf]
      obtain ⟨h1, h2⟩ := key_new (.str userId) (.str courseId)
        (refreshRate d clk courseId (newProgress clk (.str userId) (.str courseId))) rfl rfl hf
      exact ⟨h2, Or.inr ⟨h1, _, rfl, rfl⟩⟩
    | some q =>
      have hq : progressMatches (.str userId) (.str courseId) q = true := by
        have := List.find?_some hf
        simpa using this
      rw [getProgress_found d clk userId courseId q hf]
      have e := key_same (.str userId) (.str courseId) (refreshRate d clk courseId q)
        ((progressKey_refreshRate d clk courseId q).trans (progressKey_of_matches _ _ q hq))
      exact ⟨by rw [e]; exact h, Or.inl e⟩

/-- C5, witness: the one-lesson document, read for another trainee. -/
theorem C5_one_record_per_pair_witness :
    (oneLessonDoc.progress.map progressKey).Nodup
    ∧ ((getProgress oneLessonDoc sampleClock "T2002" "5").doc.progress.map progressKey).Nodup :=
  ⟨by decide, ((C5_one_record_per_pair oneLessonDoc sampleClock (by decide)).2 "T2002" "5").1⟩

/-- C6: the read route returns the record it finds for (user id, course id),
with every field but the recomputed rate and the time stamp as stored, and adds
no record; when it finds none it appends exactly one record and returns it,
carrying the request's user id and course id, empty opened lists and rate 0. -/
theorem C6_getOrInit (d : Document) (clk : Clock) (userId courseId : String) :
    (∀ p0, d.progress.find? (progressMatches (.str userId) (.str courseId)) = some p0 →
      ∃ p, (getProgress d clk userId courseId).progress = some p
        ∧ p = { p0 with completionRate := p.completionRate, lastUpdated := clk.iso }
        ∧ p.openedLessons = p0.openedLessons ∧ p.openedAssessments = p0.openedAssessments
        ∧ (getProgress d clk userId courseId).doc.progress
            = updateFirst (progressMatches (.str userId) (.str courseId)) (fun _ => p) d.progress
        ∧ (getProgress d clk userId courseId).doc.progress.length = d.progress.length)
    ∧ (d.progress.find? (progressMatches (.str userId) (.str courseId)) = none →
      ∃ p, (getProgress d clk userId courseId).progress = some p
        ∧ (getProgress d clk userId courseId).doc.progress = d.progress ++ [p]
        ∧ p.userId = .str userId ∧ p.courseId = .str courseId
        ∧ p.openedLessons = [] ∧ p.openedAssessments = [] ∧ p.completionRate = 0) := by
  constructor
  · intro p0 hf
    rw [getProgress_found d clk userId courseId p0 hf]
    exact ⟨_, rfl, rfl, rfl, rfl, rfl, updateFirst_length _ _ _⟩
  · intro hf
    rw [getProgress_new d clk userId courseId hf]
    exact ⟨_, rfl, rfl, rfl, rfl, rfl, rfl, completionRateOf_zero _⟩

/-- C6, witness: the existing record of trainee T1001 and a first read for
trainee T2002 on the one-lesson document. -/
theorem C6_getOrInit_witness :
    (∃ p, (getProgress oneLessonDoc sampleClock "T1001" "5").progress = some p
        ∧ p.openedLessons = [.num 1]
        ∧ (getProgress oneLessonDoc sampleClock "T1001" "5").doc.progress.length = 1)
    ∧ (∃ p, (getProgress oneLessonDoc sampleClock "T2002" "5").progress = some p
        ∧ (getProgress oneLessonDoc sampleClock "T2002" "5").doc.progress
            = oneLessonDoc.progress ++ [p]
        ∧ p.completionRate = 0) := by
  obtain ⟨p, h1, _, h3, _, _, h6⟩ := (C6_getOrInit oneLessonDoc sampleClock "T1001" "5").1
    { id := 1, userId := .str "T1001", courseId := .num 5, openedLessons := [.num 1],
      openedAssessments := [], completionRate := 100, lastUpdated := "2024-12-31T00:00:00.000Z" }
    (by decide)
  obtain ⟨q, k1, k2, _, _, _, _, k7⟩ :=
    (C6_getOrInit oneLessonDoc sampleClock "T2002" "5").2 (by decide)
  exact ⟨⟨p, h1, h3, h6⟩, ⟨q, k1, k2, k7⟩⟩

/-- C2, witness: the scenario request on the two-lesson document. -/
theorem C2_rate_bounded_when_opened_within_total_witness :
    ∃ p, (postProgressUpdate twoLessonDoc sampleClock openLesson42).progress = some p
      ∧ p.completionRate ≤ 100 :=
  ⟨_, rfl, (C2_rate_bounded_when_opened_within_total twoLessonDoc sampleClock).1 openLesson42 _ rfl
    (by decide)⟩

/-- C7: when some course matches the id (under `==`), `DELETE /api/courses/:id`
answers 200 and the courses, lessons and assessments that remain are exactly
those whose id (course id) does not match, in their original order, so no
matching course, lesson or assessment remains and every other one does; the
other collections are untouched.  When no course matches it answers 404 and
leaves the document unchanged. -/
theorem C7_delete_course_cascades (rt : Runtime) (cwd : String) (fileExists : String → Bool)
    (d : Document) (id : String) :
    ((∃ c ∈ d.courses, looseEqStr rt c.id id = true) →
      (deleteCourse rt cwd fileExists d id).status = 200
      ∧ (deleteCourse rt cwd fileExists d id).doc.courses
          = d.courses.filter (fun c => !looseEqStr rt c.id id)
      ∧ (deleteCourse rt cwd fileExists d id).doc.lessons
          = d.lessons.filter (fun l => !looseEqStr rt l.courseId id)
      ∧ (deleteCourse rt cwd fileExists d id).doc.assessments
          = d.assessments.filter (fun a => !looseEqStr rt a.courseId id)
      ∧ (∀ c, c ∈ (deleteCourse rt cwd fileExists d id).doc.courses
          ↔ c ∈ d.courses ∧ looseEqStr rt c.id id = false)
      ∧ (∀ l, l ∈ (deleteCourse rt cwd fileExists d id).doc.lessons
          ↔ l ∈ d.lessons ∧ looseEqStr rt l.courseId id = false)
      ∧ (∀ a, a ∈ (deleteCourse rt cwd fileExists d id).doc.assessments
          ↔ a ∈ d.assessments ∧ looseEqStr rt a.courseId id = false)
      ∧ (deleteCourse rt cwd fileExists d id).doc.courses.Sublist d.courses
      ∧ (deleteCourse rt cwd fileExists d id).doc.lessons.Sublist d.lessons
      ∧ (deleteCourse rt cwd fileExists d id).doc.assessments.Sublist d.assessments
      ∧ (deleteCourse rt cwd fileExists d id).doc.users = d.users
      ∧ (deleteCourse rt cwd fileExists d id).doc.progress = d.progress
      ∧ (deleteCourse rt cwd fileExists d id).doc.assigned = d.assigned)
    ∧ ((∀ c ∈ d.courses, looseEqStr rt c.id id = false) →
      (deleteCourse rt cwd fileExists d id).status = 404
      ∧ (deleteCourse rt cwd fileExists d id).doc = d) := by
  constructor
  · rintro ⟨c, hc, hm⟩
    cases hf : d.courses.find? (fun c => looseEqStr rt c.id id) with
    | none =>
      have := List.find?_eq_none.mp hf c hc
      simp [hm] at this
    | some course =>
      simp [deleteCourse, hf, List.mem_filter]
  · intro hnone
    have hf : d.courses.find? (fun c => looseEqStr rt c.id id) = none := by
      rw [List.find?_eq_none]
      intro c hc
      simp [hnone c hc]
    simp [deleteCourse, hf]

/-- C7, witness: deleting course 5 from the two-course document keeps course 6
and its lesson; deleting course 7 is answered 404. -/
theorem C7_delete_course_cascades_witness :
    ((deleteCourse asciiRuntime "/srv" (fun _ => false) twoCourseDoc "5").status = 200
      ∧ (deleteCourse asciiRuntime "/srv" (fun _ => false) twoCourseDoc "5").doc.lessons
          = twoCourseDoc.lessons.filter (fun l => !looseEqStr asciiRuntime l.courseId "5"))
    ∧ (deleteCourse asciiRuntime "/srv" (fun _ => false) twoCourseDoc "7").status = 404 :=
  ⟨⟨((C7_delete_course_cascades asciiRuntime "/srv" (fun _ => false) twoCourseDoc "5").1
      ⟨sampleCourse (.num 5), by decide, by decide⟩).1,
    ((C7_delete_course_cascades asciiRuntime "/srv" (fun _ => false) twoCourseDoc "5").1
      ⟨sampleCourse (.num 5), by decide, by decide⟩).2.2.1⟩,
   ((C7_delete_course_cascades asciiRuntime "/srv" (fun _ => false) twoCourseDoc "7").2
      (by decide)).1⟩

/-! ## Theorems on user registration -/

theorem genUserId_fresh (users : List User) (pfx : String) (draw : Nat → Nat) (fuel : Nat) :
    ∀ (i : Nat) (id : String), genUserId users pfx draw fuel i = some id →
      ∀ v ∈ users, v.userId ≠ id := by
  induction fuel with
  | zero => intro i id h; simp [genUserId] at h
  | succ f ih =>
    intro i id h
    unfold genUserId at h
    by_cases hc : users.any (fun u => u.userId == candidateUserId pfx draw i) = true
    · rw [if_pos hc] at h
      exact ih (i + 1) id h
    · rw [if_neg hc] at h
      simp only [Option.some.injEq] at h
      subst h
      intro v hv hEq
      apply hc
      rw [List.any_eq_true]
      exact ⟨v, hv, by simp [hEq]⟩

theorem genUserId_terminates (users : List User) (pfx : String) (draw : Nat → Nat) (k : Nat)
    (hk : ∀ v ∈ users, v.userId ≠ candidateUserId pfx draw k) (fuel : Nat) :
    ∀ i : Nat, i ≤ k → k < i + fuel → ∃ id, genUserId users pfx draw fuel i = some id := by
  induction fuel with
  | zero => intro i h1 h2; omega
  | succ f ih =>
    intro i h1 h2
    unfold genUserId
    by_cases hc : users.any (fun u => u.userId == candidateUserId pfx draw i) = true
    · rw [if_pos hc]
      have hne : i ≠ k := by
        intro hik
        subst hik
        rw [List.any_eq_true] at hc
        obtain ⟨v, hv, hEq⟩ := hc
        exact hk v hv (by simpa using hEq)
      exact ih (i + 1) (by omega) (by omega)
    · rw [if_neg hc]
      exact ⟨_, rfl⟩

/-- C8: a registration request that carries all four required fields and whose
email equals, ignoring letter case, the email of a stored user is answered 409
and leaves the document, hence the users collection, as it was. -/
theorem C8_duplicate_email_conflict (rt : Runtime) (clk : Clock) (draw : Nat → Nat)
    (hash : String → String) (fuel : Nat) (d : Document) (body : NewUserBody) (email : String)
    (hname : truthy body.fullName = true) (htype : truthy body.userType = true)
    (hpass : truthy body.password = true)
    (hemail : body.email = .str email) (hne : email ≠ "")
    (hdup : ∃ u ∈ d.users, rt.toLowerCase u.email = rt.toLowerCase email) :
    ∃ r, postUsersAdd rt clk draw hash fuel d body = some r
      ∧ r.status = 409 ∧ r.user = none
      ∧ r.doc.users = d.users ∧ r.doc.users.length = d.users.length ∧ r.doc = d := by
  obtain ⟨u, hu, hEq⟩ := hdup
  have hte : truthy (JVal.str email) = true := by simp [truthy, hne]
  cases hf : d.users.find? (fun u => rt.toLowerCase u.email == rt.toLowerCase email) with
  | none =>
    have := List.find?_eq_none.mp hf u hu
    simp [hEq] at this
  | some v =>
    refine ⟨{ status := 409, user := none, doc := d }, ?_, rfl, rfl, rfl, rfl, rfl⟩
    simp [postUsersAdd, hname, htype, hpass, hte, hemail, hf]

/-- C8, witness: the stored email `a@b.c` submitted again as `A@B.C`. -/
theorem C8_duplicate_email_conflict_witness :
    ∃ r, postUsersAdd asciiRuntime sampleClock countingDraw sampleHash 5
          (usersDoc [sampleUser "T1234" "a@b.c"]) (sampleBody "A@B.C") = some r
      ∧ r.status = 409 ∧ r.user = none
      ∧ r.doc.users = (usersDoc [sampleUser "T1234" "a@b.c"]).users
      ∧ r.doc.users.length = (usersDoc [sampleUser "T1234" "a@b.c"]).users.length
      ∧ r.doc = usersDoc [sampleUser "T1234" "a@b.c"] :=
  C8_duplicate_email_conflict asciiRuntime sampleClock countingDraw sampleHash 5
    (usersDoc [sampleUser "T1234" "a@b.c"]) (sampleBody "A@B.C") "A@B.C"
    (by decide) (by decide) (by decide) rfl (by decide)
    ⟨sampleUser "T1234" "a@b.c", by decide, by decide⟩

/-- C9, the code at the failing input: the stored emails are distinct ignoring
case, the request's email is `A@B.C` followed by a space, the duplicate check
compares it untrimmed and lets it pass, the stored email is the trimmed
`a@b.c`, and the collection now holds that email twice. -/
theorem C9_trailing_space_duplicates_email :
    emailsDistinct asciiRuntime (usersDoc [sampleUser "T1234" "a@b.c"]).users
    ∧ ∃ r, postUsersAdd asciiRuntime sampleClock countingDraw sampleHash 5
          (usersDoc [sampleUser "T1234" "a@b.c"]) (sampleBody "A@B.C ") = some r
      ∧ r.status = 201
      ∧ r.doc.users.map (fun u => u.email) = ["a@b.c", "a@b.c"]
      ∧ ¬ emailsDistinct asciiRuntime r.doc.users := by
  refine ⟨by unfold emailsDistinct; decide, _, rfl, by decide, by decide, ?_⟩
  unfold emailsDistinct
  decide

/-- C10: when `POST /api/users/add` answers 201, exactly one user was appended
and its user id differs from the user id of every user stored before the call,
whatever the random source draws; and the id loop ends as soon as some draw
gives a candidate that no stored user has. -/
theorem C10_generated_userId_fresh (rt : Runtime) (clk : Clock) (draw : Nat → Nat)
    (hash : String → String) (d : Document) (body : NewUserBody) :
    (∀ (fuel : Nat) (r : UsersAddReply),
      postUsersAdd rt clk draw hash fuel d body = some r → r.status = 201 →
      ∃ u, r.doc.users = d.users ++ [u] ∧ r.user = some u.toSafe
        ∧ ∀ v ∈ d.users, v.userId ≠ u.userId)
    ∧ (∀ k : Nat,
        (∀ v ∈ d.users, v.userId ≠ candidateUserId (userIdPrefix body.userType) draw k) →
        ∀ fuel : Nat, k < fuel →
        ∃ id, genUserId d.users (userIdPrefix body.userType) draw fuel 0 = some id
          ∧ ∀ v ∈ d.users, v.userId ≠ id) := by
  constructor
  · intro fuel r h h201
    unfold postUsersAdd at h
    split at h
    · simp only [Option.some.injEq] at h
      subst h
      simp at h201
    · split at h
      · split at h
        · simp only [Option.some.injEq] at h
          subst h
          simp at h201
        · split at h
          · simp at h
          · rename_i userId hgen
            split at h
            · simp only [Option.some.injEq] at h
              subst h
              exact ⟨_, rfl, rfl, genUserId_fresh _ _ _ _ _ _ hgen⟩
            · simp only [Option.some.injEq] at h
              subst h
              simp at h201
      · split at h
        · split at h
          · simp at h
          · simp only [Option.some.injEq] at h
            subst h
            simp at h201
        · simp only [Option.some.injEq] at h
          subst h
          simp at h201
  · intro k hk fuel hlt
    obtain ⟨id, hid⟩ := genUserId_terminates d.users _ draw k hk fuel 0 (Nat.zero_le k) (by omega)
    exact ⟨id, hid, genUserId_fresh _ _ _ _ _ _ hid⟩

/-- C10, witness: the first draw collides with the stored id `T1234`, the
second is taken. -/
theorem C10_generated_userId_fresh_witness :
    ∃ u, (usersDoc [sampleUser "T1234" "a@b.c"]).users ++ [u]
          = (usersDoc [sampleUser "T1234" "a@b.c"]).users ++
            [newUser asciiRuntime sampleClock sampleHash "T1235" "Ben Diaz" (.str "Trainee")
              "new@b.c" "secret"]
      ∧ ∀ v ∈ (usersDoc [sampleUser "T1234" "a@b.c"]).users, v.userId ≠ u.userId := by
  obtain ⟨u, h1, _, h3⟩ := (C10_generated_userId_fresh asciiRuntime sampleClock countingDraw
    sampleHash (usersDoc [sampleUser "T1234" "a@b.c"]) (sampleBody "new@b.c")).1 5
    { status := 201,
      user := some (newUser asciiRuntime sampleClock sampleHash "T1235" "Ben Diaz"
        (.str "Trainee") "new@b.c" "secret").toSafe,
      doc := usersDoc [sampleUser "T1234" "a@b.c",
        newUser asciiRuntime sampleClock sampleHash "T1235" "Ben Diaz" (.str "Trainee")
          "new@b.c" "secret"] }
    (by decide) rfl
  exact ⟨u, h1.symm.trans (by decide), h3⟩

/-! ## Theorems on archiving and restoring -/

theorem updateFirst_apply_found {α : Type} (p : α → Bool) (f : α → α) (l : List α) (a : α)
    (h : List.find? p l = some a) :
    ∃ pre post, l = pre ++ a :: post ∧ (∀ x ∈ pre, p x = false)
      ∧ updateFirst p f l = pre ++ f a :: post := by
  induction l with
  | nil => simp at h
  | cons x xs ih =>
    by_cases hx : p x = true
    · simp only [List.find?, hx, Option.some.injEq] at h
      subst h
      exact ⟨[], xs, rfl, by simp, by simp [updateFirst, hx]⟩
    · simp only [List.find?, hx] at h
      obtain ⟨pre, post, h1, h2, h3⟩ := ih h
      refine ⟨x :: pre, post, by simp [h1], ?_, ?_⟩
      · intro y hy
        simp only [List.mem_cons] at hy
        rcases hy with hy | hy
        · subst hy; simpa using hx
        · exact h2 y hy
      · unfold updateFirst
        rw [if_neg hx, h3]
        rfl

/-- C11: when the user that `PATCH /api/users/:id/archive` finds for the id has
status "Archived", the answer is 400 and the document is as it was, so that
user's status and archive date and every other user are unchanged. -/
theorem C11_archive_rejects_archived (d : Document) (clk : Clock) (userId : String) (u : User)
    (hfind : d.users.find? (fun v => v.userId == userId) = some u)
    (harch : u.status = "Archived") :
    (patchArchive d clk userId).status = 400
    ∧ (patchArchive d clk userId).doc = d
    ∧ (patchArchive d clk userId).doc.users = d.users
    ∧ (patchArchive d clk userId).doc.users.find? (fun v => v.userId == userId) = some u := by
  have e : patchArchive d clk userId = { status := 400, user := none, doc := d } := by
    simp [patchArchive, hfind, harch]
  rw [e]
  exact ⟨rfl, rfl, rfl, hfind⟩

/-- C11, witness: archiving the archived trainee T1002 again. -/
theorem C11_archive_rejects_archived_witness :
    (patchArchive threeUsersDoc sampleClock "T1002").status = 400
    ∧ (patchArchive threeUsersDoc sampleClock "T1002").doc = threeUsersDoc :=
  ⟨(C11_archive_rejects_archived threeUsersDoc sampleClock "T1002"
      (archivedUser "T1002" "ben@b.c" "2024-12-24T00:00:00.000Z") (by decide) (by decide)).1,
   (C11_archive_rejects_archived threeUsersDoc sampleClock "T1002"
      (archivedUser "T1002" "ben@b.c" "2024-12-24T00:00:00.000Z") (by decide) (by decide)).2.1⟩

/-- C12: when the user that `PATCH /api/archived-users/restore/:id` finds for
the id has a status other than "Archived", the answer is 400 and the document is
as it was; when the status is "Archived" the answer is 200, the returned user is
the found one with status "Active" and an empty archive date, it replaces the
found one in place, and nothing else changes. -/
theorem C12_restore_only_archived (d : Document) (userId : String) (u : User)
    (hfind : d.users.find? (fun v => v.userId == userId) = some u) :
    (u.status ≠ "Archived" →
      (patchRestore d userId).status = 400
      ∧ (patchRestore d userId).doc = d
      ∧ (patchRestore d userId).doc.users = d.users)
    ∧ (u.status = "Archived" →
      (patchRestore d userId).status = 200
      ∧ (∃ r, (patchRestore d userId).user = some r
          ∧ r.status = "Active" ∧ r.dateArchived = ""
          ∧ r = { u with status := "Active", dateArchived := "" }
          ∧ ∃ pre post, d.users = pre ++ u :: post
              ∧ (patchRestore d userId).doc.users = pre ++ r :: post)
      ∧ (patchRestore d userId).doc = { d with users := (patchRestore d userId).doc.users }) := by
  constructor
  · intro hne
    have e : patchRestore d userId = { status := 400, user := none, doc := d } := by
      simp [patchRestore, hfind, hne]
    rw [e]
    exact ⟨rfl, rfl, rfl⟩
  · intro harch
    have e : patchRestore d userId =
        { status := 200, user := some (restored u),
          doc := { d with
            users := updateFirst (fun v => v.userId == userId) restored d.users } } := by
      simp [patchRestore, hfind, harch]
    rw [e]
    obtain ⟨pre, post, h1, _, h3⟩ := updateFirst_apply_found _ restored d.users u hfind
    exact ⟨rfl, ⟨restored u, rfl, rfl, rfl, rfl, pre, post, h1, h3⟩, rfl⟩

/-- C12, witness: restoring the active trainee T1001 is refused, restoring the
archived trainee T1002 succeeds. -/
theorem C12_restore_only_archived_witness :
    (patchRestore threeUsersDoc "T1001").status = 400
    ∧ (patchRestore threeUsersDoc "T1002").status = 200 :=
  ⟨((C12_restore_only_archived threeUsersDoc "T1001" (sampleUser "T1001" "ana@b.c")
      (by decide)).1 (by decide)).1,
   ((C12_restore_only_archived threeUsersDoc "T1002"
      (archivedUser "T1002" "ben@b.c" "2024-12-24T00:00:00.000Z") (by decide)).2 (by decide)).1⟩

/-- C13: after `PATCH /api/archived-users/restore-all` no user has status
"Archived"; the collection has the same length, and position by position a user
that was archived is the same user with status "Active" and an empty archive
date, and a user that was not archived is unchanged. -/
theorem C13_restore_all (d : Document) :
    (patchRestoreAll d).status = 200
    ∧ (∀ u ∈ (patchRestoreAll d).doc.users, u.status ≠ "Archived")
    ∧ (patchRestoreAll d).doc.users.length = d.users.length
    ∧ (∀ (i : Nat) (u : User), d.users[i]? = some u →
        ∃ r, (patchRestoreAll d).doc.users[i]? = some r
          ∧ (u.status = "Archived" →
              r = { u with status := "Active", dateArchived := "" }
              ∧ r.status = "Active" ∧ r.dateArchived = "")
          ∧ (u.status ≠ "Archived" → r = u))
    ∧ (patchRestoreAll d).doc = { d with users := (patchRestoreAll d).doc.users } := by
  refine ⟨rfl, ?_, ?_, ?_, rfl⟩
  · intro u hu
    simp only [patchRestoreAll, List.mem_map] at hu
    obtain ⟨v, _, hv⟩ := hu
    subst hv
    unfold restoreIfArchived
    by_cases h : v.status = "Archived"
    · simp [h, restored]
    · simp [h]
  · simp [patchRestoreAll]
  · intro i u hi
    refine ⟨restoreIfArchived u, by simp [patchRestoreAll, hi], ?_, ?_⟩
    · intro h
      simp [restoreIfArchived, h, restored]
    · intro h
      simp [restoreIfArchived, h]

/-! ## Theorems on course assignments -/

theorem samePair_iff (userId courseTitle : JVal) (a : Assignment) :
    samePair userId courseTitle a = true
      ↔ strictEq a.userId userId = true ∧ strictEq a.courseTitle courseTitle = true := by
  simp [samePair]

/-- Against a user id and a course title that are primitives, the callback of
`some` tests equality of the two values. -/
theorem samePair_iff_of_primitive (userId courseTitle : JVal) (a : Assignment)
    (hu : userId.isObject = false) (ht : courseTitle.isObject = false) :
    samePair userId courseTitle a = true ↔ a.userId = userId ∧ a.courseTitle = courseTitle := by
  rw [samePair_iff, strictEq_of_primitive _ _ hu, strictEq_of_primitive _ _ ht]

/-- The insert route keeps the (user id, course title) pairs distinct when the
request carries primitives: this is the pre-insert existence check. -/
theorem postAssigned_keeps_pairs_distinct (d : Document) (clk : Clock) (body : AssignBody)
    (hu : body.userId.isObject = false) (ht : body.courseTitle.isObject = false)
    (h : (assignmentPairs (d.assigned.getD [])).Nodup) :
    (assignmentPairs ((postAssigned d clk body).doc.assigned.getD [])).Nodup := by
  unfold postAssigned
  split
  · exact h
  · simp only []
    split
    · exact h
    · rename_i hany
      simp only [Option.getD_some, assignmentPairs, List.map_append, List.map_cons, List.map_nil]
      rw [List.nodup_append]
      refine ⟨h, by simp, ?_⟩
      intro k hk hk2
      simp only [List.mem_singleton] at hk2
      obtain ⟨a, ha, hak⟩ := List.mem_map.mp hk
      apply hany
      rw [List.any_eq_true]
      refine ⟨a, ha, ?_⟩
      rw [samePair_iff_of_primitive _ _ _ hu ht]
      rw [hk2] at hak
      simp only [newAssign, Prod.mk.injEq] at hak
      exact hak

/-- C14: for a request that carries a user id and a course title, when an
assignment with the same user id and the same course title (under `===`, the
handler's test) is stored the answer is 409 and the document is as it was; when
none is stored the answer is 201 and exactly one assignment, with that user id
and course title, is appended to the collection, nothing else changing.  For a
user id and a course title that are primitives, "the same under `===`" is
equality of the values. -/
theorem C14_duplicate_assignment_conflict (d : Document) (clk : Clock) (body : AssignBody)
    (huser : truthy body.userId = true) (htitle : truthy body.courseTitle = true) :
    ((∃ a ∈ d.assigned.getD [], strictEq a.userId body.userId = true
          ∧ strictEq a.courseTitle body.courseTitle = true) →
      (postAssigned d clk body).status = 409
      ∧ (postAssigned d clk body).doc = d
      ∧ (postAssigned d clk body).doc.assigned = d.assigned)
    ∧ ((∀ a ∈ d.assigned.getD [], ¬ (strictEq a.userId body.userId = true
          ∧ strictEq a.courseTitle body.courseTitle = true)) →
      (postAssigned d clk body).status = 201
      ∧ (∃ a, (postAssigned d clk body).assignment = some a
          ∧ (postAssigned d clk body).doc.assigned = some (d.assigned.getD [] ++ [a])
          ∧ a.userId = body.userId ∧ a.courseTitle = body.courseTitle)
      ∧ (postAssigned d clk body).doc
          = { d with assigned := (postAssigned d clk body).doc.assigned })
    ∧ (body.userId.isObject = false → body.courseTitle.isObject = false →
        ∀ a : Assignment,
          (strictEq a.userId body.userId = true ∧ strictEq a.courseTitle body.courseTitle = true)
            ↔ (a.userId = body.userId ∧ a.courseTitle = body.courseTitle)) := by
  refine ⟨?_, ?_, ?_⟩
  · rintro ⟨a, ha, hu, ht⟩
    have hany : (d.assigned.getD []).any (samePair body.userId body.courseTitle) = true := by
      rw [List.any_eq_true]
      exact ⟨a, ha, (samePair_iff _ _ a).mpr ⟨hu, ht⟩⟩
    have hsome : d.assigned = some (d.assigned.getD []) := by
      cases hd : d.assigned with
      | none => rw [hd] at ha; simp at ha
      | some l => rfl
    have e : postAssigned d clk body
        = { status := 409, assignment := none,
            doc := { d with assigned := some (d.assigned.getD []) } } := by
      simp [postAssigned, huser, htitle, hany]
    rw [e, ← hsome]
    exact ⟨rfl, rfl, rfl⟩
  · intro hnone
    have hany : (d.assigned.getD []).any (samePair body.userId body.courseTitle) = false := by
      rw [List.any_eq_false]
      intro a ha
      rw [samePair_iff]
      exact hnone a ha
    have e : postAssigned d clk body
        = { status := 201, assignment := some (newAssign clk body),
            doc := { d with assigned := some (d.assigned.getD [] ++ [newAssign clk body]) } } := by
      simp [postAssigned, huser, htitle, hany]
    rw [e]
    exact ⟨rfl, ⟨_, rfl, rfl, rfl, rfl⟩, rfl⟩
  · intro hu ht a
    rw [strictEq_of_primitive _ _ hu, strictEq_of_primitive _ _ ht]

/-- C14, witness: trainee T1001 already has "Intro" and does not have "Basics". -/
theorem C14_duplicate_assignment_conflict_witness :
    (postAssigned twoAssignmentsDoc sampleClock (sampleAssignBody "T1001" "Intro")).status = 409
    ∧ (postAssigned twoAssignmentsDoc sampleClock (sampleAssignBody "T1001" "Basics")).status = 201 :=
  ⟨((C14_duplicate_assignment_conflict twoAssignmentsDoc sampleClock
      (sampleAssignBody "T1001" "Intro") (by decide) (by decide)).1
      ⟨sampleAssignment "T1001" "Intro", by decide, by decide, by decide⟩).1,
   ((C14_duplicate_assignment_conflict twoAssignmentsDoc sampleClock
      (sampleAssignBody "T1001" "Basics") (by decide) (by decide)).2.1 (by decide)).1⟩

/-- C15, the code at the failing input: trainee T1001 holds "Intro" and
"Advanced", two distinct pairs; `PUT /api/assigned/T1001` with course 2
("Advanced") rewrites the first record without any existence check, is answered
200, and the collection then holds the pair (T1001, "Advanced") twice. -/
theorem C15_reassign_duplicates_pair :
    (assignmentPairs (twoAssignmentsDoc.assigned.getD [])).Nodup
    ∧ ∃ r, putAssigned twoAssignmentsDoc "T1001"
          { courseId := .num 2, status := .str "In Progress", progress := .str "10%" } = some r
      ∧ r.status = 200
      ∧ assignmentPairs (r.doc.assigned.getD [])
          = [(.str "T1001", .str "Advanced"), (.str "T1001", .str "Advanced")]
      ∧ ¬ (assignmentPairs (r.doc.assigned.getD [])).Nodup := by
  refine ⟨by decide, _, rfl, by decide, by decide, by decide⟩

/-! ## Theorems on the code execution gateway -/

theorem compileTarget_eq_none (rt : Runtime) (tempDir : String) (language : JVal)
    (h : language ∉ supportedLanguages) : compileTarget rt tempDir language = none := by
  simp only [supportedLanguages, List.mem_cons, List.mem_singleton, List.not_mem_nil, or_false,
    not_or] at h
  simp [compileTarget, h.1, h.2.1, h.2.2.1, h.2.2.2]

/-- C16, counterexample: for `{language:"ruby", code:"puts 1"}` on a server whose
`temp_code` directory does not exist yet, the answer is 400 "Unsupported
language." but the directory has been created before the language is examined. -/
theorem C16_unsupported_language_creates_directory :
    (postCompile asciiRuntime "/srv/backend" false printsTwo (.str "ruby") (.str "puts 1")).status
        = 400
    ∧ (postCompile asciiRuntime "/srv/backend" false printsTwo (.str "ruby") (.str "puts 1")).error
        = some "Unsupported language."
    ∧ (postCompile asciiRuntime "/srv/backend" false printsTwo (.str "ruby") (.str "puts 1")).effects
        = [FsEffect.mkdir "/srv/backend/temp_code"]
    ∧ createdDirs
        (postCompile asciiRuntime "/srv/backend" false printsTwo (.str "ruby") (.str "puts 1")).effects
        ≠ [] := by
  decide

/-- C16, amended: for a request with non-empty language and code whose language
is not one of python, javascript, java, cpp, the answer is 400 with error
"Unsupported language.", no file is written and no command is executed; the
only effect is the creation of the `temp_code` directory when it does not exist. -/
theorem C16_unsupported_language_rejected (rt : Runtime) (dirname : String) (dirExists : Bool)
    (run : String → ExecResult) (language code : JVal)
    (hlang : truthy language = true) (hcode : truthy code = true)
    (hnot : language ∉ supportedLanguages) :
    (postCompile rt dirname dirExists run language code).status = 400
    ∧ (postCompile rt dirname dirExists run language code).error = some "Unsupported language."
    ∧ writtenPaths (postCompile rt dirname dirExists run language code).effects = []
    ∧ executedCommands (postCompile rt dirname dirExists run language code).effects = []
    ∧ (postCompile rt dirname dirExists run language code).effects
        = (if dirExists then [] else [FsEffect.mkdir (rt.pathJoin dirname "temp_code")]) := by
  have e : postCompile rt dirname dirExists run language code
      = { status := 400, error := some "Unsupported language.", output := none, success := none,
          effects := if dirExists then [] else [FsEffect.mkdir (rt.pathJoin dirname "temp_code")] } := by
    simp [postCompile, hlang, hcode, compileTarget_eq_none rt _ language hnot]
  rw [e]
  refine ⟨rfl, rfl, ?_, ?_, rfl⟩
  · cases dirExists <;> simp [writtenPaths]
  · cases dirExists <;> simp [executedCommands]

/-- C16, witness: the scenario request on a server whose directory exists. -/
theorem C16_unsupported_language_rejected_witness :
    (postCompile asciiRuntime "/srv/backend" true printsTwo (.str "ruby") (.str "puts 1")).status
        = 400
    ∧ (postCompile asciiRuntime "/srv/backend" true printsTwo (.str "ruby") (.str "puts 1")).error
        = some "Unsupported language."
    ∧ (postCompile asciiRuntime "/srv/backend" true printsTwo (.str "ruby") (.str "puts 1")).effects
        = [] :=
  ⟨(C16_unsupported_language_rejected asciiRuntime "/srv/backend" true printsTwo (.str "ruby")
      (.str "puts 1") (by decide) (by decide) (by decide)).1,
   (C16_unsupported_language_rejected asciiRuntime "/srv/backend" true printsTwo (.str "ruby")
      (.str "puts 1") (by decide) (by decide) (by decide)).2.1,
   (C16_unsupported_language_rejected asciiRuntime "/srv/backend" true printsTwo (.str "ruby")
      (.str "puts 1") (by decide) (by decide) (by decide)).2.2.2.2⟩

theorem postCompile_supported (rt : Runtime) (dirname : String) (dirExists : Bool)
    (run : String → ExecResult) (language : JVal) (text file cmd : String)
    (hlang : truthy language = true) (htext : text ≠ "")
    (ht : compileTarget rt (tempCodeDir rt dirname) language = some (file, cmd)) :
    (postCompile rt dirname dirExists run language (.str text)).effects
      = compileEffects rt dirname dirExists file text cmd
    ∧ (postCompile rt dirname dirExists run language (.str text)).status = 200 := by
  have hc : truthy (JVal.str text) = true := by simp [truthy, htext]
  unfold tempCodeDir at ht
  unfold postCompile
  simp only [hlang, hc, Bool.not_true, Bool.or_self, Bool.false_eq_true, if_false, ht]
  cases (run cmd).error <;> exact ⟨rfl, rfl⟩

/-- C17: for each supported language the gateway writes exactly the submitted
code text to `main.py`, `main.js`, `Main.java` or `main.cpp` under the
`temp_code` directory and then executes the command built from the language and
that path alone; two requests in the same language write the same file and
execute the same command, whatever their code. -/
theorem C17_fixed_file_and_command (rt : Runtime) (dirname : String) (dirExists : Bool)
    (run : String → ExecResult) (text : String) (htext : text ≠ "") :
    (postCompile rt dirname dirExists run (.str "python") (.str text)).effects
      = compileEffects rt dirname dirExists (rt.pathJoin (tempCodeDir rt dirname) "main.py") text
          ("python \"" ++ rt.pathJoin (tempCodeDir rt dirname) "main.py" ++ "\"")
    ∧ (postCompile rt dirname dirExists run (.str "javascript") (.str text)).effects
      = compileEffects rt dirname dirExists (rt.pathJoin (tempCodeDir rt dirname) "main.js") text
          ("node \"" ++ rt.pathJoin (tempCodeDir rt dirname) "main.js" ++ "\"")
    ∧ (postCompile rt dirname dirExists run (.str "java") (.str text)).effects
      = compileEffects rt dirname dirExists (rt.pathJoin (tempCodeDir rt dirname) "Main.java") text
          ("javac \"" ++ rt.pathJoin (tempCodeDir rt dirname) "Main.java" ++ "\" && java -cp \""
            ++ tempCodeDir rt dirname ++ "\" Main")
    ∧ (postCompile rt dirname dirExists run (.str "cpp") (.str text)).effects
      = compileEffects rt dirname dirExists (rt.pathJoin (tempCodeDir rt dirname) "main.cpp") text
          ("g++ \"" ++ rt.pathJoin (tempCodeDir rt dirname) "main.cpp" ++ "\" -o \""
            ++ tempCodeDir rt dirname ++ "/a.out\" && \"" ++ tempCodeDir rt dirname ++ "/a.out\"")
    ∧ (∀ (language : JVal) (other : String), language ∈ supportedLanguages → other ≠ "" →
        writtenPaths (postCompile rt dirname dirExists run language (.str other)).effects
          = writtenPaths (postCompile rt dirname dirExists run language (.str text)).effects
        ∧ executedCommands (postCompile rt dirname dirExists run language (.str other)).effects
          = executedCommands (postCompile rt dirname dirExists run language (.str text)).effects
        ∧ (writtenPaths
            (postCompile rt dirname dirExists run language (.str text)).effects).length = 1) := by
  have key : ∀ (language : JVal), language ∈ supportedLanguages →
      truthy language = true ∧ ∃ file cmd,
        compileTarget rt (tempCodeDir rt dirname) language = some (file, cmd) := by
    intro language hl
    simp only [supportedLanguages, List.mem_cons, List.mem_singleton, List.not_mem_nil,
      or_false] at hl
    rcases hl with h | h | h | h <;> subst h
    all_goals
      refine ⟨by decide, ?_⟩
      simp [compileTarget]
  refine ⟨?_, ?_, ?_, ?_, ?_⟩
  · exact (postCompile_supported rt dirname dirExists run _ text _ _ (by decide) htext
      (by simp [compileTarget])).1
  · exact (postCompile_supported rt dirname dirExists run _ text _ _ (by decide) htext
      (by simp [compileTarget])).1
  · exact (postCompile_supported rt dirname dirExists run _ text _ _ (by decide) htext
      (by simp [compileTarget])).1
  · exact (postCompile_supported rt dirname dirExists run _ text _ _ (by decide) htext
      (by simp [compileTarget])).1
  · intro language other hl hother
    obtain ⟨hlang, file, cmd, ht⟩ := key language hl
    rw [(postCompile_supported rt dirname dirExists run language other file cmd hlang hother ht).1,
      (postCompile_supported rt dirname dirExists run language text file cmd hlang htext ht).1]
    cases dirExists <;> simp [compileEffects, writtenPaths, executedCommands]

/-- C17, witness: `print(1+1)` submitted as python. -/
theorem C17_fixed_file_and_command_witness :
    (postCompile asciiRuntime "/srv/backend" true printsTwo (.str "python")
        (.str "print(1+1)")).effects
      = [FsEffect.writeFile "/srv/backend/temp_code/main.py" "print(1+1)",
         FsEffect.exec "python \"/srv/backend/temp_code/main.py\""] :=
  (C17_fixed_file_and_command asciiRuntime "/srv/backend" true printsTwo "print(1+1)"
    (by decide)).1.trans (by decide)

/-! ## Theorems on assessments and questions -/

/-- C18, counterexample: a creation request that carries a `questions` array
stores and returns an assessment with that array, not with an empty list. -/
theorem C18_request_questions_are_stored :
    ∃ a, (postAssessments asciiRuntime sampleClock "2025-01-01T00:00:01.123Z"
          "/srv/uploads/assessments" (assessmentsDoc [])
          (sampleAssessmentBody (some [sampleQuestion 1]))).assessment = some a
      ∧ (postAssessments asciiRuntime sampleClock "2025-01-01T00:00:01.123Z"
          "/srv/uploads/assessments" (assessmentsDoc [])
          (sampleAssessmentBody (some [sampleQuestion 1]))).doc.assessments = [a]
      ∧ a.questions = [sampleQuestion 1] ∧ a.questions ≠ [] := by
  refine ⟨_, rfl, by decide, by decide, by decide⟩

/-- C18, amended: for every accepted creation request (title, type, difficulty,
course id and lesson id present, the title a string) the assessment that is
appended to the collection and returned has the `questions` array of the
request when the request carries one, and the empty list otherwise. -/
theorem C18_created_questions (rt : Runtime) (clk : Clock) (stamp assessmentsDir : String)
    (d : Document) (body : AssessmentBody) (title : String)
    (htitle : body.title = .str title) (hpresent : title ≠ "")
    (htype : truthy body.type = true) (hdiff : truthy body.difficulty = true)
    (hcourse : truthy body.courseId = true) (hlesson : truthy body.lessonId = true) :
    (postAssessments rt clk stamp assessmentsDir d body).status = 200
    ∧ ∃ a, (postAssessments rt clk stamp assessmentsDir d body).assessment = some a
      ∧ (postAssessments rt clk stamp assessmentsDir d body).doc.assessments = d.assessments ++ [a]
      ∧ a.questions = body.questions.getD []
      ∧ (∀ qs, body.questions = some qs → a.questions = qs)
      ∧ (body.questions = none → a.questions = []) := by
  have ht : truthy (JVal.str title) = true := by simp [truthy, hpresent]
  have e : postAssessments rt clk stamp assessmentsDir d body
      = { status := 200, assessment := some (newAssessment rt clk title body),
          file := some ("/uploads/assessments/"
            ++ (safeTitle rt (snapshotBase (newAssessment rt clk title body)) ++ "_"
              ++ dashStamp stamp ++ ".json")),
          snapshot := some (rt.pathJoin assessmentsDir
            (safeTitle rt (snapshotBase (newAssessment rt clk title body)) ++ "_"
              ++ dashStamp stamp ++ ".json"), newAssessment rt clk title body),
          doc := { d with assessments := d.assessments ++ [newAssessment rt clk title body] } } := by
    simp [postAssessments, htitle, ht, htype, hdiff, hcourse, hlesson]
  rw [e]
  refine ⟨rfl, _, rfl, rfl, rfl, ?_, ?_⟩
  · intro qs hqs
    simp [newAssessment, hqs]
  · intro hnone
    simp [newAssessment, hnone]

/-- C18, witness: the sample request without a `questions` array. -/
theorem C18_created_questions_witness :
    ∃ a, (postAssessments asciiRuntime sampleClock "2025-01-01T00:00:01.123Z"
          "/srv/uploads/assessments" (assessmentsDoc []) (sampleAssessmentBody none)).assessment
        = some a
      ∧ a.questions = [] := by
  obtain ⟨_, a, h1, _, _, _, h5⟩ := C18_created_questions asciiRuntime sampleClock
    "2025-01-01T00:00:01.123Z" "/srv/uploads/assessments" (assessmentsDoc [])
    (sampleAssessmentBody none) "Quiz 1" rfl (by decide) (by decide) (by decide) (by decide)
    (by decide)
  exact ⟨a, h1, h5 rfl⟩

/-- C19, counterexample: the assessment holds one question, numbered 2; a
question appended without a number gets the number 1 + 1 = 2, which is the
number of the question already there. -/
theorem C19_default_number_collides :
    ∃ q, (postQuestions asciiRuntime sampleParsers sampleClock "/srv/uploads/assessments"
          (assessmentsDoc [sampleAssessment 7 [sampleQuestion 2]])
          (sampleQuestionBody "7")).question = some q
      ∧ q.questionNumber = 2
      ∧ ∃ q0 ∈ (sampleAssessment 7 [sampleQuestion 2]).questions,
          q0.questionNumber = q.questionNumber := by
  refine ⟨_, rfl, by decide, sampleQuestion 2, by decide, by decide⟩

/-- C19, amended: on an existing assessment with n questions, a request without
a question number (whose option list parses, when the type is mcq) is answered
200 and appends exactly one question, numbered n + 1 and placed last, leaving
the n earlier questions and every other assessment as they were; the number is
not the number of an earlier question whenever the earlier numbers are at most n. -/
theorem C19_append_question_default_number (rt : Runtime) (ps : Parsers) (clk : Clock)
    (assessmentsDir : String) (d : Document) (body : QuestionBody) (a : Assessment)
    (hfind : d.assessments.find? (fun x => looseEq rt x.id body.assessmentId) = some a)
    (hnum : body.questionNumber = .undefined)
    (hparse : body.questionType ≠ .str "mcq"
      ∨ ∃ options, ps.jsonParse (optionsText body.options) = some options) :
    (postQuestions rt ps clk assessmentsDir d body).status = 200
    ∧ ∃ q, (postQuestions rt ps clk assessmentsDir d body).question = some q
      ∧ q.questionNumber = (a.questions.length : Int) + 1
      ∧ (postQuestions rt ps clk assessmentsDir d body).assessment
          = some { a with questions := a.questions ++ [q] }
      ∧ (∃ pre post, d.assessments = pre ++ a :: post
          ∧ (postQuestions rt ps clk assessmentsDir d body).doc.assessments
              = pre ++ { a with questions := a.questions ++ [q] } :: post)
      ∧ (postQuestions rt ps clk assessmentsDir d body).doc
          = { d with assessments := (postQuestions rt ps clk assessmentsDir d body).doc.assessments }
      ∧ ((∀ q0 ∈ a.questions, q0.questionNumber ≤ (a.questions.length : Int)) →
          ∀ q0 ∈ a.questions, q0.questionNumber ≠ q.questionNumber) := by
  have hparsed : ∃ options,
      (if body.questionType = .str "mcq" then ps.jsonParse (optionsText body.options) else some [])
        = some options := by
    rcases hparse with h | ⟨options, h⟩
    · exact ⟨[], by rw [if_neg h]⟩
    · by_cases hm : body.questionType = .str "mcq"
      · exact ⟨options, by rw [if_pos hm, h]⟩
      · exact ⟨[], by rw [if_neg hm]⟩
  obtain ⟨options, hopt⟩ := hparsed
  have hq : (newQuestion rt ps clk body a options).questionNumber
      = (a.questions.length : Int) + 1 := by
    simp [newQuestion, questionNumberOf, hnum, jsNumber]
  obtain ⟨pre, post, h1, _, h3⟩ := updateFirst_apply_found
    (fun x => looseEq rt x.id body.assessmentId)
    (withQuestion (newQuestion rt ps clk body a options)) d.assessments a hfind
  have e : postQuestions rt ps clk assessmentsDir d body
      = { status := 200, error := none, question := some (newQuestion rt ps clk body a options),
          assessment := some (withQuestion (newQuestion rt ps clk body a options) a),
          snapshot := some (rt.pathJoin assessmentsDir (safeTitle rt (snapshotBase a) ++ ".json"),
            withQuestion (newQuestion rt ps clk body a options) a),
          doc := { d with
            assessments := updateFirst (fun x => looseEq rt x.id body.assessmentId)
                             (withQuestion (newQuestion rt ps clk body a options))
                             d.assessments } } := by
    simp [postQuestions, hfind, hopt]
  rw [e]
  refine ⟨rfl, _, rfl, hq, rfl, ⟨pre, post, h1, h3⟩, rfl, ?_⟩
  intro hle q0 hq0 heq
  have := hle q0 hq0
  rw [heq, hq] at this
  omega

/-- C19, witness: a second question appended to an assessment whose only
question is numbered 1. -/
theorem C19_append_question_default_number_witness :
    (postQuestions asciiRuntime sampleParsers sampleClock "/srv/uploads/assessments"
        (assessmentsDoc [sampleAssessment 7 [sampleQuestion 1]]) (sampleQuestionBody "7")).status
      = 200
    ∧ ∃ q, (postQuestions asciiRuntime sampleParsers sampleClock "/srv/uploads/assessments"
          (assessmentsDoc [sampleAssessment 7 [sampleQuestion 1]])
          (sampleQuestionBody "7")).question = some q
      ∧ q.questionNumber = 2 := by
  obtain ⟨h0, q, h1, h2, _⟩ := C19_append_question_default_number asciiRuntime sampleParsers
    sampleClock "/srv/uploads/assessments" (assessmentsDoc [sampleAssessment 7 [sampleQuestion 1]])
    (sampleQuestionBody "7") (sampleAssessment 7 [sampleQuestion 1]) (by decide) rfl
    (Or.inl (by decide))
  exact ⟨h0, q, h1, h2.trans (by decide)⟩

/-- C20: in `server.js`, when no stored assessment matches the assessment id
(under `==`), `POST /api/questions` answers 404 "Assessment not found.", returns
no question and no assessment, writes no snapshot file and leaves the document,
hence the assessments collection, as it was. -/
theorem C20_unknown_assessment_not_created (rt : Runtime) (ps : Parsers) (clk : Clock)
    (assessmentsDir : String) (d : Document) (body : QuestionBody)
    (hnone : ∀ a ∈ d.assessments, looseEq rt a.id body.assessmentId = false) :
    (postQuestions rt ps clk assessmentsDir d body).status = 404
    ∧ (postQuestions rt ps clk assessmentsDir d body).error = some "Assessment not found."
    ∧ (postQuestions rt ps clk assessmentsDir d body).question = none
    ∧ (postQuestions rt ps clk assessmentsDir d body).assessment = none
    ∧ (postQuestions rt ps clk assessmentsDir d body).snapshot = none
    ∧ (postQuestions rt ps clk assessmentsDir d body).doc = d
    ∧ (postQuestions rt ps clk assessmentsDir d body).doc.assessments = d.assessments := by
  have hf : d.assessments.find? (fun a => looseEq rt a.id body.assessmentId) = none := by
    rw [List.find?_eq_none]
    intro a ha
    simp [hnone a ha]
  simp [postQuestions, hf]

/-- C20, witness: a question for assessment 8 when only assessment 7 is stored. -/
theorem C20_unknown_assessment_not_created_witness :
    (postQuestions asciiRuntime sampleParsers sampleClock "/srv/uploads/assessments"
        (assessmentsDoc [sampleAssessment 7 [sampleQuestion 1]]) (sampleQuestionBody "8")).status
      = 404
    ∧ (postQuestions asciiRuntime sampleParsers sampleClock "/srv/uploads/assessments"
        (assessmentsDoc [sampleAssessment 7 [sampleQuestion 1]]) (sampleQuestionBody "8")).doc
      = assessmentsDoc [sampleAssessment 7 [sampleQuestion 1]] :=
  ⟨(C20_unknown_assessment_not_created asciiRuntime sampleParsers sampleClock
      "/srv/uploads/assessments" (assessmentsDoc [sampleAssessment 7 [sampleQuestion 1]])
      (sampleQuestionBody "8") (by decide)).1,
   (C20_unknown_assessment_not_created asciiRuntime sampleParsers sampleClock
      "/srv/uploads/assessments" (assessmentsDoc [sampleAssessment 7 [sampleQuestion 1]])
      (sampleQuestionBody "8") (by decide)).2.2.2.2.2.1⟩

/-- C13, witness: on the three-user document the archived trainee in second
position comes back active with an empty archive date. -/
theorem C13_restore_all_witness :
    ∃ r, (patchRestoreAll threeUsersDoc).doc.users[1]? = some r
      ∧ r.status = "Active" ∧ r.dateArchived = "" := by
  obtain ⟨r, h1, h2, _⟩ := (C13_restore_all threeUsersDoc).2.2.2.1 1
    (archivedUser "T1002" "ben@b.c" "2024-12-24T00:00:00.000Z") (by decide)
  exact ⟨r, h1, (h2 (by decide)).2.1, (h2 (by decide)).2.2⟩

/-- Against a string, the general loose equality is the one used for route
parameters. -/
theorem looseEq_str (rt : Runtime) (v : JVal) (id : String) :
    looseEq rt v (.str id) = looseEqStr rt v id := by
  cases v <;> simp [looseEq, looseEqStr]

/-! ## Theorems on snapshot file names -/

theorem isAlphanum_iff (c : Char) :
    c.isAlphanum = true ↔
      ((65 ≤ c.toNat ∧ c.toNat ≤ 90) ∨ (97 ≤ c.toNat ∧ c.toNat ≤ 122))
        ∨ (48 ≤ c.toNat ∧ c.toNat ≤ 57) := by
  unfold Char.isAlphanum Char.isAlpha Char.isUpper Char.isLower Char.isDigit
  simp only [Bool.or_eq_true, Bool.and_eq_true, decide_eq_true_eq, ge_iff_le]
  exact Iff.rfl

theorem isJsWord_not_space (c : Char) (h : isJsWord c = true) : isJsSpace c = false := by
  unfold isJsWord at h
  simp only [Bool.or_eq_true, decide_eq_true_eq, isAlphanum_iff] at h
  have hc : (48 ≤ c.toNat ∧ c.toNat ≤ 122) := by
    rcases h with ((h | h) | h) | h
    · omega
    · omega
    · omega
    · subst h; decide
  unfold isJsSpace
  simp only [Bool.or_eq_false_iff, Bool.and_eq_false_imp, decide_eq_false_iff_not,
    decide_eq_true_eq]
  omega

theorem isSafeChar_iff (c : Char) : isSafeChar c = true ↔ isJsWord c = true ∨ c = '-' := by
  simp [isSafeChar, isJsWord]

theorem isSafeChar_not_space (c : Char) (h : isSafeChar c = true) : isJsSpace c = false := by
  rcases (isSafeChar_iff c).mp h with h | h
  · exact isJsWord_not_space c h
  · subst h; decide

theorem maskOther_of_safe (c : Char) (h : isSafeChar c = true) : maskOther c = c := by
  unfold maskOther
  rcases (isSafeChar_iff c).mp h with h | h
  · simp [h]
  · simp [h]

theorem maskOther_safe_or_space (c : Char) :
    isSafeChar (maskOther c) = true ∨ isJsSpace (maskOther c) = true := by
  unfold maskOther
  by_cases h : (isJsWord c || isJsSpace c || decide (c = '-')) = true
  · rw [if_pos h]
    simp only [Bool.or_eq_true, decide_eq_true_eq] at h
    rcases h with (h | h) | h
    · exact Or.inl ((isSafeChar_iff c).mpr (Or.inl h))
    · exact Or.inr h
    · exact Or.inl ((isSafeChar_iff c).mpr (Or.inr h))
  · rw [if_neg h]
    exact Or.inl (by decide)

/-- After the second replacement only safe characters are left. -/
theorem collapseSpaces_safe (l : List Char)
    (hl : ∀ c ∈ l, isSafeChar c = true ∨ isJsSpace c = true) :
    ∀ (inRun : Bool), ∀ c ∈ collapseSpaces inRun l, isSafeChar c = true := by
  induction l with
  | nil => intro inRun c hc; simp [collapseSpaces] at hc
  | cons x xs ih =>
    intro inRun c hc
    have ih1 := ih (fun c hc => hl c (List.mem_cons_of_mem x hc))
    unfold collapseSpaces at hc
    by_cases hx : isJsSpace x = true
    · rw [if_pos hx] at hc
      cases inRun with
      | true =>
        simp only [if_true] at hc
        exact ih1 true c hc
      | false =>
        simp only [Bool.false_eq_true, if_false, List.mem_cons] at hc
        rcases hc with hc | hc
        · subst hc; decide
        · exact ih1 true c hc
    · rw [if_neg hx, List.mem_cons] at hc
      rcases hc with hc | hc
      · subst hc
        rcases hl c (List.mem_cons_self c xs) with h | h
        · exact h
        · exact absurd h hx
      · exact ih1 false c hc

/-- On a list of safe characters the second replacement changes nothing. -/
theorem collapseSpaces_of_safe (l : List Char) (hl : ∀ c ∈ l, isSafeChar c = true) :
    ∀ (inRun : Bool), collapseSpaces inRun l = l := by
  induction l with
  | nil => intro inRun; rfl
  | cons x xs ih =>
    intro inRun
    have hx : isJsSpace x = false := isSafeChar_not_space x (hl x (List.mem_cons_self x xs))
    unfold collapseSpaces
    simp only [hx, Bool.false_eq_true, if_false]
    rw [ih (fun c hc => hl c (List.mem_cons_of_mem x hc)) false]

theorem map_maskOther_of_safe (l : List Char) (hl : ∀ c ∈ l, isSafeChar c = true) :
    l.map maskOther = l := by
  induction l with
  | nil => rfl
  | cons x xs ih =>
    rw [List.map_cons, maskOther_of_safe x (hl x (List.mem_cons_self x xs)),
      ih (fun c hc => hl c (List.mem_cons_of_mem x hc))]

/-- The two replacements leave safe characters only. -/
theorem sanitised_chars_safe (s : String) :
    ∀ c ∈ collapseSpaces false (s.toList.map maskOther), isSafeChar c = true := by
  apply collapseSpaces_safe
  intro c hc
  obtain ⟨x, _, hx⟩ := List.mem_map.mp hc
  rw [← hx]
  exact maskOther_safe_or_space x

theorem safeTitle_eq (rt : Runtime) (htrim : TrimKeepsSpaceless rt) (s : String) :
    safeTitle rt s = String.mk (collapseSpaces false (s.toList.map maskOther)) := by
  unfold safeTitle
  apply htrim
  intro c hc
  exact isSafeChar_not_space c (sanitised_chars_safe s c hc)

theorem safeTitle_safe (rt : Runtime) (htrim : TrimKeepsSpaceless rt) (s : String) :
    ∀ c ∈ (safeTitle rt s).toList, isSafeChar c = true := by
  rw [safeTitle_eq rt htrim s]
  exact sanitised_chars_safe s

theorem safeTitle_of_safe (rt : Runtime) (htrim : TrimKeepsSpaceless rt) (s : String)
    (hs : ∀ c ∈ s.toList, isSafeChar c = true) : safeTitle rt s = s := by
  rw [safeTitle_eq rt htrim s, map_maskOther_of_safe s.toList hs,
    collapseSpaces_of_safe s.toList hs false]
  rfl

theorem asciiRuntime_trimKeepsSpaceless : TrimKeepsSpaceless asciiRuntime := by
  intro s hs
  have hno : ∀ c ∈ s.toList, isAsciiSpace c = false := by
    intro c hc
    have h := hs c hc
    cases hsp : isAsciiSpace c with
    | false => rfl
    | true =>
      exfalso
      unfold isAsciiSpace at hsp
      simp only [Bool.or_eq_true, decide_eq_true_eq] at hsp
      rcases hsp with ((hsp | hsp) | hsp) | hsp <;> subst hsp <;> simp [isJsSpace] at h
  have hdrop : ∀ l : List Char, (∀ c ∈ l, isAsciiSpace c = false) →
      l.dropWhile isAsciiSpace = l := by
    intro l hl
    cases l with
    | nil => rfl
    | cons x xs => simp [List.dropWhile, hl x (List.mem_cons_self x xs)]
  show asciiTrim s = s
  unfold asciiTrim
  rw [hdrop s.toList hno, hdrop s.toList.reverse (fun c hc => hno c (List.mem_reverse.mp hc)),
    List.reverse_reverse]
  rfl

theorem createdFileName_ne_appendedFileName (rt : Runtime) (a : Assessment) (stamp : String) :
    createdFileName rt a stamp ≠ appendedFileName rt a := by
  intro h
  have h1 := congrArg String.toList h
  simp only [createdFileName, appendedFileName, String.toList, String.data_append,
    List.append_assoc] at h1
  have h2 := List.append_cancel_left h1
  simp at h2

/-- C21, the code at the failing input: "Quiz 1" is created and its snapshot is
written to `Quiz_1_2025-01-01T00-00-01-123Z.json`; the question appended to it
is answered 200 and the snapshot with the question is written to `Quiz_1.json`,
a different path, so the file written at creation never holds the question. -/
theorem C21_append_writes_another_file :
    quizCreated.snapshot.map (fun s => s.1)
        = some "/srv/uploads/assessments/Quiz_1_2025-01-01T00-00-01-123Z.json"
    ∧ quizExtended.status = 200
    ∧ quizExtended.snapshot.map (fun s => (s.1, s.2.questions.length))
        = some ("/srv/uploads/assessments/Quiz_1.json", 1)
    ∧ quizExtended.snapshot.map (fun s => s.1) ≠ quizCreated.snapshot.map (fun s => s.1) := by
  decide

theorem plain_of_chars (name : String)
    (hc : ∀ c ∈ name.toList, c ≠ '/' ∧ c ≠ '\\') (hlen : 5 ≤ name.length) :
    isPlainFileName name := by
  refine ⟨fun h => (hc _ h).1 rfl, fun h => (hc _ h).2 rfl, ?_, ?_⟩
  · intro h; rw [h] at hlen; revert hlen; decide
  · intro h; rw [h] at hlen; revert hlen; decide

theorem safe_ne_separator (c : Char) (h : isSafeChar c = true) : c ≠ '/' ∧ c ≠ '\\' := by
  constructor
  · intro hc; subst hc; revert h; decide
  · intro hc; subst hc; revert h; decide

theorem dashStamp_chars (stamp : String) (hs : ∀ c ∈ stamp.toList, c ≠ '/' ∧ c ≠ '\\') :
    ∀ c ∈ (dashStamp stamp).toList, c ≠ '/' ∧ c ≠ '\\' := by
  intro c hc
  simp only [dashStamp, String.toList, List.mem_map] at hc
  obtain ⟨x, hx, hxc⟩ := hc
  by_cases h : (decide (x = ':') || decide (x = '.')) = true
  · rw [if_pos h] at hxc
    subst hxc
    decide
  · rw [if_neg h] at hxc
    subst hxc
    exact hs _ hx

/-- C30: for every title the sanitised name consists of ASCII letters, digits,
underscores and hyphens only, so it holds no `/`, no `\` and no `.`; sanitising
it again returns it unchanged; and the snapshot path written by the creation
route and by the question route is the assessments directory joined with a
file name that has no separator in it and is neither `.` nor `..`.  (`trim`
leaves a string without white space as it is, and an ISO time stamp holds no
separator.) -/
theorem C30_sanitised_name_is_safe (rt : Runtime) (htrim : TrimKeepsSpaceless rt) :
    (∀ title : String,
      (∀ c ∈ (safeTitle rt title).toList, isSafeChar c = true)
      ∧ '/' ∉ (safeTitle rt title).toList
      ∧ '\\' ∉ (safeTitle rt title).toList
      ∧ '.' ∉ (safeTitle rt title).toList
      ∧ safeTitle rt (safeTitle rt title) = safeTitle rt title)
    ∧ (∀ (clk : Clock) (stamp dir : String) (d : Document) (body : AssessmentBody)
        (path : String) (a : Assessment),
        (∀ c ∈ stamp.toList, c ≠ '/' ∧ c ≠ '\\') →
        (postAssessments rt clk stamp dir d body).snapshot = some (path, a) →
        ∃ name, path = rt.pathJoin dir name ∧ isPlainFileName name)
    ∧ (∀ (ps : Parsers) (clk : Clock) (dir : String) (d : Document) (body : QuestionBody)
        (path : String) (a : Assessment),
        (postQuestions rt ps clk dir d body).snapshot = some (path, a) →
        ∃ name, path = rt.pathJoin dir name ∧ isPlainFileName name) := by
  have hsafe := safeTitle_safe rt htrim
  refine ⟨?_, ?_, ?_⟩
  · intro title
    refine ⟨hsafe title, ?_, ?_, ?_, safeTitle_of_safe rt htrim _ (hsafe title)⟩
    · intro h; exact (safe_ne_separator _ (hsafe title _ h)).1 rfl
    · intro h; exact (safe_ne_separator _ (hsafe title _ h)).2 rfl
    · intro h; have := hsafe title _ h; revert this; decide
  · intro clk stamp dir d body path a hstamp h
    unfold postAssessments at h
    split at h
    · simp at h
    · split at h
      · rename_i title _
        simp only [Option.some.injEq, Prod.mk.injEq] at h
        refine ⟨_, h.1.symm, ?_⟩
        apply plain_of_chars
        · intro c hc
          simp only [String.toList, String.data_append, List.mem_append] at hc
          rcases hc with ((hc | hc) | hc) | hc
          · exact safe_ne_separator c (hsafe _ c hc)
          · simp only [String.data, List.mem_singleton] at hc
            subst hc; decide
          · exact dashStamp_chars stamp hstamp c hc
          · have : c ∈ ['.', 'j', 's', 'o', 'n'] := hc
            simp only [List.mem_cons, List.mem_singleton, List.not_mem_nil, or_false] at this
            rcases this with h | h | h | h | h <;> subst h <;> decide
        · simp only [String.length_append]
          have : (".json" : String).length = 5 := by decide
          omega
      · simp at h
  · intro ps clk dir d body path a h
    unfold postQuestions at h
    split at h
    · simp at h
    · simp only [] at h
      split at h
      · simp at h
      · simp only [Option.some.injEq, Prod.mk.injEq] at h
        refine ⟨_, h.1.symm, ?_⟩
        apply plain_of_chars
        · intro c hc
          simp only [String.toList, String.data_append, List.mem_append] at hc
          rcases hc with hc | hc
          · exact safe_ne_separator c (hsafe _ c hc)
          · have : c ∈ ['.', 'j', 's', 'o', 'n'] := hc
            simp only [List.mem_cons, List.mem_singleton, List.not_mem_nil, or_false] at this
            rcases this with h | h | h | h | h <;> subst h <;> decide
        · simp only [String.length_append]
          have : (".json" : String).length = 5 := by decide
          omega

/-- C30, witness: the title `Quiz 1: intro/basics.v2` under the ASCII runtime. -/
theorem C30_sanitised_name_is_safe_witness :
    (∀ c ∈ (safeTitle asciiRuntime "Quiz 1: intro/basics.v2").toList, isSafeChar c = true)
    ∧ safeTitle asciiRuntime (safeTitle asciiRuntime "Quiz 1: intro/basics.v2")
        = safeTitle asciiRuntime "Quiz 1: intro/basics.v2"
    ∧ safeTitle asciiRuntime "Quiz 1: intro/basics.v2" = "Quiz_1__intro_basics_v2" :=
  ⟨((C30_sanitised_name_is_safe asciiRuntime asciiRuntime_trimKeepsSpaceless).1
      "Quiz 1: intro/basics.v2").1,
   ((C30_sanitised_name_is_safe asciiRuntime asciiRuntime_trimKeepsSpaceless).1
      "Quiz 1: intro/basics.v2").2.2.2.2,
   by decide⟩

/-! ## Theorems on the lesson upload -/

/-- The loop adds to each array the stored paths of the files of its kind, in
upload order. -/
theorem sortFiles_spec (rt : Runtime) (env : UploadEnv) (uploadsDir : String)
    (files : List UploadedFile) :
    ∀ (i : Nat) (acc : Sorted),
      (sortFiles rt env uploadsDir i acc files).handouts
        = acc.handouts ++ ((files.enumFrom i).filter
            (fun p => kindOf rt env p.2 = .handout)).map (storedPath env "handouts")
      ∧ (sortFiles rt env uploadsDir i acc files).powerpoints
        = acc.powerpoints ++ ((files.enumFrom i).filter
            (fun p => kindOf rt env p.2 = .powerpoint)).map (storedPath env "powerpoints")
      ∧ (sortFiles rt env uploadsDir i acc files).videos
        = acc.videos ++ ((files.enumFrom i).filter
            (fun p => kindOf rt env p.2 = .video)).map (storedPath env "videos") := by
  induction files with
  | nil => intro i acc; simp [sortFiles]
  | cons file rest ih =>
    intro i acc
    obtain ⟨h1, h2, h3⟩ := ih (i + 1) (sortFile rt env uploadsDir acc i file)
    simp only [sortFiles, List.enumFrom_cons]
    rw [h1, h2, h3]
    cases hk : kindOf rt env file <;>
      simp [sortFile, hk, List.filter_cons, storedPath, String.append_assoc]

theorem storedPath_ne_empty (env : UploadEnv) (folder : String) (p : Nat × UploadedFile) :
    storedPath env folder p ≠ "" := by
  intro h
  have h1 := congrArg String.length h
  simp only [storedPath, String.length_append] at h1
  have h2 : ("/uploads/lessons/" : String).length = 17 := by decide
  have h3 : ("" : String).length = 0 := by decide
  omega

theorem firstOrNull_map_storedPath (env : UploadEnv) (folder : String)
    (l : List (Nat × UploadedFile)) :
    firstOrNull (l.map (storedPath env folder)) = (l.map (storedPath env folder)).head? := by
  cases l with
  | nil => rfl
  | cons p ps => simp [firstOrNull, storedPath_ne_empty env folder p]

/-- The chain on the extension: `.pdf`, `.doc`, `.docx` are documents, `.ppt`,
`.pptx` slide decks, `.mp4`, `.mov`, `.avi`, `.mkv` videos, and every other
extension is unclassified. -/
theorem classifyExt_table (ext : String) :
    (classifyExt ext = .handout ↔ ext ∈ [".pdf", ".doc", ".docx"])
    ∧ (classifyExt ext = .powerpoint ↔ ext ∈ [".ppt", ".pptx"])
    ∧ (classifyExt ext = .video ↔ ext ∈ [".mp4", ".mov", ".avi", ".mkv"])
    ∧ (classifyExt ext = .other
        ↔ ext ∉ [".pdf", ".doc", ".docx", ".ppt", ".pptx", ".mp4", ".mov", ".avi", ".mkv"]) := by
  by_cases h : ext ∈ [".pdf", ".doc", ".docx", ".ppt", ".pptx", ".mp4", ".mov", ".avi", ".mkv"]
  · simp only [List.mem_cons, List.mem_singleton, List.not_mem_nil, or_false] at h
    rcases h with h | h | h | h | h | h | h | h | h <;> subst h <;> decide
  · have h0 := h
    simp only [List.mem_cons, List.mem_singleton, List.not_mem_nil, or_false, not_or] at h
    obtain ⟨h1, h2, h3, h4, h5, h6, h7, h8, h9⟩ := h
    have e : classifyExt ext = .other := by
      simp [classifyExt, handoutExts, powerpointExts, videoExts, h1, h2, h3, h4, h5, h6, h7, h8, h9]
    rw [e]
    simp [h1, h2, h3, h4, h5, h6, h7, h8, h9]

/-- C22: whenever `POST /api/lessons` stores a lesson, the batch was not empty
and, each file being given one kind by its lower-cased extension (`.pdf`,
`.doc`, `.docx` document; `.ppt`, `.pptx` slide deck; `.mp4`, `.mov`, `.avi`,
`.mkv` video; anything else unclassified; the three extension sets are pairwise
disjoint), the lesson's handout is the stored path of the first document file
in upload order (or null when there is none), its videos and slide decks are
the stored paths of the video and slide-deck files in upload order, and every
path in the content is the stored path of a file of that kind, so no
unclassified file appears in it. -/
theorem C22_upload_classification (rt : Runtime) (env : UploadEnv) (clk : Clock)
    (uploadsDir : String) (d : Document) (body : LessonBody) (files : List UploadedFile)
    (lesson : Lesson)
    (h : (postLessons rt env clk uploadsDir d body files).lesson = some lesson) :
    files ≠ []
    ∧ (postLessons rt env clk uploadsDir d body files).doc.lessons = d.lessons ++ [lesson]
    ∧ lesson.content.handout
        = ((filesOfKind rt env .handout files).map (storedPath env "handouts")).head?
    ∧ lesson.content.videos = (filesOfKind rt env .video files).map (storedPath env "videos")
    ∧ lesson.content.powerpoints
        = (filesOfKind rt env .powerpoint files).map (storedPath env "powerpoints")
    ∧ (∀ path ∈ lesson.content.handout.toList ++ lesson.content.videos
          ++ lesson.content.powerpoints,
        ∃ p ∈ files.enum, kindOf rt env p.2 ≠ .other
          ∧ (path = storedPath env "handouts" p ∨ path = storedPath env "videos" p
              ∨ path = storedPath env "powerpoints" p))
    ∧ (∀ ext : String,
        ¬ (handoutExts.contains ext = true ∧ powerpointExts.contains ext = true)
        ∧ ¬ (handoutExts.contains ext = true ∧ videoExts.contains ext = true)
        ∧ ¬ (powerpointExts.contains ext = true ∧ videoExts.contains ext = true))
    ∧ (∀ file : UploadedFile,
        (kindOf rt env file = .handout
          ↔ rt.toLowerCase (env.extname file.originalname) ∈ [".pdf", ".doc", ".docx"])
        ∧ (kindOf rt env file = .powerpoint
          ↔ rt.toLowerCase (env.extname file.originalname) ∈ [".ppt", ".pptx"])
        ∧ (kindOf rt env file = .video
          ↔ rt.toLowerCase (env.extname file.originalname) ∈ [".mp4", ".mov", ".avi", ".mkv"])
        ∧ (kindOf rt env file = .other
          ↔ rt.toLowerCase (env.extname file.originalname)
              ∉ [".pdf", ".doc", ".docx", ".ppt", ".pptx", ".mp4", ".mov", ".avi", ".mkv"])) := by
  obtain ⟨s1, s2, s3⟩ := sortFiles_spec rt env uploadsDir files 0
    { handouts := [], powerpoints := [], videos := [], renames := [] }
  simp only [List.nil_append] at s1 s2 s3
  have hdisj : ∀ ext : String,
      ¬ (handoutExts.contains ext = true ∧ powerpointExts.contains ext = true)
      ∧ ¬ (handoutExts.contains ext = true ∧ videoExts.contains ext = true)
      ∧ ¬ (powerpointExts.contains ext = true ∧ videoExts.contains ext = true) := by
    intro ext
    simp only [handoutExts, powerpointExts, videoExts, List.contains_cons, List.contains_nil,
      Bool.or_false, Bool.or_eq_true, beq_iff_eq]
    refine ⟨?_, ?_, ?_⟩
    · rintro ⟨h1 | h1 | h1, h2⟩ <;> subst h1 <;> revert h2 <;> decide
    · rintro ⟨h1 | h1 | h1, h2⟩ <;> subst h1 <;> revert h2 <;> decide
    · rintro ⟨h1 | h1, h2⟩ <;> subst h1 <;> revert h2 <;> decide
  by_cases hne : files.isEmpty = true
  · simp [postLessons, hne] at h
  cases hc : env.parseInt body.lessonCourse with
  | none => simp [postLessons, hne, hc] at h
  | some courseId =>
    cases ht : trimmedOr rt body.lessonTitle "Untitled Lesson" with
    | none => simp [postLessons, hne, hc, ht] at h
    | some title =>
      cases hd : trimmedOr rt body.lessonDesc "" with
      | none => simp [postLessons, hne, hc, ht, hd] at h
      | some description =>
        have e1 : ∀ k, filesOfKind rt env k files
            = (files.enumFrom 0).filter (fun p => kindOf rt env p.2 = k) := fun _ => rfl
        have hH : firstOrNull (sortFiles rt env uploadsDir 0
              { handouts := [], powerpoints := [], videos := [], renames := [] } files).handouts
            = ((filesOfKind rt env .handout files).map (storedPath env "handouts")).head? := by
          rw [s1, e1]
          exact firstOrNull_map_storedPath env "handouts" _
        have hl : (postLessons rt env clk uploadsDir d body files).lesson
            = some { id := .num clk.now, title := title, description := description,
                     courseId := .num courseId,
                     content :=
                       { handout := firstOrNull (sortFiles rt env uploadsDir 0
                           { handouts := [], powerpoints := [], videos := [], renames := [] }
                           files).handouts,
                         videos := (sortFiles rt env uploadsDir 0
                           { handouts := [], powerpoints := [], videos := [], renames := [] }
                           files).videos,
                         powerpoints := (sortFiles rt env uploadsDir 0
                           { handouts := [], powerpoints := [], videos := [], renames := [] }
                           files).powerpoints },
                     uploadedBy := orElse body.uploadedBy (.str "S1234"),
                     uploadedAt := clk.iso } := by
          simp [postLessons, hne, hc, ht, hd]
        have hdoc : (postLessons rt env clk uploadsDir d body files).doc.lessons
            = d.lessons ++ (postLessons rt env clk uploadsDir d body files).lesson.toList := by
          simp [postLessons, hne, hc, ht, hd]
        rw [h] at hdoc
        rw [hl, Option.some.injEq] at h
        subst h
        refine ⟨?_, hdoc, hH, by rw [e1]; exact s3, by rw [e1]; exact s2, ?_, hdisj,
          fun file => classifyExt_table _⟩
        · intro hnil
          apply hne
          simp [hnil]
        · intro path hpath
          simp only [List.mem_append] at hpath
          have key : ∀ (k : FileKind) (folder : String), k ≠ .other →
              path ∈ ((files.enumFrom 0).filter (fun p => kindOf rt env p.2 = k)).map
                (storedPath env folder) →
              ∃ p ∈ files.enum, kindOf rt env p.2 ≠ .other ∧ path = storedPath env folder p := by
            intro k folder hk hp
            obtain ⟨p, hp1, hp2⟩ := List.mem_map.mp hp
            rw [List.mem_filter] at hp1
            refine ⟨p, hp1.1, ?_, hp2.symm⟩
            have := hp1.2
            simp only [decide_eq_true_eq] at this
            rw [this]
            exact hk
          rcases hpath with (hp | hp) | hp
          · have hp2 : path ∈ (((filesOfKind rt env .handout files).map
                (storedPath env "handouts")).head?).toList := by
              rw [← hH]; exact hp
            rw [e1] at hp2
            have hp' := List.mem_of_mem_head? (Option.mem_toList.mp hp2)
            obtain ⟨p, h1, h2, h3⟩ := key .handout "handouts" (by decide) hp'
            exact ⟨p, h1, h2, Or.inl h3⟩
          · have hp2 : path ∈ ((files.enumFrom 0).filter
                (fun p => kindOf rt env p.2 = .video)).map (storedPath env "videos") := by
              rw [← s3]; exact hp
            obtain ⟨p, h1, h2, h3⟩ := key .video "videos" (by decide) hp2
            exact ⟨p, h1, h2, Or.inr (Or.inl h3)⟩
          · have hp2 : path ∈ ((files.enumFrom 0).filter
                (fun p => kindOf rt env p.2 = .powerpoint)).map (storedPath env "powerpoints") := by
              rw [← s2]; exact hp
            obtain ⟨p, h1, h2, h3⟩ := key .powerpoint "powerpoints" (by decide) hp2
            exact ⟨p, h1, h2, Or.inr (Or.inr h3)⟩

/-- C22, witness: of the five sample uploads the first document is the handout,
the second document and the archive are not in the content. -/
theorem C22_upload_classification_witness :
    (postLessons asciiRuntime sampleUploadEnv sampleClock "/srv/uploads" (sampleDoc [] [])
        sampleLessonBody sampleUploads).lesson = some uploadedLesson
    ∧ ((filesOfKind asciiRuntime sampleUploadEnv .handout sampleUploads).map
        (storedPath sampleUploadEnv "handouts")).head?
        = some "/uploads/lessons/handouts/1735689600000-notes.PDF"
    ∧ (filesOfKind asciiRuntime sampleUploadEnv .video sampleUploads).map
        (storedPath sampleUploadEnv "videos")
        = ["/uploads/lessons/videos/1735689600000-intro.mp4"] :=
  ⟨by decide,
   (C22_upload_classification asciiRuntime sampleUploadEnv sampleClock "/srv/uploads"
      (sampleDoc [] []) sampleLessonBody sampleUploads uploadedLesson (by decide)).2.2.1.symm,
   (C22_upload_classification asciiRuntime sampleUploadEnv sampleClock "/srv/uploads"
      (sampleDoc [] []) sampleLessonBody sampleUploads uploadedLesson (by decide)).2.2.2.1.symm⟩

/-! ## Theorems on the generic create route -/

theorem Record.get_set_same (r : Record) (key : String) (v : JVal) :
    (r.set key v).get key = v := by
  induction r with
  | nil => simp [Record.set, Record.get, List.lookup]
  | cons kw rest ih =>
    obtain ⟨k, w⟩ := kw
    unfold Record.set
    by_cases h : k = key
    · subst h
      simp [Record.get, List.lookup]
    · rw [if_neg h]
      have hb : (key == k) = false := by simpa using fun e => h e.symm
      unfold Record.get at ih ⊢
      simp only [List.lookup, hb]
      exact ih

theorem Record.get_set_other (r : Record) (key other : String) (v : JVal) (h : other ≠ key) :
    (r.set key v).get other = r.get other := by
  induction r with
  | nil =>
    have hb : (other == key) = false := by simpa using h
    simp [Record.set, Record.get, List.lookup, hb]
  | cons kw rest ih =>
    obtain ⟨k, w⟩ := kw
    unfold Record.set
    by_cases hk : k = key
    · subst hk
      have hb : (other == k) = false := by simpa using h
      simp [Record.get, List.lookup, hb]
    · rw [if_neg hk]
      unfold Record.get at ih ⊢
      cases hb : (other == k) with
      | true => simp [List.lookup, hb]
      | false => simp only [List.lookup, hb]; exact ih

/-- A field that the spread object does not mention keeps the value of the base. -/
theorem spread_get_of_not_mem (over : Record) :
    ∀ (base : Record) (key : String), key ∉ over.map Prod.fst →
      (spread base over).get key = base.get key := by
  induction over with
  | nil => intro base key _; rfl
  | cons kv rest ih =>
    intro base key hk
    simp only [List.map_cons, List.mem_cons, not_or] at hk
    show (spread (base.set kv.1 kv.2) rest).get key = base.get key
    rw [ih _ key hk.2, Record.get_set_other base kv.1 key kv.2 hk.1]

/-- A field of the spread object (whose keys are distinct) has its value in the
result. -/
theorem spread_get_of_mem (over : Record) (hnd : (over.map Prod.fst).Nodup) :
    ∀ (base : Record) (key : String) (v : JVal), (key, v) ∈ over →
      (spread base over).get key = v := by
  induction over with
  | nil => intro base key v h; simp at h
  | cons kv rest ih =>
    intro base key v h
    simp only [List.map_cons, List.nodup_cons] at hnd
    show (spread (base.set kv.1 kv.2) rest).get key = v
    rcases List.mem_cons.mp h with h | h
    · subst h
      rw [spread_get_of_not_mem rest _ _ hnd.1, Record.get_set_same]
    · exact ih hnd.2 _ key v h

theorem pushTo_cons (n : String) (c : List Record) (rest : GenericDoc) (name : String)
    (item : Record) :
    pushTo ((n, c) :: rest) name item
      = (if n = name then (n, c ++ [item]) else (n, c)) :: pushTo rest name item := rfl

theorem lookup_pushTo_same (data : GenericDoc) (name : String) (item : Record)
    (coll : List Record) (h : data.lookup name = some coll) :
    (pushTo data name item).lookup name = some (coll ++ [item]) := by
  induction data with
  | nil => simp [List.lookup] at h
  | cons entry rest ih =>
    obtain ⟨n, c⟩ := entry
    rw [pushTo_cons]
    by_cases hn : n = name
    · subst hn
      simp only [List.lookup, beq_self_eq_true, Option.some.injEq] at h
      subst h
      rw [if_pos rfl]
      simp [List.lookup]
    · have hb : (name == n) = false := by simpa using fun e => hn e.symm
      simp only [List.lookup, hb] at h
      rw [if_neg hn]
      simp only [List.lookup, hb]
      exact ih h

theorem lookup_pushTo_other (data : GenericDoc) (name other : String) (item : Record)
    (h : other ≠ name) : (pushTo data name item).lookup other = data.lookup other := by
  induction data with
  | nil => rfl
  | cons entry rest ih =>
    obtain ⟨n, c⟩ := entry
    rw [pushTo_cons]
    by_cases hn : n = name
    · subst hn
      have hb : (other == n) = false := by simpa using h
      rw [if_pos rfl]
      simp only [List.lookup, hb]
      exact ih
    · rw [if_neg hn]
      cases hb : (other == n) with
      | true => simp [List.lookup, hb]
      | false => simp only [List.lookup, hb]; exact ih

/-- C23, counterexample: a body that carries its own `id` field creates a record
with that id, not with the generated time stamp. -/
theorem C23_body_id_overrides_generated_id :
    ∃ item data, crudCreate notesDoc sampleClock "notes" [("id", .num 7), ("text", .str "second")]
        = some (item, data)
      ∧ item.get "id" = .num 7
      ∧ item.get "id" ≠ .num sampleClock.now := by
  refine ⟨_, _, rfl, by decide, by decide⟩

/-- C23, amended: on a document that has the collection, the generic create
answers the record `{ id: Date.now(), ...req.body }`: every field of the body
has the caller's value, the id is the generated time stamp unless the body has
an `id` field of its own, the record is appended as the last element of the
collection with the earlier records unchanged, and the other collections are
unchanged. -/
theorem C23_generic_create (data : GenericDoc) (clk : Clock) (name : String) (body : Record)
    (coll : List Record) (hcoll : data.lookup name = some coll)
    (hkeys : (body.map Prod.fst).Nodup) :
    ∃ item data1, crudCreate data clk name body = some (item, data1)
      ∧ (∀ key v, (key, v) ∈ body → item.get key = v)
      ∧ ("id" ∉ body.map Prod.fst → item.get "id" = .num clk.now)
      ∧ (∀ key, key ≠ "id" → key ∉ body.map Prod.fst → item.get key = .undefined)
      ∧ data1.lookup name = some (coll ++ [item])
      ∧ (∀ other, other ≠ name → data1.lookup other = data.lookup other) := by
  refine ⟨crudItem clk body, pushTo data name (crudItem clk body), ?_, ?_, ?_, ?_, ?_, ?_⟩
  · simp [crudCreate, hcoll]
  · intro key v h
    exact spread_get_of_mem body hkeys _ key v h
  · intro h
    unfold crudItem
    rw [spread_get_of_not_mem body _ "id" h]
    rfl
  · intro key hk h
    unfold crudItem
    rw [spread_get_of_not_mem body _ key h]
    have hb : (key == "id") = false := by simpa using hk
    simp [Record.get, List.lookup, hb]
  · exact lookup_pushTo_same data name _ coll hcoll
  · intro other h
    exact lookup_pushTo_other data name other _ h

/-- C23, witness: a note created from a body without an id. -/
theorem C23_generic_create_witness :
    ∃ item data1, crudCreate notesDoc sampleClock "notes" [("text", .str "second")]
        = some (item, data1)
      ∧ item.get "id" = .num sampleClock.now
      ∧ data1.lookup "notes"
          = some ([[("id", .num 1700000000000), ("text", .str "first")]] ++ [item]) := by
  obtain ⟨item, data1, h1, _, h3, _, h5, _⟩ := C23_generic_create notesDoc sampleClock "notes"
    [("text", .str "second")] [[("id", .num 1700000000000), ("text", .str "first")]]
    (by decide) (by decide)
  exact ⟨item, data1, h1, h3 (by decide), h5⟩

/-! ## Theorems on start-up and the course routes -/

/-- C24, counterexample: started without a persisted document, the server's
document has no `assigned` collection (it is not an empty list, it is absent). -/
theorem C24_default_document_lacks_assigned :
    (startup none).assigned = none ∧ (startup none).assigned ≠ some [] := by
  decide

/-- C24, amended: when no persisted document exists, the document produced by
start-up holds users, courses, lessons, assessments, submissions and progress,
each an empty list, and no assigned collection. -/
theorem C24_default_document :
    startup none
      = { users := some [], courses := some [], lessons := some [], assessments := some [],
          submissions := some [], progress := some [], assigned := none } := by
  rfl

/-- C25, counterexample: the body `{title:"Intro", description:"desc"}` is
answered 400 and no course is created, because the handler reads `courseTitle`
and `courseDesc`. -/
theorem C25_scenario_body_rejected :
    (postCourses defaultDocument sampleClock none scenarioCourseBody).status = 400
    ∧ (postCourses defaultDocument sampleClock none scenarioCourseBody).course = none
    ∧ (postCourses defaultDocument sampleClock none scenarioCourseBody).doc = defaultDocument := by
  decide

/-- C25, amended: on a document with no lessons or assessments, the body
`{courseTitle:"Intro", courseDesc:"desc"}` yields a course whose id is the
generated time stamp and whose title is "Intro"; when no stored course already
has that id, a subsequent `GET /api/courses/:id` with it returns that course
with an empty lessons list and an empty assessments list. -/
theorem C25_create_then_get_course (d : Document) (clk : Clock) (filename : Option String)
    (hlessons : d.lessons = []) (hassessments : d.assessments = [])
    (hfresh : ∀ c ∈ d.courses, jsString c.id ≠ jsString (.num clk.now)) :
    (postCourses d clk filename introCourseBody).status = 200
    ∧ ∃ c, (postCourses d clk filename introCourseBody).course = some c
      ∧ c.id = .num clk.now ∧ c.title = .str "Intro"
      ∧ (postCourses d clk filename introCourseBody).doc.courses = d.courses ++ [c]
      ∧ getCourseById (postCourses d clk filename introCourseBody).doc (jsString c.id)
          = { status := 200, course := some c, lessons := [], assessments := [] } := by
  have e : postCourses d clk filename introCourseBody
      = { status := 200,
          course := some (newCourse clk filename (CourseBody.ofRecord introCourseBody)),
          doc := { d with
            courses := d.courses ++ [newCourse clk filename (CourseBody.ofRecord introCourseBody)] } } := by
    unfold postCourses
    rw [if_neg (by decide)]
  rw [e]
  refine ⟨rfl, _, rfl, rfl, rfl, rfl, ?_⟩
  have hnone : d.courses.find? (fun c => jsString c.id == jsString (.num clk.now)) = none := by
    rw [List.find?_eq_none]
    intro c hc
    simpa using hfresh c hc
  have hfind := find?_append_new (fun c : Course => jsString c.id == jsString (.num clk.now))
    (newCourse clk filename (CourseBody.ofRecord introCourseBody)) (by simp [newCourse])
    d.courses hnone
  unfold getCourseById
  simp only [newCourse] at hfind ⊢
  rw [hfind]
  simp [hlessons, hassessments]

/-- C25, witness: the course created on the default document. -/
theorem C25_create_then_get_course_witness :
    (postCourses defaultDocument sampleClock none introCourseBody).status = 200
    ∧ ∃ c, (postCourses defaultDocument sampleClock none introCourseBody).course = some c
      ∧ c.title = .str "Intro"
      ∧ getCourseById (postCourses defaultDocument sampleClock none introCourseBody).doc
            (jsString c.id)
          = { status := 200, course := some c, lessons := [], assessments := [] } := by
  obtain ⟨h0, c, h1, _, h3, _, h5⟩ := C25_create_then_get_course defaultDocument sampleClock none
    rfl rfl (by decide)
  exact ⟨h0, c, h1, h3, h5⟩

/-- C26, the code at the failing input: on the document of a freshly started
server, which has no `assigned` collection, `PUT /api/assigned/:userId` throws
out of the handler for every user id and body, and answers nothing. -/
theorem C26_reassign_throws_without_assigned :
    defaultDocument.assigned = none
    ∧ putAssigned defaultDocument "T1001"
        { courseId := .num 2, status := .str "In Progress", progress := .str "10%" } = none
    ∧ ∀ (userId : String) (body : ReassignBody), putAssigned defaultDocument userId body = none := by
  refine ⟨rfl, rfl, fun _ _ => rfl⟩

/-! ## Theorems on the registration response, deletion dispatch and archive state -/

/-- A 201 reply of the registration route stores `newUser` and answers its
safe part. -/
theorem postUsersAdd_created (rt : Runtime) (clk : Clock) (draw : Nat → Nat)
    (hash : String → String) (fuel : Nat) (d : Document) (body : NewUserBody)
    (r : UsersAddReply) (h : postUsersAdd rt clk draw hash fuel d body = some r)
    (h201 : r.status = 201) :
    ∃ userId fullName email password,
      r.doc.users
          = d.users ++ [newUser rt clk hash userId fullName body.userType email password]
      ∧ r.user = some (newUser rt clk hash userId fullName body.userType email password).toSafe
      ∧ r.doc = { d with users := r.doc.users } := by
  unfold postUsersAdd at h
  split at h
  · simp only [Option.some.injEq] at h
    subst h
    simp at h201
  · split at h
    · split at h
      · simp only [Option.some.injEq] at h
        subst h
        simp at h201
      · split at h
        · simp at h
        · split at h
          · simp only [Option.some.injEq] at h
            subst h
            exact ⟨_, _, _, _, rfl, rfl, rfl⟩
          · simp only [Option.some.injEq] at h
            subst h
            simp at h201
    · split at h
      · split at h
        · simp at h
        · simp only [Option.some.injEq] at h
          subst h
          simp at h201
      · simp only [Option.some.injEq] at h
        subst h
        simp at h201

theorem lookup_filter_ne (l : Record) (dropped key : String) (h : key ≠ dropped) :
    (l.filter (fun field => field.1 != dropped)).lookup key = l.lookup key := by
  induction l with
  | nil => rfl
  | cons kv rest ih =>
    obtain ⟨k, v⟩ := kv
    by_cases hk : k = dropped
    · subst hk
      have hb : (key == k) = false := by simpa using h
      simp only [List.filter, bne_self_eq_false, List.lookup, hb]
      exact ih
    · have hne : (k != dropped) = true := by simpa using hk
      simp only [List.filter, hne]
      cases hb : (key == k) with
      | true => simp [List.lookup, hb]
      | false => simp only [List.lookup, hb]; exact ih

/-- C27: the user object of a 201 response of `POST /api/users/add` is the
stored record without its `password` field: it has no field of that name, its
fields are the other fields of the stored record in order, and on every other
field name it has the value the stored record has. -/
theorem C27_response_hides_password (rt : Runtime) (clk : Clock) (draw : Nat → Nat)
    (hash : String → String) (fuel : Nat) (d : Document) (body : NewUserBody)
    (r : UsersAddReply) (h : postUsersAdd rt clk draw hash fuel d body = some r)
    (h201 : r.status = 201) :
    ∃ stored safe, r.doc.users = d.users ++ [stored] ∧ r.user = some safe
      ∧ "password" ∉ safe.toJson.map Prod.fst
      ∧ safe.toJson = stored.toJson.filter (fun field => field.1 != "password")
      ∧ (∀ key, key ≠ "password" → Record.get safe.toJson key = Record.get stored.toJson key)
      ∧ Record.get safe.toJson "password" = .undefined := by
  obtain ⟨userId, fullName, email, password, h1, h2, _⟩ :=
    postUsersAdd_created rt clk draw hash fuel d body r h h201
  have hfilter : ∀ u : User,
      u.toSafe.toJson = u.toJson.filter (fun field => field.1 != "password") := by
    intro u
    simp [SafeUser.toJson, User.toJson, User.toSafe, List.filter]
  refine ⟨_, _, h1, h2, ?_, hfilter _, ?_, ?_⟩
  · simp [SafeUser.toJson]
  · intro key hk
    unfold Record.get
    rw [hfilter, lookup_filter_ne _ "password" key hk]
  · simp [Record.get, SafeUser.toJson, List.lookup]

/-- C27, witness: the registration of `new@b.c` next to a stored user. -/
theorem C27_response_hides_password_witness :
    ∃ (stored : User) (safe : SafeUser),
      (usersDoc [sampleUser "T1234" "a@b.c",
          newUser asciiRuntime sampleClock sampleHash "T1235" "Ben Diaz" (.str "Trainee")
            "new@b.c" "secret"]).users
        = (usersDoc [sampleUser "T1234" "a@b.c"]).users ++ [stored]
      ∧ "password" ∉ safe.toJson.map Prod.fst
      ∧ safe.toJson = stored.toJson.filter (fun field => field.1 != "password") := by
  obtain ⟨stored, safe, h1, _, h3, h4, _, _⟩ := C27_response_hides_password asciiRuntime
    sampleClock countingDraw sampleHash 5 (usersDoc [sampleUser "T1234" "a@b.c"])
    (sampleBody "new@b.c")
    { status := 201,
      user := some (newUser asciiRuntime sampleClock sampleHash "T1235" "Ben Diaz"
        (.str "Trainee") "new@b.c" "secret").toSafe,
      doc := usersDoc [sampleUser "T1234" "a@b.c",
        newUser asciiRuntime sampleClock sampleHash "T1235" "Ben Diaz" (.str "Trainee")
          "new@b.c" "secret"] }
    (by decide) rfl
  exact ⟨stored, safe, h1, h3, h4⟩

/-- C28, the code at the failing input: a DELETE request to
`/api/archived-users/delete-all` matches `/api/archived-users/:id`, registered
first, with id `delete-all`; on the three-user document, which holds an archived
user, it is answered 404 "Archived user not found." and no user is removed,
while the delete-all handler would have removed the archived user. -/
theorem C28_delete_all_is_shadowed :
    dispatch deleteRoutes deleteAllPath = some (.archivedUser, [("id", "delete-all")])
    ∧ (handleDelete asciiRuntime "/srv" (fun _ => false) threeUsersDoc deleteAllPath).status = 404
    ∧ (handleDelete asciiRuntime "/srv" (fun _ => false) threeUsersDoc deleteAllPath).message
        = "Archived user not found."
    ∧ (handleDelete asciiRuntime "/srv" (fun _ => false) threeUsersDoc deleteAllPath).doc
        = threeUsersDoc
    ∧ (getArchivedUsers threeUsersDoc).length = 1
    ∧ (deleteAllArchived threeUsersDoc).doc.users.length = 2
    ∧ handleDelete asciiRuntime "/srv" (fun _ => false) threeUsersDoc deleteAllPath
        ≠ deleteAllArchived threeUsersDoc := by
  decide

/-- Whatever it answers, the registration route leaves the users as they were
or appends one `newUser`. -/
theorem postUsersAdd_users (rt : Runtime) (clk : Clock) (draw : Nat → Nat)
    (hash : String → String) (fuel : Nat) (d : Document) (body : NewUserBody)
    (r : UsersAddReply) (h : postUsersAdd rt clk draw hash fuel d body = some r) :
    r.doc.users = d.users
    ∨ ∃ userId fullName email password,
        r.doc.users
          = d.users ++ [newUser rt clk hash userId fullName body.userType email password] := by
  unfold postUsersAdd at h
  split at h
  · simp only [Option.some.injEq] at h
    subst h
    exact Or.inl rfl
  · split at h
    · split at h
      · simp only [Option.some.injEq] at h
        subst h
        exact Or.inl rfl
      · split at h
        · simp at h
        · split at h
          · simp only [Option.some.injEq] at h
            subst h
            exact Or.inr ⟨_, _, _, _, rfl⟩
          · simp only [Option.some.injEq] at h
            subst h
            exact Or.inl rfl
    · split at h
      · split at h
        · simp at h
        · simp only [Option.some.injEq] at h
          subst h
          exact Or.inl rfl
      · simp only [Option.some.injEq] at h
        subst h
        exact Or.inl rfl

theorem archiveConsistent_restored (u : User) : archiveConsistent (restored u) := by
  simp [archiveConsistent, restored]

theorem archiveConsistent_archived (clk : Clock) (hiso : clk.iso ≠ "") (u : User) :
    archiveConsistent (archived clk u) := by
  simp [archiveConsistent, archived, hiso]

/-- If every user has status "Archived" exactly when the archive date is not
empty, the same holds after `POST /api/users/add`, after
`PATCH /api/users/:id/archive` (the ISO time stamp is never empty), after
`PATCH /api/archived-users/restore/:id` and after
`PATCH /api/archived-users/restore-all`; and then the users that the test of
`GET /api/users/:id` rejects are exactly those that the handler registered for
`GET /api/archived-users` selects. -/
theorem archive_state_preserved (d : Document)
    (hinv : ∀ u ∈ d.users, archiveConsistent u) :
    (∀ (rt : Runtime) (clk : Clock) (draw : Nat → Nat) (hash : String → String) (fuel : Nat)
        (body : NewUserBody) (r : UsersAddReply),
        postUsersAdd rt clk draw hash fuel d body = some r →
        ∀ u ∈ r.doc.users, archiveConsistent u)
    ∧ (∀ (clk : Clock) (userId : String), clk.iso ≠ "" →
        ∀ u ∈ (patchArchive d clk userId).doc.users, archiveConsistent u)
    ∧ (∀ (userId : String), ∀ u ∈ (patchRestore d userId).doc.users, archiveConsistent u)
    ∧ (∀ u ∈ (patchRestoreAll d).doc.users, archiveConsistent u)
    ∧ (∀ u ∈ d.users, u ∈ getArchivedUsers d ↔ u.dateArchived ≠ "")
    ∧ (∀ (userId : String) (u : User), getUserById d userId = some u → u ∉ getArchivedUsers d)
    ∧ (∀ u ∈ d.users, u ∉ getArchivedUsers d → ∃ v, getUserById d u.userId = some v) := by
  have hlisted : ∀ u ∈ d.users, u ∈ getArchivedUsers d ↔ u.dateArchived ≠ "" := by
    intro u hu
    simp only [getArchivedUsers, List.mem_filter, hu, true_and, beq_iff_eq]
    exact hinv u hu
  refine ⟨?_, ?_, ?_, ?_, hlisted, ?_, ?_⟩
  · intro rt clk draw hash fuel body r h u hu
    rcases postUsersAdd_users rt clk draw hash fuel d body r h with e | ⟨_, _, _, _, e⟩
    · rw [e] at hu
      exact hinv u hu
    · rw [e, List.mem_append, List.mem_singleton] at hu
      rcases hu with hu | hu
      · exact hinv u hu
      · subst hu
        simp [archiveConsistent, newUser]
  · intro clk userId hiso u hu
    unfold patchArchive at hu
    split at hu
    · exact hinv u hu
    · split at hu
      · exact hinv u hu
      · rcases mem_updateFirst _ _ _ u hu with h | ⟨a, _, _, _, h⟩
        · exact hinv u h
        · subst h
          exact archiveConsistent_archived clk hiso a
  · intro userId u hu
    unfold patchRestore at hu
    split at hu
    · exact hinv u hu
    · split at hu
      · exact hinv u hu
      · rcases mem_updateFirst _ _ _ u hu with h | ⟨a, _, _, _, h⟩
        · exact hinv u h
        · subst h
          exact archiveConsistent_restored a
  · intro u hu
    simp only [patchRestoreAll, List.mem_map] at hu
    obtain ⟨v, hv, hvu⟩ := hu
    subst hvu
    unfold restoreIfArchived
    split
    · exact archiveConsistent_restored v
    · exact hinv v hv
  · intro userId u hget hlist
    have hmem : u ∈ d.users := List.mem_of_find?_eq_some hget
    have hvis := List.find?_some hget
    simp only [visibleAs, Bool.and_eq_true, beq_iff_eq, Bool.not_eq_true', bne_eq_false_iff_eq]
      at hvis
    exact (hlisted u hmem).mp hlist hvis.2
  · intro u hu hnot
    have hdate : u.dateArchived = "" := by
      by_contra hne
      exact hnot ((hlisted u hu).mpr hne)
    cases hf : getUserById d u.userId with
    | some v => exact ⟨v, rfl⟩
    | none =>
      exfalso
      have := List.find?_eq_none.mp hf u hu
      simp [visibleAs, hdate] at this

/-- The three-user document satisfies the archive invariant. -/
theorem threeUsersDoc_consistent : ∀ u ∈ threeUsersDoc.users, archiveConsistent u := by
  intro u hu
  simp only [threeUsersDoc, usersDoc, List.mem_cons, List.mem_singleton, List.not_mem_nil,
    or_false] at hu
  rcases hu with h | h | h <;> subst h <;> simp [archiveConsistent, sampleUser, archivedUser]

/-- C29, the code at the failing input: on the three-user document, in which
every user has status "Archived" exactly when the archive date is not empty and
T1002 is archived, `GET /api/users/T1002` reaches its handler and hides T1002
(no user is answered), but `GET /api/archived-users` matches `/api/:collection`,
registered first, with collection `archived-users`: the document has no such
collection and the answer is the empty list, while the handler registered for
the path would have listed T1002.  The hidden users are not the listed ones. -/
theorem C29_archived_listing_is_shadowed :
    (∀ u ∈ threeUsersDoc.users, archiveConsistent u)
    ∧ dispatch getRoutes ["api", "users", "T1002"] = some (.userById, [("id", "T1002")])
    ∧ getUserById threeUsersDoc "T1002" = none
    ∧ dispatch getRoutes archivedUsersPath
        = some (.collection, [("collection", "archived-users")])
    ∧ getCollection threeUsersDoc "archived-users" = some (.arr [])
    ∧ (getArchivedUsers threeUsersDoc).map (fun u => u.userId) = ["T1002"]
    ∧ getCollection threeUsersDoc "archived-users" ≠ some (archivedUsersBody threeUsersDoc) := by
  refine ⟨threeUsersDoc_consistent, ?_, ?_, ?_, ?_, ?_, ?_⟩ <;> decide

end Metrobank
